import Mathlib

/-!
# Crop-and-resize (ROI-Align): forward sampler and backward gradient scatterer

Shallow embedding of `mask_rcnn_pytorch/roialign/crop_and_resize.cpp`.

Modelling conventions.
* `float` values are exact rationals (`ℚ`); `floorf`/`ceilf` followed by the conversion to
  `int` are `Int.floor`/`Int.ceil`.
* C `int` values are mathematical integers (`Int`) in `CropAndResizePerBox`,
  `crop_and_resize_forward` and `crop_and_resize_backward`, which describe the values
  computed as long as no `int` operation overflows (`CropAndResizePerBox_i32_exact`).
* The statements about which flat offsets are accessed use twins of these functions in
  which every `int` operation is carried out in 32 bits (`wrap32`):
  `CropAndResizePerBox_i32`, and the bounds-checked `CropAndResizePerBox_checked` and
  `crop_and_resize_backward_checked`. In the checked twins a region coordinate is a
  rational or NaN (`Option ℚ`, infinities are not represented), and converting a NaN
  coordinate to `int` stops the run.
* A raw buffer (`float*`, `int*`) is a map from the element offset relative to the base
  pointer to the stored value. A plain store replaces one entry, `+=` adds to one entry.
* `printf(...); exit(-1);` is an error result carrying the two printed integers.
* The `#pragma omp parallel for` region loop is executed sequentially, in index order.
-/

namespace CropAndResize

/-! ## Control flow and memory primitives -/

/-- Runs `body i` for `i, i+1, ...`, `n` times, threading the state. -/
def forFrom {σ : Type} (body : Int → σ → σ) : Nat → Int → σ → σ
  | 0, _, s => s
  | n + 1, i, s => forFrom body n (i + 1) (body i s)

/-- The loop `for (int i = lo; i < hi; ++i) body`. -/
def forLoop {σ : Type} (lo hi : Int) (body : Int → σ → σ) (s : σ) : σ :=
  forFrom body (hi - lo).toNat lo s

/-- Runs a body that may exit with an error; the first error stops the loop. -/
def forFromM {σ ε : Type} (body : Int → σ → Except ε σ) : Nat → Int → σ → Except ε σ
  | 0, _, s => Except.ok s
  | n + 1, i, s =>
    match body i s with
    | Except.error e => Except.error e
    | Except.ok s1 => forFromM body n (i + 1) s1

/-- The loop `for (int i = lo; i < hi; ++i) body` whose body may exit the process. -/
def forLoopM {σ ε : Type} (lo hi : Int) (body : Int → σ → Except ε σ) (s : σ) : Except ε σ :=
  forFromM body (hi - lo).toNat lo s

/-- The assignment `p[i] = v`. -/
def store {α : Type} (p : Int → α) (i : Int) (v : α) : Int → α :=
  fun j => if j = i then v else p j

/-- The accumulation `p[i] += v`. -/
def accum (p : Int → ℚ) (i : Int) (v : ℚ) : Int → ℚ :=
  fun j => if j = i then p j + v else p j

/-- What `printf("Error: batch_index %d out of range [0, %d)\n", b_in, batch_size); exit(-1);`
reports: the offending index and the batch size. -/
structure BatchIndexError where
  b_in : Int
  batch_size : Int
deriving DecidableEq, Repr

/-! ## Tensors -/

/-- A dense tensor: its sizes and its contiguous row-major data buffer. -/
structure Tensor (α : Type) where
  sizes : List Int
  data : Int → α

/-- The call `t.size(dim)`. -/
def Tensor.size {α : Type} (t : Tensor α) (dim : Nat) : Int :=
  t.sizes.getD dim 0

/-- Number of elements of the tensor. -/
def Tensor.numel {α : Type} (t : Tensor α) : Int :=
  t.sizes.prod

/-- The call `t.resize_({...})`: the sizes change, the buffer contents are unspecified and
left as they are. -/
def Tensor.resize_ {α : Type} (t : Tensor α) (sizes : List Int) : Tensor α :=
  { t with sizes := sizes }

/-- The call `t.zero_()`: every element of the tensor becomes zero. -/
def Tensor.zero_ (t : Tensor ℚ) : Tensor ℚ :=
  { t with data := fun i => if 0 ≤ i ∧ i < t.numel then 0 else t.data i }

/-! ## The forward sampler -/

/-- Embedding of `CropAndResizePerBox` (crop_and_resize.cpp, lines 7-109). Returns the
contents of `crops_data` after the call. -/
def CropAndResizePerBox (image_data : Int → ℚ) (batch_size depth image_height image_width : Int)
    (boxes_data : Int → ℚ) (box_index_data : Int → Int) (start_box limit_box : Int)
    (crops_data : Int → ℚ) (crop_height crop_width : Int) (extrapolation_value : ℚ) :
    Except BatchIndexError (Int → ℚ) :=
  let image_channel_elements : Int := image_height * image_width
  let image_elements : Int := depth * image_channel_elements
  let channel_elements : Int := crop_height * crop_width
  let crop_elements : Int := depth * channel_elements
  forLoopM start_box limit_box (fun b crops_data =>
    let y1 : ℚ := boxes_data (b * 4 + 0)
    let x1 : ℚ := boxes_data (b * 4 + 1)
    let y2 : ℚ := boxes_data (b * 4 + 2)
    let x2 : ℚ := boxes_data (b * 4 + 3)
    let b_in : Int := box_index_data b
    if b_in < 0 ∨ b_in ≥ batch_size then
      Except.error { b_in := b_in, batch_size := batch_size }
    else
      let height_scale : ℚ :=
        if crop_height > 1 then (y2 - y1) * (image_height - 1) / (crop_height - 1) else 0
      let width_scale : ℚ :=
        if crop_width > 1 then (x2 - x1) * (image_width - 1) / (crop_width - 1) else 0
      Except.ok (forLoop 0 crop_height (fun y crops_data =>
        let in_y : ℚ :=
          if crop_height > 1 then y1 * (image_height - 1) + y * height_scale
          else 0.5 * (y1 + y2) * (image_height - 1)
        if in_y < 0 ∨ in_y > image_height - 1 then
          forLoop 0 crop_width (fun x crops_data =>
            forLoop 0 depth (fun d crops_data =>
              store crops_data
                (crop_elements * b + channel_elements * d + y * crop_width + x)
                extrapolation_value) crops_data) crops_data
        else
          let top_y_index : Int := ⌊in_y⌋
          let bottom_y_index : Int := ⌈in_y⌉
          let y_lerp : ℚ := in_y - top_y_index
          forLoop 0 crop_width (fun x crops_data =>
            let in_x : ℚ :=
              if crop_width > 1 then x1 * (image_width - 1) + x * width_scale
              else 0.5 * (x1 + x2) * (image_width - 1)
            if in_x < 0 ∨ in_x > image_width - 1 then
              forLoop 0 depth (fun d crops_data =>
                store crops_data
                  (crop_elements * b + channel_elements * d + y * crop_width + x)
                  extrapolation_value) crops_data
            else
              let left_x_index : Int := ⌊in_x⌋
              let right_x_index : Int := ⌈in_x⌉
              let x_lerp : ℚ := in_x - left_x_index
              forLoop 0 depth (fun d crops_data =>
                let pimage : Int := b_in * image_elements + d * image_channel_elements
                let top_left : ℚ :=
                  image_data (pimage + (top_y_index * image_width + left_x_index))
                let top_right : ℚ :=
                  image_data (pimage + (top_y_index * image_width + right_x_index))
                let bottom_left : ℚ :=
                  image_data (pimage + (bottom_y_index * image_width + left_x_index))
                let bottom_right : ℚ :=
                  image_data (pimage + (bottom_y_index * image_width + right_x_index))
                let top : ℚ := top_left + (top_right - top_left) * x_lerp
                let bottom : ℚ := bottom_left + (bottom_right - bottom_left) * x_lerp
                store crops_data
                  (crop_elements * b + channel_elements * d + y * crop_width + x)
                  (top + (bottom - top) * y_lerp)) crops_data) crops_data) crops_data))
    crops_data

/-- Embedding of `crop_and_resize_forward` (lines 111-136). Returns the `crops` tensor after
the call. -/
def crop_and_resize_forward (image : Tensor ℚ) (boxes : Tensor ℚ) (box_index : Tensor Int)
    (extrapolation_value : ℚ) (crop_height crop_width : Int) (crops : Tensor ℚ) :
    Except BatchIndexError (Tensor ℚ) :=
  let batch_size : Int := image.size 0
  let depth : Int := image.size 1
  let image_height : Int := image.size 2
  let image_width : Int := image.size 3
  let num_boxes : Int := boxes.size 0
  let crops : Tensor ℚ := crops.resize_ [num_boxes, depth, crop_height, crop_width]
  let crops : Tensor ℚ := crops.zero_
  match CropAndResizePerBox image.data batch_size depth image_height image_width
      boxes.data box_index.data 0 num_boxes crops.data crop_height crop_width
      extrapolation_value with
  | Except.error e => Except.error e
  | Except.ok crops_data => Except.ok { crops with data := crops_data }

/-! ## The backward gradient scatterer -/

/-- Embedding of `crop_and_resize_backward` (lines 138-232). Returns the `grads_image`
tensor after the call. -/
def crop_and_resize_backward (grads : Tensor ℚ) (boxes : Tensor ℚ) (box_index : Tensor Int)
    (grads_image : Tensor ℚ) : Except BatchIndexError (Tensor ℚ) :=
  let batch_size : Int := grads_image.size 0
  let depth : Int := grads_image.size 1
  let image_height : Int := grads_image.size 2
  let image_width : Int := grads_image.size 3
  let num_boxes : Int := grads.size 0
  let crop_height : Int := grads.size 2
  let crop_width : Int := grads.size 3
  let image_channel_elements : Int := image_height * image_width
  let image_elements : Int := depth * image_channel_elements
  let channel_elements : Int := crop_height * crop_width
  let crop_elements : Int := depth * channel_elements
  let grads_image : Tensor ℚ := grads_image.zero_
  let grads_data : Int → ℚ := grads.data
  let boxes_data : Int → ℚ := boxes.data
  let box_index_data : Int → Int := box_index.data
  let grads_image_data : Int → ℚ := grads_image.data
  match forLoopM 0 num_boxes (fun b grads_image_data =>
    let y1 : ℚ := boxes_data (b * 4 + 0)
    let x1 : ℚ := boxes_data (b * 4 + 1)
    let y2 : ℚ := boxes_data (b * 4 + 2)
    let x2 : ℚ := boxes_data (b * 4 + 3)
    let b_in : Int := box_index_data b
    if b_in < 0 ∨ b_in ≥ batch_size then
      Except.error { b_in := b_in, batch_size := batch_size }
    else
      let height_scale : ℚ :=
        if crop_height > 1 then (y2 - y1) * (image_height - 1) / (crop_height - 1) else 0
      let width_scale : ℚ :=
        if crop_width > 1 then (x2 - x1) * (image_width - 1) / (crop_width - 1) else 0
      Except.ok (forLoop 0 crop_height (fun y grads_image_data =>
        let in_y : ℚ :=
          if crop_height > 1 then y1 * (image_height - 1) + y * height_scale
          else 0.5 * (y1 + y2) * (image_height - 1)
        if in_y < 0 ∨ in_y > image_height - 1 then
          grads_image_data
        else
          let top_y_index : Int := ⌊in_y⌋
          let bottom_y_index : Int := ⌈in_y⌉
          let y_lerp : ℚ := in_y - top_y_index
          forLoop 0 crop_width (fun x grads_image_data =>
            let in_x : ℚ :=
              if crop_width > 1 then x1 * (image_width - 1) + x * width_scale
              else 0.5 * (x1 + x2) * (image_width - 1)
            if in_x < 0 ∨ in_x > image_width - 1 then
              grads_image_data
            else
              let left_x_index : Int := ⌊in_x⌋
              let right_x_index : Int := ⌈in_x⌉
              let x_lerp : ℚ := in_x - left_x_index
              forLoop 0 depth (fun d grads_image_data =>
                let pimage : Int := b_in * image_elements + d * image_channel_elements
                let grad_val : ℚ :=
                  grads_data (crop_elements * b + channel_elements * d + y * crop_width + x)
                let dtop : ℚ := (1 - y_lerp) * grad_val
                let grads_image_data := accum grads_image_data
                  (pimage + (top_y_index * image_width + left_x_index)) ((1 - x_lerp) * dtop)
                let grads_image_data := accum grads_image_data
                  (pimage + (top_y_index * image_width + right_x_index)) (x_lerp * dtop)
                let dbottom : ℚ := y_lerp * grad_val
                let grads_image_data := accum grads_image_data
                  (pimage + (bottom_y_index * image_width + left_x_index))
                  ((1 - x_lerp) * dbottom)
                let grads_image_data := accum grads_image_data
                  (pimage + (bottom_y_index * image_width + right_x_index))
                  (x_lerp * dbottom)
                grads_image_data) grads_image_data) grads_image_data) grads_image_data))
    grads_image_data with
  | Except.error e => Except.error e
  | Except.ok grads_image_data => Except.ok { grads_image with data := grads_image_data }

/-! ## Closed forms of the forward sampler -/

/-- The scale factor `height_scale` / `width_scale` (lines 44-48). -/
def scale (crop_size image_size : Int) (c1 c2 : ℚ) : ℚ :=
  if crop_size > 1 then (c2 - c1) * (image_size - 1) / (crop_size - 1) else 0

/-- The mapped source coordinate `in_y` / `in_x` of output index `i` (lines 51-53, 71-73). -/
def in_coord (crop_size image_size : Int) (c1 c2 : ℚ) (i : Int) : ℚ :=
  if crop_size > 1 then c1 * (image_size - 1) + i * scale crop_size image_size c1 c2
  else 0.5 * (c1 + c2) * (image_size - 1)

/-- The range test of lines 55 and 74: the coordinate lies outside `[0, image_size - 1]`. -/
def out_of_range (image_size : Int) (c : ℚ) : Prop :=
  c < 0 ∨ c > image_size - 1

instance (image_size : Int) (c : ℚ) : Decidable (out_of_range image_size c) :=
  inferInstanceAs (Decidable (c < 0 ∨ c > image_size - 1))

/-- Row-major flat offset of the element `(n, c, y, x)` in a buffer of logical shape
`[N, C, H, W]`. -/
def idx4 (C H W n c y x : Int) : Int :=
  ((n * C + c) * H + y) * W + x

/-- The value the forward sampler stores for an in-range cell (lines 86-104): two horizontal
interpolations followed by a vertical one, over the plane `P` of one channel. -/
def lerpValue (P : Int → Int → ℚ) (in_y in_x : ℚ) : ℚ :=
  let top_left := P ⌊in_y⌋ ⌊in_x⌋
  let top_right := P ⌊in_y⌋ ⌈in_x⌉
  let bottom_left := P ⌈in_y⌉ ⌊in_x⌋
  let bottom_right := P ⌈in_y⌉ ⌈in_x⌉
  let top := top_left + (top_right - top_left) * (in_x - ⌊in_x⌋)
  let bottom := bottom_left + (bottom_right - bottom_left) * (in_x - ⌊in_x⌋)
  top + (bottom - top) * (in_y - ⌊in_y⌋)

/-- The plane of channel `d` of batch slice `k` of an image buffer, addressed as in
lines 87-97. -/
def plane (image_data : Int → ℚ) (depth image_height image_width k d : Int) :
    Int → Int → ℚ :=
  fun r c => image_data (k * (depth * (image_height * image_width)) +
    d * (image_height * image_width) + (r * image_width + c))

/-- The value the forward sampler stores at cell `(d, y, x)` of a region `(y1, x1, y2, x2)`
with batch index `b_in`. -/
def fwdCell (image_data : Int → ℚ) (depth image_height image_width : Int) (b_in : Int)
    (y1 x1 y2 x2 : ℚ) (crop_height crop_width : Int) (extrapolation_value : ℚ)
    (d y x : Int) : ℚ :=
  if out_of_range image_height (in_coord crop_height image_height y1 y2 y) then
    extrapolation_value
  else if out_of_range image_width (in_coord crop_width image_width x1 x2 x) then
    extrapolation_value
  else
    lerpValue (plane image_data depth image_height image_width b_in d)
      (in_coord crop_height image_height y1 y2 y) (in_coord crop_width image_width x1 x2 x)

/-- The body of the region loop of `CropAndResizePerBox` once the batch index has passed
validation (lines 44-107), for region `b` with coordinates `(y1, x1, y2, x2)`. -/
def fwdBox (image_data : Int → ℚ) (depth image_height image_width : Int)
    (crop_height crop_width : Int) (extrapolation_value : ℚ)
    (y1 x1 y2 x2 : ℚ) (b_in b : Int) (crops_data : Int → ℚ) : Int → ℚ :=
  let image_channel_elements : Int := image_height * image_width
  let image_elements : Int := depth * image_channel_elements
  let channel_elements : Int := crop_height * crop_width
  let crop_elements : Int := depth * channel_elements
  let height_scale : ℚ :=
    if crop_height > 1 then (y2 - y1) * (image_height - 1) / (crop_height - 1) else 0
  let width_scale : ℚ :=
    if crop_width > 1 then (x2 - x1) * (image_width - 1) / (crop_width - 1) else 0
  forLoop 0 crop_height (fun y crops_data =>
    let in_y : ℚ :=
      if crop_height > 1 then y1 * (image_height - 1) + y * height_scale
      else 0.5 * (y1 + y2) * (image_height - 1)
    if in_y < 0 ∨ in_y > image_height - 1 then
      forLoop 0 crop_width (fun x crops_data =>
        forLoop 0 depth (fun d crops_data =>
          store crops_data
            (crop_elements * b + channel_elements * d + y * crop_width + x)
            extrapolation_value) crops_data) crops_data
    else
      let top_y_index : Int := ⌊in_y⌋
      let bottom_y_index : Int := ⌈in_y⌉
      let y_lerp : ℚ := in_y - top_y_index
      forLoop 0 crop_width (fun x crops_data =>
        let in_x : ℚ :=
          if crop_width > 1 then x1 * (image_width - 1) + x * width_scale
          else 0.5 * (x1 + x2) * (image_width - 1)
        if in_x < 0 ∨ in_x > image_width - 1 then
          forLoop 0 depth (fun d crops_data =>
            store crops_data
              (crop_elements * b + channel_elements * d + y * crop_width + x)
              extrapolation_value) crops_data
        else
          let left_x_index : Int := ⌊in_x⌋
          let right_x_index : Int := ⌈in_x⌉
          let x_lerp : ℚ := in_x - left_x_index
          forLoop 0 depth (fun d crops_data =>
            let pimage : Int := b_in * image_elements + d * image_channel_elements
            let top_left : ℚ :=
              image_data (pimage + (top_y_index * image_width + left_x_index))
            let top_right : ℚ :=
              image_data (pimage + (top_y_index * image_width + right_x_index))
            let bottom_left : ℚ :=
              image_data (pimage + (bottom_y_index * image_width + left_x_index))
            let bottom_right : ℚ :=
              image_data (pimage + (bottom_y_index * image_width + right_x_index))
            let top : ℚ := top_left + (top_right - top_left) * x_lerp
            let bottom : ℚ := bottom_left + (bottom_right - bottom_left) * x_lerp
            store crops_data
              (crop_elements * b + channel_elements * d + y * crop_width + x)
              (top + (bottom - top) * y_lerp)) crops_data) crops_data) crops_data

/-- The region loop of `CropAndResizePerBox` when no batch index is rejected. -/
def fwdRegions (image_data : Int → ℚ) (depth image_height image_width : Int)
    (boxes_data : Int → ℚ) (box_index_data : Int → Int) (start_box limit_box : Int)
    (crops_data : Int → ℚ) (crop_height crop_width : Int) (extrapolation_value : ℚ) :
    Int → ℚ :=
  forLoop start_box limit_box (fun b crops_data =>
    fwdBox image_data depth image_height image_width crop_height crop_width
      extrapolation_value (boxes_data (b * 4 + 0)) (boxes_data (b * 4 + 1))
      (boxes_data (b * 4 + 2)) (boxes_data (b * 4 + 3)) (box_index_data b) b crops_data)
    crops_data

/-! ## Closed forms of the backward scatterer -/

/-- The body of the region loop of `crop_and_resize_backward` once the batch index has
passed validation (lines 183-230), for region `b` with coordinates `(y1, x1, y2, x2)`. -/
def bwdBox (grads_data : Int → ℚ) (depth image_height image_width : Int)
    (crop_height crop_width : Int) (y1 x1 y2 x2 : ℚ) (b_in b : Int)
    (grads_image_data : Int → ℚ) : Int → ℚ :=
  let image_channel_elements : Int := image_height * image_width
  let image_elements : Int := depth * image_channel_elements
  let channel_elements : Int := crop_height * crop_width
  let crop_elements : Int := depth * channel_elements
  let height_scale : ℚ :=
    if crop_height > 1 then (y2 - y1) * (image_height - 1) / (crop_height - 1) else 0
  let width_scale : ℚ :=
    if crop_width > 1 then (x2 - x1) * (image_width - 1) / (crop_width - 1) else 0
  forLoop 0 crop_height (fun y grads_image_data =>
    let in_y : ℚ :=
      if crop_height > 1 then y1 * (image_height - 1) + y * height_scale
      else 0.5 * (y1 + y2) * (image_height - 1)
    if in_y < 0 ∨ in_y > image_height - 1 then
      grads_image_data
    else
      let top_y_index : Int := ⌊in_y⌋
      let bottom_y_index : Int := ⌈in_y⌉
      let y_lerp : ℚ := in_y - top_y_index
      forLoop 0 crop_width (fun x grads_image_data =>
        let in_x : ℚ :=
          if crop_width > 1 then x1 * (image_width - 1) + x * width_scale
          else 0.5 * (x1 + x2) * (image_width - 1)
        if in_x < 0 ∨ in_x > image_width - 1 then
          grads_image_data
        else
          let left_x_index : Int := ⌊in_x⌋
          let right_x_index : Int := ⌈in_x⌉
          let x_lerp : ℚ := in_x - left_x_index
          forLoop 0 depth (fun d grads_image_data =>
            let pimage : Int := b_in * image_elements + d * image_channel_elements
            let grad_val : ℚ :=
              grads_data (crop_elements * b + channel_elements * d + y * crop_width + x)
            let dtop : ℚ := (1 - y_lerp) * grad_val
            let grads_image_data := accum grads_image_data
              (pimage + (top_y_index * image_width + left_x_index)) ((1 - x_lerp) * dtop)
            let grads_image_data := accum grads_image_data
              (pimage + (top_y_index * image_width + right_x_index)) (x_lerp * dtop)
            let dbottom : ℚ := y_lerp * grad_val
            let grads_image_data := accum grads_image_data
              (pimage + (bottom_y_index * image_width + left_x_index))
              ((1 - x_lerp) * dbottom)
            let grads_image_data := accum grads_image_data
              (pimage + (bottom_y_index * image_width + right_x_index))
              (x_lerp * dbottom)
            grads_image_data) grads_image_data) grads_image_data) grads_image_data

/-- The sum of `c i` over the iterations `i = lo, ..., hi - 1` of a `for` loop. -/
def sumRange (lo hi : Int) (c : Int → ℚ) : ℚ :=
  ∑ n in Finset.range (hi - lo).toNat, c (lo + (n : Int))

/-- What one in-range cell `(d, y, x)` with upstream gradient `g` adds to the
gradient-image entry at flat offset `j` (lines 212-227): the four weighted contributions
whose target offset is `j`. -/
def cellGrad (depth image_height image_width b_in d : Int) (in_y in_x : ℚ) (g : ℚ)
    (j : Int) : ℚ :=
  (if j = idx4 depth image_height image_width b_in d ⌊in_y⌋ ⌊in_x⌋
    then (1 - (in_x - ⌊in_x⌋)) * ((1 - (in_y - ⌊in_y⌋)) * g) else 0)
  + (if j = idx4 depth image_height image_width b_in d ⌊in_y⌋ ⌈in_x⌉
    then (in_x - ⌊in_x⌋) * ((1 - (in_y - ⌊in_y⌋)) * g) else 0)
  + (if j = idx4 depth image_height image_width b_in d ⌈in_y⌉ ⌊in_x⌋
    then (1 - (in_x - ⌊in_x⌋)) * ((in_y - ⌊in_y⌋) * g) else 0)
  + (if j = idx4 depth image_height image_width b_in d ⌈in_y⌉ ⌈in_x⌉
    then (in_x - ⌊in_x⌋) * ((in_y - ⌊in_y⌋) * g) else 0)

/-- What the cells of column `x` of row `y` of a region add to the gradient-image entry at
offset `j`, given the mapped row position is in range. -/
def colGrad (grads_data : Int → ℚ) (depth image_height image_width : Int)
    (crop_height crop_width : Int) (x1 x2 : ℚ) (b_in b : Int) (in_y : ℚ) (y x : Int)
    (j : Int) : ℚ :=
  if out_of_range image_width (in_coord crop_width image_width x1 x2 x) then 0
  else sumRange 0 depth (fun d =>
    cellGrad depth image_height image_width b_in d in_y
      (in_coord crop_width image_width x1 x2 x)
      (grads_data (idx4 depth crop_height crop_width b d y x)) j)

/-- What row `y` of a region adds to the gradient-image entry at offset `j`. -/
def rowGrad (grads_data : Int → ℚ) (depth image_height image_width : Int)
    (crop_height crop_width : Int) (y1 x1 y2 x2 : ℚ) (b_in b : Int) (y : Int)
    (j : Int) : ℚ :=
  if out_of_range image_height (in_coord crop_height image_height y1 y2 y) then 0
  else sumRange 0 crop_width (fun x =>
    colGrad grads_data depth image_height image_width crop_height crop_width x1 x2 b_in b
      (in_coord crop_height image_height y1 y2 y) y x j)

/-- What region `b` adds to the gradient-image entry at offset `j`. -/
def boxGrad (grads_data : Int → ℚ) (depth image_height image_width : Int)
    (crop_height crop_width : Int) (y1 x1 y2 x2 : ℚ) (b_in b : Int) (j : Int) : ℚ :=
  sumRange 0 crop_height (fun y =>
    rowGrad grads_data depth image_height image_width crop_height crop_width y1 x1 y2 x2
      b_in b y j)

/-- What all regions together add to the gradient-image entry at offset `j`. -/
def totalGrad (grads boxes : Tensor ℚ) (box_index : Tensor Int) (grads_image : Tensor ℚ)
    (j : Int) : ℚ :=
  sumRange 0 (grads.size 0) (fun b =>
    boxGrad grads.data (grads_image.size 1) (grads_image.size 2) (grads_image.size 3)
      (grads.size 2) (grads.size 3) (boxes.data (b * 4 + 0)) (boxes.data (b * 4 + 1))
      (boxes.data (b * 4 + 2)) (boxes.data (b * 4 + 3)) (box_index.data b) b j)

/-- The region loop of `crop_and_resize_backward` with its validation (lines 170-231), run
on the zero-filled gradient-image buffer. -/
def bwdLoop (grads boxes : Tensor ℚ) (box_index : Tensor Int) (grads_image : Tensor ℚ) :
    Except BatchIndexError (Int → ℚ) :=
  forLoopM 0 (grads.size 0) (fun b grads_image_data =>
    if box_index.data b < 0 ∨ box_index.data b ≥ grads_image.size 0 then
      Except.error { b_in := box_index.data b, batch_size := grads_image.size 0 }
    else
      Except.ok (bwdBox grads.data (grads_image.size 1) (grads_image.size 2)
        (grads_image.size 3) (grads.size 2) (grads.size 3) (boxes.data (b * 4 + 0))
        (boxes.data (b * 4 + 1)) (boxes.data (b * 4 + 2)) (boxes.data (b * 4 + 3))
        (box_index.data b) b grads_image_data))
    grads_image.zero_.data

/-- The gradient-image tensor a successful backward call returns, in closed form. -/
def bwdResult (grads boxes : Tensor ℚ) (box_index : Tensor Int) (grads_image : Tensor ℚ) :
    Tensor ℚ :=
  { sizes := grads_image.sizes,
    data := fun j => grads_image.zero_.data j + totalGrad grads boxes box_index grads_image j }

/-! ## Constructions of the specification -/

/-- The four-weight bilinear blend of the specification (section 4.1) at the position
`(py, px)` of the plane `P`. -/
def bilinear (P : Int → Int → ℚ) (py px : ℚ) : ℚ :=
  let y_lerp : ℚ := py - ⌊py⌋
  let x_lerp : ℚ := px - ⌊px⌋
  (1 - y_lerp) * (1 - x_lerp) * P ⌊py⌋ ⌊px⌋ + (1 - y_lerp) * x_lerp * P ⌊py⌋ ⌈px⌉
    + y_lerp * (1 - x_lerp) * P ⌈py⌉ ⌊px⌋ + y_lerp * x_lerp * P ⌈py⌉ ⌈px⌉

/-- The image `I + eps * e_p`: `eps` added to the entry at flat offset `p`. -/
def perturb (image : Tensor ℚ) (p : Int) (eps : ℚ) : Tensor ℚ :=
  { sizes := image.sizes, data := fun t => image.data t + eps * (if t = p then 1 else 0) }

/-- The tensor of the given sizes that is 1 at flat offset `c` and 0 elsewhere. -/
def oneHot (sizes : List Int) (c : Int) : Tensor ℚ :=
  { sizes := sizes, data := fun t => if t = c then 1 else 0 }

/-! ## Concrete inputs -/

/-- An image tensor of shape `[1, 1, 2, 2]` with pixel values 10, 11, 12, 13. -/
def img22 : Tensor ℚ :=
  { sizes := [1, 1, 2, 2], data := fun i => (i : ℚ) + 10 }

/-- A box tensor holding the one region `(0, 0, 1, 1)`. -/
def boxFull : Tensor ℚ :=
  { sizes := [1, 4], data := fun i => if i = 2 ∨ i = 3 then 1 else 0 }

/-- A batch-index tensor for one region, index 0. -/
def idx0 : Tensor Int :=
  { sizes := [1], data := fun _ => 0 }

/-- A one-region box list holding the region `(-1, 0, -0.5, 1)`, entirely above the image. -/
def boxAbove : Int → ℚ :=
  fun i => if i = 0 then -1 else if i = 1 then 0 else if i = 2 then -0.5 else 1

/-- A 1x1x2x2 image buffer with pixel values 10, 20, 30, 40. -/
def img4 : Int → ℚ :=
  fun i => if i = 0 then 10 else if i = 1 then 20 else if i = 2 then 30 else 40

/-- A one-region box list holding the region `(0, 0, 1, 1)`. -/
def boxUnit : Int → ℚ :=
  fun i => if i = 2 ∨ i = 3 then 1 else 0

/-- A one-region box list holding the region `(0, 2, 1, 3)`, to the right of the image. -/
def boxRight : Int → ℚ :=
  fun i => if i = 0 then 0 else if i = 1 then 2 else if i = 2 then 1 else 3

/-- Two regions `(0, 0, 1, 1)`, stored one after the other. -/
def boxes2 : Tensor ℚ :=
  { sizes := [2, 4], data := fun i => if i = 2 ∨ i = 3 ∨ i = 6 ∨ i = 7 then 1 else 0 }

/-- One region `(0, 0, 1, 1)`. -/
def boxes1 : Tensor ℚ :=
  { sizes := [1, 4], data := fun i => if i = 2 ∨ i = 3 then 1 else 0 }

/-- Upstream gradients 3 and 4 for two 1x1 crops of one channel. -/
def gradsTwo : Tensor ℚ :=
  { sizes := [2, 1, 1, 1], data := fun i => if i = 0 then 3 else 4 }

/-- Upstream gradient 7 for one 1x1 crop of one channel. -/
def gradsSum : Tensor ℚ :=
  { sizes := [1, 1, 1, 1], data := fun _ => 7 }

/-- Batch indices, all 0. -/
def indexZero (n : Int) : Tensor Int :=
  { sizes := [n], data := fun _ => 0 }

/-- A gradient-image tensor of shape `[1, 1, 2, 2]` with arbitrary prior contents. -/
def gradImage22 : Tensor ℚ :=
  { sizes := [1, 1, 2, 2], data := fun _ => 99 }

/-- The ghost update `count[i] += 1` recording one assignment to offset `i`. -/
def bump (count : Int → Nat) (i : Int) : Int → Nat :=
  fun j => if j = i then count j + 1 else count j

/-- Ghost instrumentation of the region loop of `CropAndResizePerBox` (lines 31-108, all
batch indices valid): the same loops and branches, with each assignment
`crops_data[i] = v` replaced by `count[i] += 1`. The result counts how many times each
offset of the output buffer is assigned. -/
def fwdWriteCount (depth image_height image_width : Int) (boxes_data : Int → ℚ)
    (start_box limit_box : Int) (crop_height crop_width : Int) (count : Int → Nat) :
    Int → Nat :=
  let channel_elements : Int := crop_height * crop_width
  let crop_elements : Int := depth * channel_elements
  forLoop start_box limit_box (fun b count =>
    let y1 : ℚ := boxes_data (b * 4 + 0)
    let x1 : ℚ := boxes_data (b * 4 + 1)
    let y2 : ℚ := boxes_data (b * 4 + 2)
    let x2 : ℚ := boxes_data (b * 4 + 3)
    forLoop 0 crop_height (fun y count =>
      if out_of_range image_height (in_coord crop_height image_height y1 y2 y) then
        forLoop 0 crop_width (fun x count =>
          forLoop 0 depth (fun d count =>
            bump count (crop_elements * b + channel_elements * d + y * crop_width + x))
            count) count
      else
        forLoop 0 crop_width (fun x count =>
          if out_of_range image_width (in_coord crop_width image_width x1 x2 x) then
            forLoop 0 depth (fun d count =>
              bump count (crop_elements * b + channel_elements * d + y * crop_width + x))
              count
          else
            forLoop 0 depth (fun d count =>
              bump count (crop_elements * b + channel_elements * d + y * crop_width + x))
              count) count) count) count

/-- The mapped coordinate is in range: `0 ≤ c ≤ image_size - 1` (the complement of the
range test of lines 55 and 74). -/
def in_range (image_size : Int) (c : ℚ) : Prop :=
  0 ≤ c ∧ c ≤ image_size - 1

instance (image_size : Int) (c : ℚ) : Decidable (in_range image_size c) :=
  inferInstanceAs (Decidable (0 ≤ c ∧ c ≤ image_size - 1))

/-- The weight `w` of the specification for the pixel `(i, j)` and a cell mapped to
`(in_y, in_x)`: the sum of those of the four bilinear weights whose neighbour
`(top, left)`, `(top, right)`, `(bottom, left)`, `(bottom, right)` is `(i, j)`. -/
def bilinearWeight (in_y in_x : ℚ) (i j : Int) : ℚ :=
  (if ⌊in_y⌋ = i ∧ ⌊in_x⌋ = j then (1 - (in_y - ⌊in_y⌋)) * (1 - (in_x - ⌊in_x⌋)) else 0)
  + (if ⌊in_y⌋ = i ∧ ⌈in_x⌉ = j then (1 - (in_y - ⌊in_y⌋)) * (in_x - ⌊in_x⌋) else 0)
  + (if ⌈in_y⌉ = i ∧ ⌊in_x⌋ = j then (in_y - ⌊in_y⌋) * (1 - (in_x - ⌊in_x⌋)) else 0)
  + (if ⌈in_y⌉ = i ∧ ⌈in_x⌉ = j then (in_y - ⌊in_y⌋) * (in_x - ⌊in_x⌋) else 0)

/-- The destination-indexed sum of the specification for the pixel `(k, d, i, j)`: over the
regions `b` with `box_index[b] = k` and the cells `(y, x)` whose mapped position is in
range, the weight of the cell for `(i, j)` times the upstream gradient `grads[b, d, y, x]`. -/
def destinationSum (grads boxes : Tensor ℚ) (box_index : Tensor Int)
    (depth image_height image_width : Int) (k d i j : Int) : ℚ :=
  sumRange 0 (grads.size 0) (fun b =>
    if box_index.data b = k then
      sumRange 0 (grads.size 2) (fun y =>
        sumRange 0 (grads.size 3) (fun x =>
          if in_range image_height
                (in_coord (grads.size 2) image_height (boxes.data (b * 4 + 0))
                  (boxes.data (b * 4 + 2)) y)
              ∧ in_range image_width
                (in_coord (grads.size 3) image_width (boxes.data (b * 4 + 1))
                  (boxes.data (b * 4 + 3)) x) then
            bilinearWeight
              (in_coord (grads.size 2) image_height (boxes.data (b * 4 + 0))
                (boxes.data (b * 4 + 2)) y)
              (in_coord (grads.size 3) image_width (boxes.data (b * 4 + 1))
                (boxes.data (b * 4 + 3)) x) i j
            * grads.data (idx4 depth (grads.size 2) (grads.size 3) b d y x)
          else 0))
    else 0)

/-- The tensor of the given sizes that is `g` at flat offset `c` and 0 elsewhere. -/
def cellTensor (sizes : List Int) (c : Int) (g : ℚ) : Tensor ℚ :=
  { sizes := sizes, data := fun t => if t = c then g else 0 }

/-- A box tensor holding the one region `(0, 2, 1, 3)`, to the right of the image. -/
def boxesRight : Tensor ℚ :=
  { sizes := [1, 4], data := boxRight }

/-- The sum of the upstream gradient over all channels of all in-range cells of all
regions. -/
def upstreamMass (grads boxes : Tensor ℚ) (depth image_height image_width : Int) : ℚ :=
  sumRange 0 (grads.size 0) (fun b =>
    sumRange 0 (grads.size 2) (fun y =>
      sumRange 0 (grads.size 3) (fun x =>
        if in_range image_height
              (in_coord (grads.size 2) image_height (boxes.data (b * 4 + 0))
                (boxes.data (b * 4 + 2)) y)
            ∧ in_range image_width
              (in_coord (grads.size 3) image_width (boxes.data (b * 4 + 1))
                (boxes.data (b * 4 + 3)) x) then
          sumRange 0 depth (fun d =>
            grads.data (idx4 depth (grads.size 2) (grads.size 3) b d y x))
        else 0)))

/-- An image tensor of shape `[2, 1, 2, 2]` with pixel values 10, ..., 17. -/
def imgTwo : Tensor ℚ :=
  { sizes := [2, 1, 2, 2], data := fun i => (i : ℚ) + 10 }

/-- Two regions: `(0, 0, 1, 1)` followed by `(0, 2, 1, 3)`. -/
def boxesPair : Tensor ℚ :=
  { sizes := [2, 4],
    data := fun i => if i = 2 ∨ i = 3 ∨ i = 6 then 1 else if i = 5 then 2
      else if i = 7 then 3 else 0 }

/-- The two regions of `boxesPair` in the other order. -/
def boxesPairSwapped : Tensor ℚ :=
  { sizes := [2, 4],
    data := fun i => if i = 2 ∨ i = 6 ∨ i = 7 then 1 else if i = 1 then 2
      else if i = 3 then 3 else 0 }

/-- Batch indices 0 and 1 for the two regions of `boxesPair`. -/
def indexPair : Tensor Int :=
  { sizes := [2], data := fun r => if r = 0 then 0 else 1 }

/-- The batch indices of `indexPair` in the other order. -/
def indexPairSwapped : Tensor Int :=
  { sizes := [2], data := fun r => if r = 0 then 1 else 0 }

/-- Batch index 1 for one region. -/
def indexOne : Tensor Int :=
  { sizes := [1], data := fun _ => 1 }

/-! ## The forward sampler with 32-bit `int` arithmetic -/

/-- The value a 32-bit C `int` holds when the mathematical result of an `int` operation is
`x`: two's-complement wrap-around into `[-2^31, 2^31)`. -/
def wrap32 (x : Int) : Int :=
  (x + 2147483648) % 4294967296 - 2147483648

/-- `CropAndResizePerBox` (lines 7-109) with every `int` operation carried out in 32 bits
(`wrap32` around each `int` product, sum and difference; pointer arithmetic and `float`
arithmetic are left exact). The `int` parameters are the values the caller passes. -/
def CropAndResizePerBox_i32 (image_data : Int → ℚ)
    (batch_size depth image_height image_width : Int)
    (boxes_data : Int → ℚ) (box_index_data : Int → Int) (start_box limit_box : Int)
    (crops_data : Int → ℚ) (crop_height crop_width : Int) (extrapolation_value : ℚ) :
    Except BatchIndexError (Int → ℚ) :=
  let image_channel_elements : Int := wrap32 (image_height * image_width)
  let image_elements : Int := wrap32 (depth * image_channel_elements)
  let channel_elements : Int := wrap32 (crop_height * crop_width)
  let crop_elements : Int := wrap32 (depth * channel_elements)
  forLoopM start_box limit_box (fun b crops_data =>
    let y1 : ℚ := boxes_data (wrap32 (b * 4) + 0)
    let x1 : ℚ := boxes_data (wrap32 (b * 4) + 1)
    let y2 : ℚ := boxes_data (wrap32 (b * 4) + 2)
    let x2 : ℚ := boxes_data (wrap32 (b * 4) + 3)
    let b_in : Int := box_index_data b
    if b_in < 0 ∨ b_in ≥ batch_size then
      Except.error { b_in := b_in, batch_size := batch_size }
    else
      let height_scale : ℚ :=
        if crop_height > 1 then
          (y2 - y1) * ((wrap32 (image_height - 1) : Int) : ℚ)
            / ((wrap32 (crop_height - 1) : Int) : ℚ)
        else 0
      let width_scale : ℚ :=
        if crop_width > 1 then
          (x2 - x1) * ((wrap32 (image_width - 1) : Int) : ℚ)
            / ((wrap32 (crop_width - 1) : Int) : ℚ)
        else 0
      Except.ok (forLoop 0 crop_height (fun y crops_data =>
        let in_y : ℚ :=
          if crop_height > 1 then
            y1 * ((wrap32 (image_height - 1) : Int) : ℚ) + y * height_scale
          else 0.5 * (y1 + y2) * ((wrap32 (image_height - 1) : Int) : ℚ)
        if in_y < 0 ∨ in_y > ((wrap32 (image_height - 1) : Int) : ℚ) then
          forLoop 0 crop_width (fun x crops_data =>
            forLoop 0 depth (fun d crops_data =>
              store crops_data
                (wrap32 (wrap32 (wrap32 (wrap32 (crop_elements * b)
                  + wrap32 (channel_elements * d)) + wrap32 (y * crop_width)) + x))
                extrapolation_value) crops_data) crops_data
        else
          let top_y_index : Int := ⌊in_y⌋
          let bottom_y_index : Int := ⌈in_y⌉
          let y_lerp : ℚ := in_y - top_y_index
          forLoop 0 crop_width (fun x crops_data =>
            let in_x : ℚ :=
              if crop_width > 1 then
                x1 * ((wrap32 (image_width - 1) : Int) : ℚ) + x * width_scale
              else 0.5 * (x1 + x2) * ((wrap32 (image_width - 1) : Int) : ℚ)
            if in_x < 0 ∨ in_x > ((wrap32 (image_width - 1) : Int) : ℚ) then
              forLoop 0 depth (fun d crops_data =>
                store crops_data
                  (wrap32 (wrap32 (wrap32 (wrap32 (crop_elements * b)
                    + wrap32 (channel_elements * d)) + wrap32 (y * crop_width)) + x))
                  extrapolation_value) crops_data
            else
              let left_x_index : Int := ⌊in_x⌋
              let right_x_index : Int := ⌈in_x⌉
              let x_lerp : ℚ := in_x - left_x_index
              forLoop 0 depth (fun d crops_data =>
                let pimage : Int :=
                  wrap32 (b_in * image_elements) + wrap32 (d * image_channel_elements)
                let top_left : ℚ := image_data
                  (pimage + wrap32 (wrap32 (top_y_index * image_width) + left_x_index))
                let top_right : ℚ := image_data
                  (pimage + wrap32 (wrap32 (top_y_index * image_width) + right_x_index))
                let bottom_left : ℚ := image_data
                  (pimage + wrap32 (wrap32 (bottom_y_index * image_width) + left_x_index))
                let bottom_right : ℚ := image_data
                  (pimage + wrap32 (wrap32 (bottom_y_index * image_width) + right_x_index))
                let top : ℚ := top_left + (top_right - top_left) * x_lerp
                let bottom : ℚ := bottom_left + (bottom_right - bottom_left) * x_lerp
                store crops_data
                  (wrap32 (wrap32 (wrap32 (wrap32 (crop_elements * b)
                    + wrap32 (channel_elements * d)) + wrap32 (y * crop_width)) + x))
                  (top + (bottom - top) * y_lerp)) crops_data) crops_data) crops_data))
    crops_data

/-! ## Bounds-checked runs with 32-bit `int` arithmetic and NaN coordinates -/

/-- The ways a checked run can stop: the batch-index error of the source, an access outside
a buffer, or the conversion of a NaN coordinate to `int` after `floorf` / `ceilf` (undefined in
C; on x86-64 the result is the most negative `int`). -/
inductive Fault where
  | batch_index (b_in batch_size : Int)
  | out_of_bounds
  | nan_index
deriving DecidableEq, Repr

/-- Bounds-checked read `p[i]` from a buffer of `len` elements. -/
def readAt {α : Type} (p : Int → α) (len : Int) (i : Int) : Except Fault α :=
  if 0 ≤ i ∧ i < len then Except.ok (p i) else Except.error Fault.out_of_bounds

/-- Bounds-checked assignment `p[i] = v` into a buffer of `len` elements. -/
def writeAt (p : Int → ℚ) (len : Int) (i : Int) (v : ℚ) : Except Fault (Int → ℚ) :=
  if 0 ≤ i ∧ i < len then Except.ok (store p i v) else Except.error Fault.out_of_bounds

/-- Bounds-checked accumulation `p[i] += v` into a buffer of `len` elements. -/
def addAt (p : Int → ℚ) (len : Int) (i : Int) (v : ℚ) : Except Fault (Int → ℚ) :=
  if 0 ≤ i ∧ i < len then Except.ok (accum p i v) else Except.error Fault.out_of_bounds

/-- A `float` operation on coordinates that may be NaN: `some q` is the finite value `q`,
`none` is NaN, and an operation with a NaN operand gives NaN. -/
def fop (f : ℚ → ℚ → ℚ) : Option ℚ → Option ℚ → Option ℚ
  | some a, some b => some (f a b)
  | _, _ => none

/-- The `float` sum `a + b`. -/
def fadd (a b : Option ℚ) : Option ℚ := fop (fun x y => x + y) a b

/-- The `float` difference `a - b`. -/
def fsub (a b : Option ℚ) : Option ℚ := fop (fun x y => x - y) a b

/-- The `float` product `a * b`. -/
def fmul (a b : Option ℚ) : Option ℚ := fop (fun x y => x * y) a b

/-- The `float` quotient `a / b`. -/
def fdiv (a b : Option ℚ) : Option ℚ := fop (fun x y => x / y) a b

/-- The conversion of an `int` to `float`. -/
def ofInt (n : Int) : Option ℚ := some (n : ℚ)

/-- The `float` comparison `a < b`: false when an operand is NaN. -/
def flt : Option ℚ → Option ℚ → Prop
  | some a, some b => a < b
  | _, _ => False

instance (a b : Option ℚ) : Decidable (flt a b) :=
  match a, b with
  | some x, some y => inferInstanceAs (Decidable (x < y))
  | some _, none => isFalse (fun h => h)
  | none, _ => isFalse (fun h => h)

/-- `CropAndResizePerBox` (lines 7-109) with every buffer access bounds-checked against the
length of its buffer (`image_len`, `boxes_len`, `index_len`, `crops_len` elements), every
`int` operation carried out in 32 bits, and region coordinates that may be NaN. A NaN
coordinate fails both comparisons of the range test (lines 55, 74) and reaches the conversion
to `int` of lines 66-67, 82-83. -/
def CropAndResizePerBox_checked (image_data : Int → ℚ) (image_len : Int)
    (batch_size depth image_height image_width : Int)
    (boxes_data : Int → Option ℚ) (boxes_len : Int)
    (box_index_data : Int → Int) (index_len : Int)
    (start_box limit_box : Int)
    (crops_data : Int → ℚ) (crops_len : Int) (crop_height crop_width : Int)
    (extrapolation_value : ℚ) : Except Fault (Int → ℚ) :=
  let image_channel_elements : Int := wrap32 (image_height * image_width)
  let image_elements : Int := wrap32 (depth * image_channel_elements)
  let channel_elements : Int := wrap32 (crop_height * crop_width)
  let crop_elements : Int := wrap32 (depth * channel_elements)
  forLoopM start_box limit_box (fun b crops_data => do
    let y1 ← readAt boxes_data boxes_len (wrap32 (b * 4) + 0)
    let x1 ← readAt boxes_data boxes_len (wrap32 (b * 4) + 1)
    let y2 ← readAt boxes_data boxes_len (wrap32 (b * 4) + 2)
    let x2 ← readAt boxes_data boxes_len (wrap32 (b * 4) + 3)
    let b_in ← readAt box_index_data index_len b
    if b_in < 0 ∨ b_in ≥ batch_size then
      Except.error (Fault.batch_index b_in batch_size)
    else
      let height_scale : Option ℚ :=
        if crop_height > 1 then
          fdiv (fmul (fsub y2 y1) (ofInt (wrap32 (image_height - 1))))
            (ofInt (wrap32 (crop_height - 1)))
        else some 0
      let width_scale : Option ℚ :=
        if crop_width > 1 then
          fdiv (fmul (fsub x2 x1) (ofInt (wrap32 (image_width - 1))))
            (ofInt (wrap32 (crop_width - 1)))
        else some 0
      forLoopM 0 crop_height (fun y crops_data =>
        let in_y : Option ℚ :=
          if crop_height > 1 then
            fadd (fmul y1 (ofInt (wrap32 (image_height - 1)))) (fmul (ofInt y) height_scale)
          else fmul (fmul (some 0.5) (fadd y1 y2)) (ofInt (wrap32 (image_height - 1)))
        if flt in_y (some 0) ∨ flt (ofInt (wrap32 (image_height - 1))) in_y then
          forLoopM 0 crop_width (fun x crops_data =>
            forLoopM 0 depth (fun d crops_data =>
              writeAt crops_data crops_len
                (wrap32 (wrap32 (wrap32 (wrap32 (crop_elements * b)
                  + wrap32 (channel_elements * d)) + wrap32 (y * crop_width)) + x))
                extrapolation_value) crops_data) crops_data
        else
          match in_y with
          | none => Except.error Fault.nan_index
          | some in_y =>
            let top_y_index : Int := ⌊in_y⌋
            let bottom_y_index : Int := ⌈in_y⌉
            let y_lerp : ℚ := in_y - top_y_index
            forLoopM 0 crop_width (fun x crops_data =>
              let in_x : Option ℚ :=
                if crop_width > 1 then
                  fadd (fmul x1 (ofInt (wrap32 (image_width - 1))))
                    (fmul (ofInt x) width_scale)
                else fmul (fmul (some 0.5) (fadd x1 x2)) (ofInt (wrap32 (image_width - 1)))
              if flt in_x (some 0) ∨ flt (ofInt (wrap32 (image_width - 1))) in_x then
                forLoopM 0 depth (fun d crops_data =>
                  writeAt crops_data crops_len
                    (wrap32 (wrap32 (wrap32 (wrap32 (crop_elements * b)
                      + wrap32 (channel_elements * d)) + wrap32 (y * crop_width)) + x))
                    extrapolation_value) crops_data
              else
                match in_x with
                | none => Except.error Fault.nan_index
                | some in_x =>
                  let left_x_index : Int := ⌊in_x⌋
                  let right_x_index : Int := ⌈in_x⌉
                  let x_lerp : ℚ := in_x - left_x_index
                  forLoopM 0 depth (fun d crops_data => do
                    let pimage : Int :=
                      wrap32 (b_in * image_elements) + wrap32 (d * image_channel_elements)
                    let top_left ← readAt image_data image_len
                      (pimage + wrap32 (wrap32 (top_y_index * image_width) + left_x_index))
                    let top_right ← readAt image_data image_len
                      (pimage + wrap32 (wrap32 (top_y_index * image_width) + right_x_index))
                    let bottom_left ← readAt image_data image_len
                      (pimage
                        + wrap32 (wrap32 (bottom_y_index * image_width) + left_x_index))
                    let bottom_right ← readAt image_data image_len
                      (pimage
                        + wrap32 (wrap32 (bottom_y_index * image_width) + right_x_index))
                    let top : ℚ := top_left + (top_right - top_left) * x_lerp
                    let bottom : ℚ := bottom_left + (bottom_right - bottom_left) * x_lerp
                    writeAt crops_data crops_len
                      (wrap32 (wrap32 (wrap32 (wrap32 (crop_elements * b)
                        + wrap32 (channel_elements * d)) + wrap32 (y * crop_width)) + x))
                      (top + (bottom - top) * y_lerp)) crops_data) crops_data) crops_data)
    crops_data

/-- `crop_and_resize_backward` (lines 138-232) with every buffer access bounds-checked
against the number of elements of its tensor, every `int` operation carried out in 32 bits
(the sizes are narrowed to `int` at lines 145-152), and region coordinates that may be
NaN. -/
def crop_and_resize_backward_checked (grads : Tensor ℚ) (boxes : Tensor (Option ℚ))
    (box_index : Tensor Int) (grads_image : Tensor ℚ) : Except Fault (Tensor ℚ) :=
  let batch_size : Int := wrap32 (grads_image.size 0)
  let depth : Int := wrap32 (grads_image.size 1)
  let image_height : Int := wrap32 (grads_image.size 2)
  let image_width : Int := wrap32 (grads_image.size 3)
  let num_boxes : Int := wrap32 (grads.size 0)
  let crop_height : Int := wrap32 (grads.size 2)
  let crop_width : Int := wrap32 (grads.size 3)
  let image_channel_elements : Int := wrap32 (image_height * image_width)
  let image_elements : Int := wrap32 (depth * image_channel_elements)
  let channel_elements : Int := wrap32 (crop_height * crop_width)
  let crop_elements : Int := wrap32 (depth * channel_elements)
  let grads_image : Tensor ℚ := grads_image.zero_
  let grads_data : Int → ℚ := grads.data
  let boxes_data : Int → Option ℚ := boxes.data
  let box_index_data : Int → Int := box_index.data
  let grads_image_data : Int → ℚ := grads_image.data
  forLoopM 0 num_boxes (fun b grads_image_data => do
    let y1 ← readAt boxes_data boxes.numel (wrap32 (b * 4) + 0)
    let x1 ← readAt boxes_data boxes.numel (wrap32 (b * 4) + 1)
    let y2 ← readAt boxes_data boxes.numel (wrap32 (b * 4) + 2)
    let x2 ← readAt boxes_data boxes.numel (wrap32 (b * 4) + 3)
    let b_in ← readAt box_index_data box_index.numel b
    if b_in < 0 ∨ b_in ≥ batch_size then
      Except.error (Fault.batch_index b_in batch_size)
    else
      let height_scale : Option ℚ :=
        if crop_height > 1 then
          fdiv (fmul (fsub y2 y1) (ofInt (wrap32 (image_height - 1))))
            (ofInt (wrap32 (crop_height - 1)))
        else some 0
      let width_scale : Option ℚ :=
        if crop_width > 1 then
          fdiv (fmul (fsub x2 x1) (ofInt (wrap32 (image_width - 1))))
            (ofInt (wrap32 (crop_width - 1)))
        else some 0
      forLoopM 0 crop_height (fun y grads_image_data =>
        let in_y : Option ℚ :=
          if crop_height > 1 then
            fadd (fmul y1 (ofInt (wrap32 (image_height - 1)))) (fmul (ofInt y) height_scale)
          else fmul (fmul (some 0.5) (fadd y1 y2)) (ofInt (wrap32 (image_height - 1)))
        if flt in_y (some 0) ∨ flt (ofInt (wrap32 (image_height - 1))) in_y then
          Except.ok grads_image_data
        else
          match in_y with
          | none => Except.error Fault.nan_index
          | some in_y =>
            let top_y_index : Int := ⌊in_y⌋
            let bottom_y_index : Int := ⌈in_y⌉
            let y_lerp : ℚ := in_y - top_y_index
            forLoopM 0 crop_width (fun x grads_image_data =>
              let in_x : Option ℚ :=
                if crop_width > 1 then
                  fadd (fmul x1 (ofInt (wrap32 (image_width - 1))))
                    (fmul (ofInt x) width_scale)
                else fmul (fmul (some 0.5) (fadd x1 x2)) (ofInt (wrap32 (image_width - 1)))
              if flt in_x (some 0) ∨ flt (ofInt (wrap32 (image_width - 1))) in_x then
                Except.ok grads_image_data
              else
                match in_x with
                | none => Except.error Fault.nan_index
                | some in_x =>
                  let left_x_index : Int := ⌊in_x⌋
                  let right_x_index : Int := ⌈in_x⌉
                  let x_lerp : ℚ := in_x - left_x_index
                  forLoopM 0 depth (fun d grads_image_data => do
                    let pimage : Int :=
                      wrap32 (b_in * image_elements) + wrap32 (d * image_channel_elements)
                    let grad_val ← readAt grads_data grads.numel
                      (wrap32 (wrap32 (wrap32 (wrap32 (crop_elements * b)
                        + wrap32 (channel_elements * d)) + wrap32 (y * crop_width)) + x))
                    let dtop : ℚ := (1 - y_lerp) * grad_val
                    let grads_image_data ← addAt grads_image_data grads_image.numel
                      (pimage + wrap32 (wrap32 (top_y_index * image_width) + left_x_index))
                      ((1 - x_lerp) * dtop)
                    let grads_image_data ← addAt grads_image_data grads_image.numel
                      (pimage + wrap32 (wrap32 (top_y_index * image_width) + right_x_index))
                      (x_lerp * dtop)
                    let dbottom : ℚ := y_lerp * grad_val
                    let grads_image_data ← addAt grads_image_data grads_image.numel
                      (pimage
                        + wrap32 (wrap32 (bottom_y_index * image_width) + left_x_index))
                      ((1 - x_lerp) * dbottom)
                    addAt grads_image_data grads_image.numel
                      (pimage
                        + wrap32 (wrap32 (bottom_y_index * image_width) + right_x_index))
                      (x_lerp * dbottom)) grads_image_data) grads_image_data)
        grads_image_data)
    grads_image_data
  >>= fun grads_image_data => Except.ok { grads_image with data := grads_image_data }

/-- A tensor of region coordinates all of which are finite: none is NaN. -/
def finiteCoords (boxes : Tensor ℚ) : Tensor (Option ℚ) :=
  { sizes := boxes.sizes, data := fun i => some (boxes.data i) }

/-! ## Loop lemmas -/

theorem forFrom_miss {α : Type} (body : Int → (Int → α) → (Int → α)) (j : Int) :
    ∀ (n : Nat) (i : Int) (m : Int → α),
      (∀ k, i ≤ k → k < i + n → ∀ m, body k m j = m j) → forFrom body n i m j = m j := by
  intro n
  induction n with
  | zero => intro i m _; rfl
  | succ n ih =>
    intro i m h
    simp only [forFrom]
    rw [ih (i + 1) (body i m) (fun k hk1 hk2 => h k (by omega) (by push_cast; omega))]
    exact h i (le_refl i) (by push_cast; omega) m

theorem forLoop_miss {α : Type} (lo hi : Int) (body : Int → (Int → α) → (Int → α)) (j : Int)
    (m : Int → α) (h : ∀ k, lo ≤ k → k < hi → ∀ m, body k m j = m j) :
    forLoop lo hi body m j = m j := by
  unfold forLoop
  exact forFrom_miss body j _ lo m (fun k hk1 hk2 => h k hk1 (by omega))

theorem forFrom_hit {α : Type} (body : Int → (Int → α) → (Int → α)) (j a : Int) (v : α)
    (hv : ∀ m, body a m j = v) :
    ∀ (n : Nat) (i : Int) (m : Int → α), i ≤ a → a < i + n →
      (∀ k, i ≤ k → k < i + n → k ≠ a → ∀ m, body k m j = m j) →
      forFrom body n i m j = v := by
  intro n
  induction n with
  | zero => intro i m h1 h2 _; simp at h2; omega
  | succ n ih =>
    intro i m h1 h2 h
    simp only [forFrom]
    by_cases hia : i = a
    · subst hia
      rw [forFrom_miss body j n (i + 1) (body i m)
        (fun k hk1 hk2 => h k (by omega) (by push_cast; omega) (by omega))]
      exact hv m
    · exact ih (i + 1) (body i m) (by omega) (by push_cast at h2; omega)
        (fun k hk1 hk2 => h k (by omega) (by push_cast; omega))

theorem forLoop_hit {α : Type} (lo hi : Int) (body : Int → (Int → α) → (Int → α)) (j a : Int)
    (v : α) (m : Int → α) (h1 : lo ≤ a) (h2 : a < hi) (hv : ∀ m, body a m j = v)
    (h : ∀ k, lo ≤ k → k < hi → k ≠ a → ∀ m, body k m j = m j) :
    forLoop lo hi body m j = v := by
  unfold forLoop
  exact forFrom_hit body j a v hv _ lo m h1 (by omega) (fun k hk1 hk2 => h k hk1 (by omega))

theorem forFromM_ok {σ ε : Type} (bad : Int → Prop) [DecidablePred bad] (err : Int → ε)
    (f : Int → σ → σ) :
    ∀ (n : Nat) (i : Int) (s : σ), (∀ k, i ≤ k → k < i + n → ¬ bad k) →
      forFromM (fun b s => if bad b then Except.error (err b) else Except.ok (f b s)) n i s
        = Except.ok (forFrom f n i s) := by
  intro n
  induction n with
  | zero => intro i s _; rfl
  | succ n ih =>
    intro i s h
    simp only [forFromM, forFrom]
    rw [if_neg (h i (le_refl i) (by push_cast; omega))]
    exact ih (i + 1) (f i s) (fun k hk1 hk2 => h k (by omega) (by push_cast; omega))

theorem forFromM_error {σ ε : Type} (bad : Int → Prop) [DecidablePred bad] (err : Int → ε)
    (f : Int → σ → σ) (a : Int) (ha : bad a) :
    ∀ (n : Nat) (i : Int) (s : σ), i ≤ a → a < i + n → (∀ k, i ≤ k → k < a → ¬ bad k) →
      forFromM (fun b s => if bad b then Except.error (err b) else Except.ok (f b s)) n i s
        = Except.error (err a) := by
  intro n
  induction n with
  | zero => intro i s h1 h2 _; simp at h2; omega
  | succ n ih =>
    intro i s h1 h2 h
    simp only [forFromM]
    by_cases hia : i = a
    · subst hia
      rw [if_pos ha]
    · rw [if_neg (h i (le_refl i) (by omega))]
      exact ih (i + 1) (f i s) (by omega) (by push_cast at h2; omega)
        (fun k hk1 hk2 => h k (by omega) hk2)

theorem forLoopM_ok {σ ε : Type} (bad : Int → Prop) [DecidablePred bad] (err : Int → ε)
    (f : Int → σ → σ) (lo hi : Int) (s : σ) (h : ∀ k, lo ≤ k → k < hi → ¬ bad k) :
    forLoopM lo hi (fun b s => if bad b then Except.error (err b) else Except.ok (f b s)) s
      = Except.ok (forLoop lo hi f s) := by
  unfold forLoopM forLoop
  exact forFromM_ok bad err f _ lo s (fun k hk1 hk2 => h k hk1 (by omega))

theorem forLoopM_error {σ ε : Type} (bad : Int → Prop) [DecidablePred bad] (err : Int → ε)
    (f : Int → σ → σ) (lo hi : Int) (s : σ) (a : Int) (ha : bad a) (h1 : lo ≤ a) (h2 : a < hi)
    (h : ∀ k, lo ≤ k → k < a → ¬ bad k) :
    forLoopM lo hi (fun b s => if bad b then Except.error (err b) else Except.ok (f b s)) s
      = Except.error (err a) := by
  unfold forLoopM
  exact forFromM_error bad err f a ha _ lo s h1 (by omega) h

/-! ## Flat indexing -/

theorem radix_inj (W a a1 r r1 : Int) (hr : 0 ≤ r) (hrW : r < W) (hr1 : 0 ≤ r1)
    (hr1W : r1 < W) (h : a * W + r = a1 * W + r1) : a = a1 ∧ r = r1 := by
  have ha : a = a1 := by
    rcases lt_trichotomy a a1 with hlt | heq | hgt
    · exfalso
      have : (a1 - a) * W ≥ 1 * W := Int.mul_le_mul_of_nonneg_right (by omega) (by omega)
      nlinarith
    · exact heq
    · exfalso
      have : (a - a1) * W ≥ 1 * W := Int.mul_le_mul_of_nonneg_right (by omega) (by omega)
      nlinarith
  subst ha
  exact ⟨rfl, by omega⟩

theorem idx4_inj (C H W n c y x n1 c1 y1 x1 : Int)
    (hc : 0 ≤ c ∧ c < C) (hy : 0 ≤ y ∧ y < H) (hx : 0 ≤ x ∧ x < W)
    (hc1 : 0 ≤ c1 ∧ c1 < C) (hy1 : 0 ≤ y1 ∧ y1 < H) (hx1 : 0 ≤ x1 ∧ x1 < W)
    (h : idx4 C H W n c y x = idx4 C H W n1 c1 y1 x1) :
    n = n1 ∧ c = c1 ∧ y = y1 ∧ x = x1 := by
  unfold idx4 at h
  obtain ⟨h1, hxx⟩ := radix_inj W _ _ x x1 hx.1 hx.2 hx1.1 hx1.2 h
  obtain ⟨h2, hyy⟩ := radix_inj H _ _ y y1 hy.1 hy.2 hy1.1 hy1.2 h1
  obtain ⟨h3, hcc⟩ := radix_inj C _ _ c c1 hc.1 hc.2 hc1.1 hc1.2 h2
  exact ⟨h3, hcc, hyy, hxx⟩

/-- The offset expression used by the code for the crops / upstream-gradient grid is the
row-major offset. -/
theorem crops_offset_eq (depth crop_height crop_width b d y x : Int) :
    depth * (crop_height * crop_width) * b + crop_height * crop_width * d + y * crop_width + x
      = idx4 depth crop_height crop_width b d y x := by
  unfold idx4; ring

/-- The offset expression used by the code for the image buffer is the row-major offset. -/
theorem image_offset_eq (depth image_height image_width k d r c : Int) :
    k * (depth * (image_height * image_width)) + d * (image_height * image_width)
      + (r * image_width + c) = idx4 depth image_height image_width k d r c := by
  unfold idx4; ring

theorem idx4_block (C H W n c y x : Int)
    (hc : 0 ≤ c ∧ c < C) (hy : 0 ≤ y ∧ y < H) (hx : 0 ≤ x ∧ x < W) :
    n * (C * (H * W)) ≤ idx4 C H W n c y x ∧ idx4 C H W n c y x < (n + 1) * (C * (H * W)) := by
  unfold idx4
  obtain ⟨hc0, hc1⟩ := hc
  obtain ⟨hy0, hy1⟩ := hy
  obtain ⟨hx0, hx1⟩ := hx
  have hH : 0 < H := by omega
  have hW : 0 < W := by omega
  have hHW : 0 < H * W := Int.mul_pos hH hW
  have e : ((n * C + c) * H + y) * W + x = n * (C * (H * W)) + (c * (H * W) + (y * W + x)) := by
    ring
  have h1 : 0 ≤ y * W + x := by positivity
  have h2 : y * W + x < H * W := by
    have : (y + 1) * W ≤ H * W := Int.mul_le_mul_of_nonneg_right (by omega) (by omega)
    linarith
  have h3 : 0 ≤ c * (H * W) := by positivity
  have h4 : (c + 1) * (H * W) ≤ C * (H * W) :=
    Int.mul_le_mul_of_nonneg_right (by omega) (by omega)
  rw [e]
  constructor
  · linarith
  · linarith

/-! ## The forward sampler, cell by cell -/

theorem CropAndResizePerBox_eq (image_data : Int → ℚ)
    (batch_size depth image_height image_width : Int)
    (boxes_data : Int → ℚ) (box_index_data : Int → Int) (start_box limit_box : Int)
    (crops_data : Int → ℚ) (crop_height crop_width : Int) (extrapolation_value : ℚ) :
    CropAndResizePerBox image_data batch_size depth image_height image_width boxes_data
      box_index_data start_box limit_box crops_data crop_height crop_width extrapolation_value
    = forLoopM start_box limit_box (fun b crops_data =>
        if box_index_data b < 0 ∨ box_index_data b ≥ batch_size then
          Except.error { b_in := box_index_data b, batch_size := batch_size }
        else
          Except.ok (fwdBox image_data depth image_height image_width crop_height crop_width
            extrapolation_value (boxes_data (b * 4 + 0)) (boxes_data (b * 4 + 1))
            (boxes_data (b * 4 + 2)) (boxes_data (b * 4 + 3)) (box_index_data b) b crops_data))
        crops_data := rfl

theorem fwdBox_eq (image_data : Int → ℚ) (depth image_height image_width : Int)
    (crop_height crop_width : Int) (extrapolation_value : ℚ)
    (y1 x1 y2 x2 : ℚ) (b_in b : Int) (crops_data : Int → ℚ) :
    fwdBox image_data depth image_height image_width crop_height crop_width
      extrapolation_value y1 x1 y2 x2 b_in b crops_data
    = forLoop 0 crop_height (fun y crops_data =>
        if out_of_range image_height (in_coord crop_height image_height y1 y2 y) then
          forLoop 0 crop_width (fun x crops_data =>
            forLoop 0 depth (fun d crops_data =>
              store crops_data
                (depth * (crop_height * crop_width) * b + crop_height * crop_width * d
                  + y * crop_width + x)
                extrapolation_value) crops_data) crops_data
        else
          forLoop 0 crop_width (fun x crops_data =>
            if out_of_range image_width (in_coord crop_width image_width x1 x2 x) then
              forLoop 0 depth (fun d crops_data =>
                store crops_data
                  (depth * (crop_height * crop_width) * b + crop_height * crop_width * d
                    + y * crop_width + x)
                  extrapolation_value) crops_data
            else
              forLoop 0 depth (fun d crops_data =>
                store crops_data
                  (depth * (crop_height * crop_width) * b + crop_height * crop_width * d
                    + y * crop_width + x)
                  (lerpValue (plane image_data depth image_height image_width b_in d)
                    (in_coord crop_height image_height y1 y2 y)
                    (in_coord crop_width image_width x1 x2 x))) crops_data) crops_data)
        crops_data := rfl

theorem store_ne {α : Type} (p : Int → α) (i j : Int) (v : α) (h : j ≠ i) :
    store p i v j = p j := by
  simp [store, h]

theorem store_eq {α : Type} (p : Int → α) (i : Int) (v : α) : store p i v i = v := by
  simp [store]

theorem fwdBox_miss (image_data : Int → ℚ) (depth image_height image_width : Int)
    (crop_height crop_width : Int) (extrapolation_value : ℚ)
    (y1 x1 y2 x2 : ℚ) (b_in b : Int) (crops_data : Int → ℚ) (j : Int)
    (h : ∀ d y x, 0 ≤ d → d < depth → 0 ≤ y → y < crop_height → 0 ≤ x → x < crop_width →
      j ≠ idx4 depth crop_height crop_width b d y x) :
    fwdBox image_data depth image_height image_width crop_height crop_width
      extrapolation_value y1 x1 y2 x2 b_in b crops_data j = crops_data j := by
  rw [fwdBox_eq]
  apply forLoop_miss
  intro y hy0 hy1 m
  have key : ∀ d x, 0 ≤ d → d < depth → 0 ≤ x → x < crop_width → ∀ (v : ℚ) (m : Int → ℚ),
      store m (depth * (crop_height * crop_width) * b + crop_height * crop_width * d
        + y * crop_width + x) v j = m j := by
    intro d x hd0 hd1 hx0 hx1 v m
    apply store_ne
    rw [crops_offset_eq]
    exact h d y x hd0 hd1 hy0 hy1 hx0 hx1
  by_cases hy : out_of_range image_height (in_coord crop_height image_height y1 y2 y)
  · rw [if_pos hy]
    apply forLoop_miss
    intro x hx0 hx1 m
    apply forLoop_miss
    intro d hd0 hd1 m
    exact key d x hd0 hd1 hx0 hx1 _ m
  · rw [if_neg hy]
    apply forLoop_miss
    intro x hx0 hx1 m
    by_cases hx : out_of_range image_width (in_coord crop_width image_width x1 x2 x)
    · rw [if_pos hx]
      apply forLoop_miss
      intro d hd0 hd1 m
      exact key d x hd0 hd1 hx0 hx1 _ m
    · rw [if_neg hx]
      apply forLoop_miss
      intro d hd0 hd1 m
      exact key d x hd0 hd1 hx0 hx1 _ m

theorem fwdBox_hit (image_data : Int → ℚ) (depth image_height image_width : Int)
    (crop_height crop_width : Int) (extrapolation_value : ℚ)
    (y1 x1 y2 x2 : ℚ) (b_in b : Int) (crops_data : Int → ℚ) (d y x : Int)
    (hd : 0 ≤ d ∧ d < depth) (hy : 0 ≤ y ∧ y < crop_height) (hx : 0 ≤ x ∧ x < crop_width) :
    fwdBox image_data depth image_height image_width crop_height crop_width
      extrapolation_value y1 x1 y2 x2 b_in b crops_data
      (idx4 depth crop_height crop_width b d y x)
    = fwdCell image_data depth image_height image_width b_in y1 x1 y2 x2 crop_height
        crop_width extrapolation_value d y x := by
  rw [fwdBox_eq]
  have key_ne : ∀ dd yy xx, 0 ≤ dd → dd < depth → 0 ≤ yy → yy < crop_height → 0 ≤ xx →
      xx < crop_width → (dd ≠ d ∨ yy ≠ y ∨ xx ≠ x) → ∀ (v : ℚ) (m : Int → ℚ),
      store m (depth * (crop_height * crop_width) * b + crop_height * crop_width * dd
        + yy * crop_width + xx) v (idx4 depth crop_height crop_width b d y x)
        = m (idx4 depth crop_height crop_width b d y x) := by
    intro dd yy xx hd0 hd1 hy0 hy1 hx0 hx1 hne v m
    apply store_ne
    rw [crops_offset_eq]
    intro heq
    obtain ⟨_, h1, h2, h3⟩ := idx4_inj _ _ _ _ _ _ _ _ _ _ _ hd hy hx ⟨hd0, hd1⟩ ⟨hy0, hy1⟩
      ⟨hx0, hx1⟩ heq
    rcases hne with hne | hne | hne
    · exact hne h1.symm
    · exact hne h2.symm
    · exact hne h3.symm
  have key_eq : ∀ (v : ℚ) (m : Int → ℚ),
      store m (depth * (crop_height * crop_width) * b + crop_height * crop_width * d
        + y * crop_width + x) v (idx4 depth crop_height crop_width b d y x) = v := by
    intro v m
    rw [crops_offset_eq]
    exact store_eq _ _ _
  unfold fwdCell
  apply forLoop_hit 0 crop_height _ _ y _ _ hy.1 hy.2
  · intro m
    by_cases hyo : out_of_range image_height (in_coord crop_height image_height y1 y2 y)
    · rw [if_pos hyo, if_pos hyo]
      apply forLoop_hit 0 crop_width _ _ x _ _ hx.1 hx.2
      · intro m
        apply forLoop_hit 0 depth _ _ d _ _ hd.1 hd.2
        · intro m
          exact key_eq _ m
        · intro dd hd0 hd1 hne m
          exact key_ne dd y x hd0 hd1 hy.1 hy.2 hx.1 hx.2 (Or.inl hne) _ m
      · intro xx hx0 hx1 hne m
        apply forLoop_miss
        intro dd hd0 hd1 m
        exact key_ne dd y xx hd0 hd1 hy.1 hy.2 hx0 hx1 (Or.inr (Or.inr hne)) _ m
    · rw [if_neg hyo, if_neg hyo]
      apply forLoop_hit 0 crop_width _ _ x _ _ hx.1 hx.2
      · intro m
        by_cases hxo : out_of_range image_width (in_coord crop_width image_width x1 x2 x)
        · rw [if_pos hxo, if_pos hxo]
          apply forLoop_hit 0 depth _ _ d _ _ hd.1 hd.2
          · intro m
            exact key_eq _ m
          · intro dd hd0 hd1 hne m
            exact key_ne dd y x hd0 hd1 hy.1 hy.2 hx.1 hx.2 (Or.inl hne) _ m
        · rw [if_neg hxo, if_neg hxo]
          apply forLoop_hit 0 depth _ _ d _ _ hd.1 hd.2
          · intro m
            exact key_eq _ m
          · intro dd hd0 hd1 hne m
            exact key_ne dd y x hd0 hd1 hy.1 hy.2 hx.1 hx.2 (Or.inl hne) _ m
      · intro xx hx0 hx1 hne m
        by_cases hxo : out_of_range image_width (in_coord crop_width image_width x1 x2 xx)
        · rw [if_pos hxo]
          apply forLoop_miss
          intro dd hd0 hd1 m
          exact key_ne dd y xx hd0 hd1 hy.1 hy.2 hx0 hx1 (Or.inr (Or.inr hne)) _ m
        · rw [if_neg hxo]
          apply forLoop_miss
          intro dd hd0 hd1 m
          exact key_ne dd y xx hd0 hd1 hy.1 hy.2 hx0 hx1 (Or.inr (Or.inr hne)) _ m
  · intro yy hy0 hy1 hne m
    have key : ∀ dd xx, 0 ≤ dd → dd < depth → 0 ≤ xx → xx < crop_width → ∀ (v : ℚ)
        (m : Int → ℚ),
        store m (depth * (crop_height * crop_width) * b + crop_height * crop_width * dd
          + yy * crop_width + xx) v (idx4 depth crop_height crop_width b d y x)
          = m (idx4 depth crop_height crop_width b d y x) :=
      fun dd xx hd0 hd1 hx0 hx1 v m =>
        key_ne dd yy xx hd0 hd1 hy0 hy1 hx0 hx1 (Or.inr (Or.inl hne)) v m
    by_cases hyo : out_of_range image_height (in_coord crop_height image_height y1 y2 yy)
    · rw [if_pos hyo]
      apply forLoop_miss
      intro xx hx0 hx1 m
      apply forLoop_miss
      intro dd hd0 hd1 m
      exact key dd xx hd0 hd1 hx0 hx1 _ m
    · rw [if_neg hyo]
      apply forLoop_miss
      intro xx hx0 hx1 m
      by_cases hxo : out_of_range image_width (in_coord crop_width image_width x1 x2 xx)
      · rw [if_pos hxo]
        apply forLoop_miss
        intro dd hd0 hd1 m
        exact key dd xx hd0 hd1 hx0 hx1 _ m
      · rw [if_neg hxo]
        apply forLoop_miss
        intro dd hd0 hd1 m
        exact key dd xx hd0 hd1 hx0 hx1 _ m

theorem fwdRegions_miss (image_data : Int → ℚ) (depth image_height image_width : Int)
    (boxes_data : Int → ℚ) (box_index_data : Int → Int) (start_box limit_box : Int)
    (crops_data : Int → ℚ) (crop_height crop_width : Int) (extrapolation_value : ℚ) (j : Int)
    (h : ∀ b d y x, start_box ≤ b → b < limit_box → 0 ≤ d → d < depth → 0 ≤ y →
      y < crop_height → 0 ≤ x → x < crop_width →
      j ≠ idx4 depth crop_height crop_width b d y x) :
    fwdRegions image_data depth image_height image_width boxes_data box_index_data
      start_box limit_box crops_data crop_height crop_width extrapolation_value j
    = crops_data j := by
  unfold fwdRegions
  apply forLoop_miss
  intro b hb0 hb1 m
  exact fwdBox_miss _ _ _ _ _ _ _ _ _ _ _ _ _ _ _ (fun d y x => h b d y x hb0 hb1)

theorem fwdRegions_hit (image_data : Int → ℚ) (depth image_height image_width : Int)
    (boxes_data : Int → ℚ) (box_index_data : Int → Int) (start_box limit_box : Int)
    (crops_data : Int → ℚ) (crop_height crop_width : Int) (extrapolation_value : ℚ)
    (b d y x : Int) (hb : start_box ≤ b ∧ b < limit_box)
    (hd : 0 ≤ d ∧ d < depth) (hy : 0 ≤ y ∧ y < crop_height) (hx : 0 ≤ x ∧ x < crop_width) :
    fwdRegions image_data depth image_height image_width boxes_data box_index_data
      start_box limit_box crops_data crop_height crop_width extrapolation_value
      (idx4 depth crop_height crop_width b d y x)
    = fwdCell image_data depth image_height image_width (box_index_data b)
        (boxes_data (b * 4 + 0)) (boxes_data (b * 4 + 1)) (boxes_data (b * 4 + 2))
        (boxes_data (b * 4 + 3)) crop_height crop_width extrapolation_value d y x := by
  unfold fwdRegions
  apply forLoop_hit start_box limit_box _ _ b _ _ hb.1 hb.2
  · intro m
    exact fwdBox_hit _ _ _ _ _ _ _ _ _ _ _ _ _ _ _ _ _ hd hy hx
  · intro bb hb0 hb1 hne m
    apply fwdBox_miss
    intro dd yy xx hd0 hd1 hy0 hy1 hx0 hx1 heq
    exact hne (idx4_inj _ _ _ _ _ _ _ _ _ _ _ hd hy hx ⟨hd0, hd1⟩ ⟨hy0, hy1⟩ ⟨hx0, hx1⟩
      heq).1.symm

/-- With every batch index of the range valid, `CropAndResizePerBox` returns and its result
is the plain region loop. -/
theorem CropAndResizePerBox_ok (image_data : Int → ℚ)
    (batch_size depth image_height image_width : Int)
    (boxes_data : Int → ℚ) (box_index_data : Int → Int) (start_box limit_box : Int)
    (crops_data : Int → ℚ) (crop_height crop_width : Int) (extrapolation_value : ℚ)
    (hvalid : ∀ b, start_box ≤ b → b < limit_box →
      0 ≤ box_index_data b ∧ box_index_data b < batch_size) :
    CropAndResizePerBox image_data batch_size depth image_height image_width boxes_data
      box_index_data start_box limit_box crops_data crop_height crop_width extrapolation_value
    = Except.ok (fwdRegions image_data depth image_height image_width boxes_data
        box_index_data start_box limit_box crops_data crop_height crop_width
        extrapolation_value) := by
  rw [CropAndResizePerBox_eq]
  unfold fwdRegions
  exact forLoopM_ok (fun b => box_index_data b < 0 ∨ box_index_data b ≥ batch_size)
    (fun b => BatchIndexError.mk (box_index_data b) batch_size)
    (fun b crops_data => fwdBox image_data depth image_height image_width crop_height
      crop_width extrapolation_value (boxes_data (b * 4 + 0)) (boxes_data (b * 4 + 1))
      (boxes_data (b * 4 + 2)) (boxes_data (b * 4 + 3)) (box_index_data b) b crops_data)
    start_box limit_box crops_data
    (fun b hb0 hb1 hbad => by
      have := hvalid b hb0 hb1
      rcases hbad with hbad | hbad <;> omega)

theorem lerpValue_eq_bilinear (P : Int → Int → ℚ) (py px : ℚ) :
    lerpValue P py px = bilinear P py px := by
  unfold lerpValue bilinear
  ring

theorem lerpValue_intCast (P : Int → Int → ℚ) (i j : Int) :
    lerpValue P (i : ℚ) (j : ℚ) = P i j := by
  unfold lerpValue
  simp

theorem in_coord_full (n i : Int) (hn : 1 ≤ n) (hi0 : 0 ≤ i) (hi1 : i < n) :
    in_coord n n 0 1 i = (i : ℚ) := by
  unfold in_coord scale
  by_cases h : n > 1
  · have hne : (n : ℚ) - 1 ≠ 0 := by
      have : (1 : ℚ) < n := by exact_mod_cast h
      linarith
    simp only [if_pos h]
    field_simp
  · have hn1 : n = 1 := by omega
    have hi : i = 0 := by omega
    subst hn1 hi
    norm_num

theorem not_out_of_range_intCast (n i : Int) (hi0 : 0 ≤ i) (hi1 : i < n) :
    ¬ out_of_range n (i : ℚ) := by
  unfold out_of_range
  have h0 : (0 : ℚ) ≤ i := by exact_mod_cast hi0
  have h1 : (i : ℚ) ≤ n - 1 := by
    have : i ≤ n - 1 := by omega
    exact_mod_cast this
  intro h
  rcases h with h | h <;> linarith

/-- With every batch index valid, `crop_and_resize_forward` returns the resized tensor whose
data is the region loop run on the zero-filled buffer. -/
theorem crop_and_resize_forward_ok (image boxes : Tensor ℚ) (box_index : Tensor Int)
    (extrapolation_value : ℚ) (crop_height crop_width : Int) (crops : Tensor ℚ)
    (hvalid : ∀ b, 0 ≤ b → b < boxes.size 0 →
      0 ≤ box_index.data b ∧ box_index.data b < image.size 0) :
    crop_and_resize_forward image boxes box_index extrapolation_value crop_height crop_width
      crops
    = Except.ok
        { sizes := [boxes.size 0, image.size 1, crop_height, crop_width],
          data := fwdRegions image.data (image.size 1) (image.size 2) (image.size 3)
            boxes.data box_index.data 0 (boxes.size 0)
            (crops.resize_ [boxes.size 0, image.size 1, crop_height, crop_width]).zero_.data
            crop_height crop_width extrapolation_value } := by
  unfold crop_and_resize_forward
  simp only []
  rw [CropAndResizePerBox_ok _ _ _ _ _ _ _ _ _ _ _ _ _ hvalid]
  rfl

theorem fwdCell_full (image_data : Int → ℚ) (depth image_height image_width k : Int)
    (extrapolation_value : ℚ) (d y x : Int) (hh : 1 ≤ image_height) (hw : 1 ≤ image_width)
    (hy : 0 ≤ y ∧ y < image_height) (hx : 0 ≤ x ∧ x < image_width) :
    fwdCell image_data depth image_height image_width k 0 0 1 1 image_height image_width
      extrapolation_value d y x
    = image_data (idx4 depth image_height image_width k d y x) := by
  unfold fwdCell
  rw [in_coord_full _ _ hh hy.1 hy.2, in_coord_full _ _ hw hx.1 hx.2,
    if_neg (not_out_of_range_intCast _ _ hy.1 hy.2),
    if_neg (not_out_of_range_intCast _ _ hx.1 hx.2), lerpValue_intCast]
  unfold plane
  rw [image_offset_eq]

/-- The region loop with validation either runs to completion (no index of the range is
rejected) or stops at the first rejected index. -/
theorem forFromM_cases {σ ε : Type} (bad : Int → Prop) [DecidablePred bad] (err : Int → ε)
    (f : Int → σ → σ) :
    ∀ (n : Nat) (i : Int) (s : σ),
      ((∀ k, i ≤ k → k < i + n → ¬ bad k) ∧
        forFromM (fun b s => if bad b then Except.error (err b) else Except.ok (f b s)) n i s
          = Except.ok (forFrom f n i s)) ∨
      (∃ a, i ≤ a ∧ a < i + n ∧ bad a ∧ (∀ k, i ≤ k → k < a → ¬ bad k) ∧
        forFromM (fun b s => if bad b then Except.error (err b) else Except.ok (f b s)) n i s
          = Except.error (err a)) := by
  intro n i s
  by_cases h : ∀ k, i ≤ k → k < i + n → ¬ bad k
  · exact Or.inl ⟨h, forFromM_ok bad err f n i s h⟩
  · right
    push_neg at h
    obtain ⟨k, hk0, hk1, hk⟩ := h
    -- the least rejected index
    have hex : ∃ m : Nat, bad (i + m) := ⟨(k - i).toNat, by
      have : i + ((k - i).toNat : Int) = k := by omega
      rw [this]; exact hk⟩
    classical
    let m0 := Nat.find hex
    have hm0 : bad (i + m0) := Nat.find_spec hex
    have hmin : ∀ m : Nat, m < m0 → ¬ bad (i + m) := fun m hm => Nat.find_min hex hm
    have hle : m0 ≤ (k - i).toNat := Nat.find_min' hex (by
      have : i + ((k - i).toNat : Int) = k := by omega
      rw [this]; exact hk)
    refine ⟨i + m0, by omega, by omega, hm0, ?_, ?_⟩
    · intro k1 hk10 hk11
      have := hmin (k1 - i).toNat (by omega)
      have e : i + ((k1 - i).toNat : Int) = k1 := by omega
      rwa [e] at this
    · apply forFromM_error bad err f (i + m0) hm0 n i s (by omega) (by omega)
      intro k1 hk10 hk11
      have := hmin (k1 - i).toNat (by omega)
      have e : i + ((k1 - i).toNat : Int) = k1 := by omega
      rwa [e] at this

theorem forLoopM_cases {σ ε : Type} (bad : Int → Prop) [DecidablePred bad] (err : Int → ε)
    (f : Int → σ → σ) (lo hi : Int) (s : σ) :
    ((∀ k, lo ≤ k → k < hi → ¬ bad k) ∧
      forLoopM lo hi (fun b s => if bad b then Except.error (err b) else Except.ok (f b s)) s
        = Except.ok (forLoop lo hi f s)) ∨
    (∃ a, lo ≤ a ∧ a < hi ∧ bad a ∧ (∀ k, lo ≤ k → k < a → ¬ bad k) ∧
      forLoopM lo hi (fun b s => if bad b then Except.error (err b) else Except.ok (f b s)) s
        = Except.error (err a)) := by
  unfold forLoopM forLoop
  rcases forFromM_cases bad err f (hi - lo).toNat lo s with ⟨h1, h2⟩ | ⟨a, h1, h2, h3, h4, h5⟩
  · exact Or.inl ⟨fun k hk0 hk1 => h1 k hk0 (by omega), h2⟩
  · exact Or.inr ⟨a, h1, by omega, h3, h4, h5⟩

/-- The two outcomes of `CropAndResizePerBox`. -/
theorem CropAndResizePerBox_cases (image_data : Int → ℚ)
    (batch_size depth image_height image_width : Int)
    (boxes_data : Int → ℚ) (box_index_data : Int → Int) (start_box limit_box : Int)
    (crops_data : Int → ℚ) (crop_height crop_width : Int) (extrapolation_value : ℚ) :
    ((∀ b, start_box ≤ b → b < limit_box →
        ¬ (box_index_data b < 0 ∨ box_index_data b ≥ batch_size)) ∧
      CropAndResizePerBox image_data batch_size depth image_height image_width boxes_data
        box_index_data start_box limit_box crops_data crop_height crop_width
        extrapolation_value
      = Except.ok (fwdRegions image_data depth image_height image_width boxes_data
          box_index_data start_box limit_box crops_data crop_height crop_width
          extrapolation_value)) ∨
    (∃ a, start_box ≤ a ∧ a < limit_box ∧
      (box_index_data a < 0 ∨ box_index_data a ≥ batch_size) ∧
      (∀ b, start_box ≤ b → b < a →
        ¬ (box_index_data b < 0 ∨ box_index_data b ≥ batch_size)) ∧
      CropAndResizePerBox image_data batch_size depth image_height image_width boxes_data
        box_index_data start_box limit_box crops_data crop_height crop_width
        extrapolation_value
      = Except.error (BatchIndexError.mk (box_index_data a) batch_size)) := by
  rw [CropAndResizePerBox_eq]
  unfold fwdRegions
  exact forLoopM_cases (fun b => box_index_data b < 0 ∨ box_index_data b ≥ batch_size)
    (fun b => BatchIndexError.mk (box_index_data b) batch_size)
    (fun b crops_data => fwdBox image_data depth image_height image_width crop_height
      crop_width extrapolation_value (boxes_data (b * 4 + 0)) (boxes_data (b * 4 + 1))
      (boxes_data (b * 4 + 2)) (boxes_data (b * 4 + 3)) (box_index_data b) b crops_data)
    start_box limit_box crops_data

/-- C5 (forward batch-index validation). `CropAndResizePerBox` over `[start_box, limit_box)`
ends in the error result exactly when some region of the range has a batch index below 0 or
at least `batch_size`; the error then carries `batch_size` and the index value of a region
of the range that is out of `[0, batch_size)`. In particular an index `-1` or `batch_size`
anywhere in the range fails the whole call. -/
theorem C5_forward_batch_index_validation (image_data : Int → ℚ)
    (batch_size depth image_height image_width : Int)
    (boxes_data : Int → ℚ) (box_index_data : Int → Int) (start_box limit_box : Int)
    (crops_data : Int → ℚ) (crop_height crop_width : Int) (extrapolation_value : ℚ) :
    ((∃ e, CropAndResizePerBox image_data batch_size depth image_height image_width
        boxes_data box_index_data start_box limit_box crops_data crop_height crop_width
        extrapolation_value = Except.error e) ↔
      ∃ b, start_box ≤ b ∧ b < limit_box ∧
        (box_index_data b < 0 ∨ box_index_data b ≥ batch_size)) ∧
    (∀ e, CropAndResizePerBox image_data batch_size depth image_height image_width
        boxes_data box_index_data start_box limit_box crops_data crop_height crop_width
        extrapolation_value = Except.error e →
      e.batch_size = batch_size ∧
      ∃ b, start_box ≤ b ∧ b < limit_box ∧ e.b_in = box_index_data b ∧
        (e.b_in < 0 ∨ e.b_in ≥ batch_size)) ∧
    (∀ b, start_box ≤ b → b < limit_box →
      (box_index_data b = -1 ∨ box_index_data b = batch_size) →
      ∃ e, CropAndResizePerBox image_data batch_size depth image_height image_width
        boxes_data box_index_data start_box limit_box crops_data crop_height crop_width
        extrapolation_value = Except.error e) := by
  have hc := CropAndResizePerBox_cases image_data batch_size depth image_height image_width
    boxes_data box_index_data start_box limit_box crops_data crop_height crop_width
    extrapolation_value
  have hiff : (∃ e, CropAndResizePerBox image_data batch_size depth image_height image_width
        boxes_data box_index_data start_box limit_box crops_data crop_height crop_width
        extrapolation_value = Except.error e) ↔
      ∃ b, start_box ≤ b ∧ b < limit_box ∧
        (box_index_data b < 0 ∨ box_index_data b ≥ batch_size) := by
    rcases hc with ⟨h1, h2⟩ | ⟨a, h1, h2, h3, _, h5⟩
    · constructor
      · rintro ⟨e, he⟩
        rw [h2] at he
        cases he
      · rintro ⟨b, hb0, hb1, hb⟩
        exact absurd hb (h1 b hb0 hb1)
    · exact ⟨fun _ => ⟨a, h1, h2, h3⟩, fun _ => ⟨_, h5⟩⟩
  refine ⟨hiff, ?_, ?_⟩
  · intro e he
    rcases hc with ⟨_, h2⟩ | ⟨a, h1, h2, h3, _, h5⟩
    · rw [h2] at he
      cases he
    · rw [h5] at he
      cases he
      exact ⟨rfl, a, h1, h2, rfl, h3⟩
  · intro b hb0 hb1 hb
    apply hiff.2
    refine ⟨b, hb0, hb1, ?_⟩
    rcases hb with hb | hb
    · left; omega
    · right; omega

theorem in_coord_above_out (crop_size image_size i : Int) (h1 : image_size ≠ 1)
    (hi0 : 0 ≤ i) (hi1 : i < crop_size) :
    out_of_range image_size (in_coord crop_size image_size (-1) (-0.5) i) := by
  unfold out_of_range in_coord scale
  have hH : (image_size : ℚ) - 1 ≠ 0 := by
    intro h
    apply h1
    have : (image_size : ℚ) = 1 := by linarith
    exact_mod_cast this
  by_cases hc : crop_size > 1
  · simp only [if_pos hc]
    have hC : (0 : ℚ) < (crop_size : ℚ) - 1 := by
      have : (1 : ℚ) < crop_size := by exact_mod_cast hc
      linarith
    have hi0q : (0 : ℚ) ≤ i := by exact_mod_cast hi0
    have hi1q : (i : ℚ) ≤ (crop_size : ℚ) - 1 := by
      have : i ≤ crop_size - 1 := by omega
      exact_mod_cast this
    have ht0 : (0 : ℚ) ≤ (i : ℚ) / ((crop_size : ℚ) - 1) := div_nonneg hi0q hC.le
    have ht1 : (i : ℚ) / ((crop_size : ℚ) - 1) ≤ 1 := (div_le_one hC).2 hi1q
    have e : (-1 : ℚ) * ((image_size : ℚ) - 1)
        + (i : ℚ) * ((-0.5 - -1) * ((image_size : ℚ) - 1) / ((crop_size : ℚ) - 1))
        = ((image_size : ℚ) - 1) * (-1 + 0.5 * ((i : ℚ) / ((crop_size : ℚ) - 1))) := by
      field_simp
      ring
    rw [e]
    rcases lt_or_gt_of_ne hH with hneg | hpos
    · right
      norm_num at *
      nlinarith
    · left
      norm_num at *
      nlinarith
  · simp only [if_neg hc]
    rcases lt_or_gt_of_ne hH with hneg | hpos
    · right
      norm_num
      linarith
    · left
      norm_num
      linarith

theorem plane_eq_idx4 (image_data : Int → ℚ) (depth image_height image_width k d : Int) :
    plane image_data depth image_height image_width k d
      = fun r c => image_data (idx4 depth image_height image_width k d r c) := by
  funext r c
  unfold plane
  rw [image_offset_eq]

theorem block_disjoint (n b b1 j : Int) (hne : b ≠ b1) :
    ¬ ((b * n ≤ j ∧ j < (b + 1) * n) ∧ (b1 * n ≤ j ∧ j < (b1 + 1) * n)) := by
  rintro ⟨⟨h1, h2⟩, ⟨h3, h4⟩⟩
  have hn : 0 < n := by nlinarith
  rcases lt_or_gt_of_ne hne with h | h
  · have : (b + 1) * n ≤ b1 * n := Int.mul_le_mul_of_nonneg_right (by omega) hn.le
    linarith
  · have : (b1 + 1) * n ≤ b * n := Int.mul_le_mul_of_nonneg_right (by omega) hn.le
    linarith

/-- Frame of the forward sampler when offsets are mathematical integers. For a successful
run of `CropAndResizePerBox` over `[start_box, limit_box)`: every flat offset outside the
blocks `[b*E, (b+1)*E)`, `E = depth*crop_height*crop_width`, of the regions of the range
keeps its value; so does every cell of a region outside the range; the single iteration for
a region `b` of the range (the call over `[b, b+1)`) changes nothing outside block `b`; and
blocks of different regions are disjoint. -/
theorem forward_writes_confined_exact (image_data : Int → ℚ)
    (batch_size depth image_height image_width : Int)
    (boxes_data : Int → ℚ) (box_index_data : Int → Int) (start_box limit_box : Int)
    (crops_data : Int → ℚ) (crop_height crop_width : Int) (extrapolation_value : ℚ)
    (out : Int → ℚ)
    (hok : CropAndResizePerBox image_data batch_size depth image_height image_width
        boxes_data box_index_data start_box limit_box crops_data crop_height crop_width
        extrapolation_value = Except.ok out) :
    (∀ j, (∀ b, start_box ≤ b → b < limit_box →
        j < b * (depth * (crop_height * crop_width))
          ∨ (b + 1) * (depth * (crop_height * crop_width)) ≤ j) →
      out j = crops_data j) ∧
    (∀ b d y x, ¬ (start_box ≤ b ∧ b < limit_box) → 0 ≤ d → d < depth → 0 ≤ y →
      y < crop_height → 0 ≤ x → x < crop_width →
      out (idx4 depth crop_height crop_width b d y x)
        = crops_data (idx4 depth crop_height crop_width b d y x)) ∧
    (∀ b, start_box ≤ b → b < limit_box → ∀ buf : Int → ℚ,
      ∃ out_b, CropAndResizePerBox image_data batch_size depth image_height image_width
          boxes_data box_index_data b (b + 1) buf crop_height crop_width
          extrapolation_value = Except.ok out_b ∧
        ∀ j, (j < b * (depth * (crop_height * crop_width))
            ∨ (b + 1) * (depth * (crop_height * crop_width)) ≤ j) → out_b j = buf j) ∧
    (∀ b b1 j, b ≠ b1 →
      ¬ ((b * (depth * (crop_height * crop_width)) ≤ j
            ∧ j < (b + 1) * (depth * (crop_height * crop_width)))
          ∧ (b1 * (depth * (crop_height * crop_width)) ≤ j
            ∧ j < (b1 + 1) * (depth * (crop_height * crop_width))))) := by
  have hvalid : ∀ b, start_box ≤ b → b < limit_box →
      0 ≤ box_index_data b ∧ box_index_data b < batch_size := by
    rcases CropAndResizePerBox_cases image_data batch_size depth image_height image_width
      boxes_data box_index_data start_box limit_box crops_data crop_height crop_width
      extrapolation_value with ⟨h1, _⟩ | ⟨a, _, _, _, _, h5⟩
    · intro b hb0 hb1
      have := h1 b hb0 hb1
      constructor
      · by_contra hc; exact this (Or.inl (by omega))
      · by_contra hc; exact this (Or.inr (by omega))
    · rw [h5] at hok
      cases hok
  have hout : out = fwdRegions image_data depth image_height image_width boxes_data
      box_index_data start_box limit_box crops_data crop_height crop_width
      extrapolation_value := by
    rw [CropAndResizePerBox_ok _ _ _ _ _ _ _ _ _ _ _ _ _ hvalid] at hok
    cases hok
    rfl
  have frame : ∀ (s l : Int) (buf : Int → ℚ) (j : Int),
      (∀ b, s ≤ b → b < l → j < b * (depth * (crop_height * crop_width))
          ∨ (b + 1) * (depth * (crop_height * crop_width)) ≤ j) →
      fwdRegions image_data depth image_height image_width boxes_data
        box_index_data s l buf crop_height crop_width extrapolation_value j = buf j := by
    intro s l buf j hj
    apply fwdRegions_miss
    intro b d y x hb0 hb1 hd0 hd1 hy0 hy1 hx0 hx1 heq
    have hblk := idx4_block depth crop_height crop_width b d y x ⟨hd0, hd1⟩ ⟨hy0, hy1⟩
      ⟨hx0, hx1⟩
    rw [← heq] at hblk
    rcases hj b hb0 hb1 with h | h
    · linarith [hblk.1]
    · linarith [hblk.2]
  refine ⟨?_, ?_, ?_, ?_⟩
  · intro j hj
    rw [hout]
    exact frame _ _ _ _ hj
  · intro b d y x hb hd0 hd1 hy0 hy1 hx0 hx1
    rw [hout]
    apply fwdRegions_miss
    intro b1 d1 y1 x1 hb0 hb1 hd10 hd11 hy10 hy11 hx10 hx11 heq
    have := (idx4_inj _ _ _ _ _ _ _ _ _ _ _ ⟨hd0, hd1⟩ ⟨hy0, hy1⟩ ⟨hx0, hx1⟩ ⟨hd10, hd11⟩
      ⟨hy10, hy11⟩ ⟨hx10, hx11⟩ heq).1
    exact hb (by omega)
  · intro b hb0 hb1 buf
    refine ⟨_, CropAndResizePerBox_ok _ _ _ _ _ _ _ _ _ _ _ _ _
      (fun r hr0 hr1 => hvalid r (by omega) (by omega)), ?_⟩
    intro j hj
    apply frame
    intro r hr0 hr1
    have : r = b := by omega
    rw [this]
    exact hj
  · intro b b1 j hne
    exact block_disjoint _ b b1 j hne

/-! ## The backward scatterer, entry by entry -/

theorem forFrom_add (body : Int → (Int → ℚ) → (Int → ℚ)) (j : Int) (c : Int → ℚ) :
    ∀ (n : Nat) (i : Int) (m : Int → ℚ),
      (∀ k, i ≤ k → k < i + n → ∀ m, body k m j = m j + c k) →
      forFrom body n i m j = m j + ∑ t in Finset.range n, c (i + (t : Int)) := by
  intro n
  induction n with
  | zero => intro i m _; simp [forFrom]
  | succ n ih =>
    intro i m h
    simp only [forFrom]
    rw [ih (i + 1) (body i m) (fun k hk1 hk2 => h k (by omega) (by push_cast; omega)),
      h i (le_refl i) (by push_cast; omega) m, Finset.sum_range_succ']
    have e : ∀ t : Nat, c (i + 1 + (t : Int)) = c (i + ((t + 1 : Nat) : Int)) := by
      intro t
      congr 1
      push_cast
      ring
    simp only [e]
    simp only [Nat.cast_zero, add_zero]
    ring

theorem forLoop_add (lo hi : Int) (body : Int → (Int → ℚ) → (Int → ℚ)) (j : Int)
    (c : Int → ℚ) (m : Int → ℚ)
    (h : ∀ k, lo ≤ k → k < hi → ∀ m, body k m j = m j + c k) :
    forLoop lo hi body m j = m j + sumRange lo hi c := by
  unfold forLoop sumRange
  exact forFrom_add body j c _ lo m (fun k hk1 hk2 => h k hk1 (by omega))

theorem sumRange_congr (lo hi : Int) (c c1 : Int → ℚ)
    (h : ∀ k, lo ≤ k → k < hi → c k = c1 k) : sumRange lo hi c = sumRange lo hi c1 := by
  unfold sumRange
  apply Finset.sum_congr rfl
  intro n hn
  rw [Finset.mem_range] at hn
  exact h _ (by omega) (by omega)

theorem sumRange_add (lo hi : Int) (c c1 : Int → ℚ) :
    sumRange lo hi (fun k => c k + c1 k) = sumRange lo hi c + sumRange lo hi c1 := by
  unfold sumRange
  exact Finset.sum_add_distrib

theorem sumRange_zero (lo hi : Int) (c : Int → ℚ)
    (h : ∀ k, lo ≤ k → k < hi → c k = 0) : sumRange lo hi c = 0 := by
  unfold sumRange
  apply Finset.sum_eq_zero
  intro n hn
  rw [Finset.mem_range] at hn
  exact h _ (by omega) (by omega)

theorem sumRange_single (lo hi : Int) (c : Int → ℚ) (a : Int) (h1 : lo ≤ a) (h2 : a < hi)
    (h : ∀ k, lo ≤ k → k < hi → k ≠ a → c k = 0) : sumRange lo hi c = c a := by
  unfold sumRange
  rw [Finset.sum_eq_single (a - lo).toNat]
  · congr 1
    omega
  · intro n hn hne
    rw [Finset.mem_range] at hn
    exact h _ (by omega) (by omega) (by omega)
  · intro hn
    exfalso
    apply hn
    rw [Finset.mem_range]
    omega

theorem sumRange_mul_left (lo hi : Int) (c : Int → ℚ) (r : ℚ) :
    sumRange lo hi (fun k => r * c k) = r * sumRange lo hi c := by
  unfold sumRange
  rw [Finset.mul_sum]

theorem bwdBox_eq (grads_data : Int → ℚ) (depth image_height image_width : Int)
    (crop_height crop_width : Int) (y1 x1 y2 x2 : ℚ) (b_in b : Int)
    (grads_image_data : Int → ℚ) :
    bwdBox grads_data depth image_height image_width crop_height crop_width y1 x1 y2 x2
      b_in b grads_image_data
    = forLoop 0 crop_height (fun y grads_image_data =>
        if out_of_range image_height (in_coord crop_height image_height y1 y2 y) then
          grads_image_data
        else
          forLoop 0 crop_width (fun x grads_image_data =>
            if out_of_range image_width (in_coord crop_width image_width x1 x2 x) then
              grads_image_data
            else
              forLoop 0 depth (fun d grads_image_data =>
                accum (accum (accum (accum grads_image_data
                  (b_in * (depth * (image_height * image_width))
                    + d * (image_height * image_width)
                    + (⌊in_coord crop_height image_height y1 y2 y⌋ * image_width
                      + ⌊in_coord crop_width image_width x1 x2 x⌋))
                  ((1 - (in_coord crop_width image_width x1 x2 x
                      - ⌊in_coord crop_width image_width x1 x2 x⌋))
                    * ((1 - (in_coord crop_height image_height y1 y2 y
                        - ⌊in_coord crop_height image_height y1 y2 y⌋))
                      * grads_data (depth * (crop_height * crop_width) * b
                          + crop_height * crop_width * d + y * crop_width + x))))
                  (b_in * (depth * (image_height * image_width))
                    + d * (image_height * image_width)
                    + (⌊in_coord crop_height image_height y1 y2 y⌋ * image_width
                      + ⌈in_coord crop_width image_width x1 x2 x⌉))
                  ((in_coord crop_width image_width x1 x2 x
                      - ⌊in_coord crop_width image_width x1 x2 x⌋)
                    * ((1 - (in_coord crop_height image_height y1 y2 y
                        - ⌊in_coord crop_height image_height y1 y2 y⌋))
                      * grads_data (depth * (crop_height * crop_width) * b
                          + crop_height * crop_width * d + y * crop_width + x))))
                  (b_in * (depth * (image_height * image_width))
                    + d * (image_height * image_width)
                    + (⌈in_coord crop_height image_height y1 y2 y⌉ * image_width
                      + ⌊in_coord crop_width image_width x1 x2 x⌋))
                  ((1 - (in_coord crop_width image_width x1 x2 x
                      - ⌊in_coord crop_width image_width x1 x2 x⌋))
                    * ((in_coord crop_height image_height y1 y2 y
                        - ⌊in_coord crop_height image_height y1 y2 y⌋)
                      * grads_data (depth * (crop_height * crop_width) * b
                          + crop_height * crop_width * d + y * crop_width + x))))
                  (b_in * (depth * (image_height * image_width))
                    + d * (image_height * image_width)
                    + (⌈in_coord crop_height image_height y1 y2 y⌉ * image_width
                      + ⌈in_coord crop_width image_width x1 x2 x⌉))
                  ((in_coord crop_width image_width x1 x2 x
                      - ⌊in_coord crop_width image_width x1 x2 x⌋)
                    * ((in_coord crop_height image_height y1 y2 y
                        - ⌊in_coord crop_height image_height y1 y2 y⌋)
                      * grads_data (depth * (crop_height * crop_width) * b
                          + crop_height * crop_width * d + y * crop_width + x))))
                grads_image_data) grads_image_data) grads_image_data := rfl

theorem accum4_apply (m : Int → ℚ) (i1 i2 i3 i4 : Int) (v1 v2 v3 v4 : ℚ) (j : Int) :
    accum (accum (accum (accum m i1 v1) i2 v2) i3 v3) i4 v4 j
      = m j + ((if j = i1 then v1 else 0) + (if j = i2 then v2 else 0)
          + (if j = i3 then v3 else 0) + (if j = i4 then v4 else 0)) := by
  unfold accum
  split_ifs <;> ring

theorem bwdBox_apply (grads_data : Int → ℚ) (depth image_height image_width : Int)
    (crop_height crop_width : Int) (y1 x1 y2 x2 : ℚ) (b_in b : Int)
    (grads_image_data : Int → ℚ) (j : Int) :
    bwdBox grads_data depth image_height image_width crop_height crop_width y1 x1 y2 x2
      b_in b grads_image_data j
    = grads_image_data j + boxGrad grads_data depth image_height image_width crop_height
        crop_width y1 x1 y2 x2 b_in b j := by
  rw [bwdBox_eq]
  unfold boxGrad
  apply forLoop_add
  intro y _ _ m
  unfold rowGrad
  by_cases hy : out_of_range image_height (in_coord crop_height image_height y1 y2 y)
  · rw [if_pos hy, if_pos hy, add_zero]
  · rw [if_neg hy, if_neg hy]
    apply forLoop_add
    intro x _ _ m
    unfold colGrad
    by_cases hx : out_of_range image_width (in_coord crop_width image_width x1 x2 x)
    · rw [if_pos hx, if_pos hx, add_zero]
    · rw [if_neg hx, if_neg hx]
      apply forLoop_add
      intro d _ _ m
      rw [accum4_apply]
      unfold cellGrad
      simp only [image_offset_eq, crops_offset_eq]

theorem crop_and_resize_backward_eq (grads boxes : Tensor ℚ) (box_index : Tensor Int)
    (grads_image : Tensor ℚ) :
    crop_and_resize_backward grads boxes box_index grads_image
    = match bwdLoop grads boxes box_index grads_image with
      | Except.error e => Except.error e
      | Except.ok grads_image_data =>
        Except.ok { grads_image.zero_ with data := grads_image_data } := rfl

/-- The two outcomes of `crop_and_resize_backward`. -/
theorem crop_and_resize_backward_cases (grads boxes : Tensor ℚ) (box_index : Tensor Int)
    (grads_image : Tensor ℚ) :
    ((∀ b, 0 ≤ b → b < grads.size 0 →
        ¬ (box_index.data b < 0 ∨ box_index.data b ≥ grads_image.size 0)) ∧
      crop_and_resize_backward grads boxes box_index grads_image
        = Except.ok (bwdResult grads boxes box_index grads_image)) ∨
    (∃ a, 0 ≤ a ∧ a < grads.size 0 ∧
      (box_index.data a < 0 ∨ box_index.data a ≥ grads_image.size 0) ∧
      (∀ b, 0 ≤ b → b < a →
        ¬ (box_index.data b < 0 ∨ box_index.data b ≥ grads_image.size 0)) ∧
      crop_and_resize_backward grads boxes box_index grads_image
        = Except.error (BatchIndexError.mk (box_index.data a) (grads_image.size 0))) := by
  rw [crop_and_resize_backward_eq]
  unfold bwdLoop
  rcases forLoopM_cases
    (fun b => box_index.data b < 0 ∨ box_index.data b ≥ grads_image.size 0)
    (fun b => BatchIndexError.mk (box_index.data b) (grads_image.size 0))
    (fun b grads_image_data => bwdBox grads.data (grads_image.size 1) (grads_image.size 2)
        (grads_image.size 3) (grads.size 2) (grads.size 3) (boxes.data (b * 4 + 0))
        (boxes.data (b * 4 + 1)) (boxes.data (b * 4 + 2)) (boxes.data (b * 4 + 3))
        (box_index.data b) b grads_image_data)
    0 (grads.size 0) grads_image.zero_.data with ⟨h1, h2⟩ | ⟨a, h1, h2, h3, h4, h5⟩
  · left
    refine ⟨h1, ?_⟩
    rw [h2]
    simp only []
    unfold bwdResult
    congr 1
    congr 1
    funext j
    unfold totalGrad
    apply forLoop_add
    intro b _ _ m
    exact bwdBox_apply _ _ _ _ _ _ _ _ _ _ _ _ _ _
  · right
    refine ⟨a, h1, h2, h3, h4, ?_⟩
    rw [h5]

theorem crop_and_resize_backward_ok (grads boxes : Tensor ℚ) (box_index : Tensor Int)
    (grads_image : Tensor ℚ)
    (hvalid : ∀ b, 0 ≤ b → b < grads.size 0 →
      0 ≤ box_index.data b ∧ box_index.data b < grads_image.size 0) :
    crop_and_resize_backward grads boxes box_index grads_image
      = Except.ok (bwdResult grads boxes box_index grads_image) := by
  rcases crop_and_resize_backward_cases grads boxes box_index grads_image with
    ⟨_, h⟩ | ⟨a, h1, h2, h3, _, _⟩
  · exact h
  · exfalso
    have := hvalid a h1 h2
    rcases h3 with h3 | h3 <;> omega

/-- C6 (backward batch-index validation). `crop_and_resize_backward` ends in the error
result exactly when some region `b` of `[0, num_boxes)` has a batch index below 0 or at
least `batch_size` (the leading size of the gradient-image tensor); the error carries
`batch_size` and the index value of the first such region; and the outcome is the same for
every upstream gradient tensor with the same number of regions, whatever its crop size and
values. -/
theorem C6_backward_batch_index_validation (grads boxes : Tensor ℚ) (box_index : Tensor Int)
    (grads_image : Tensor ℚ) :
    ((∃ e, crop_and_resize_backward grads boxes box_index grads_image = Except.error e) ↔
      ∃ b, 0 ≤ b ∧ b < grads.size 0 ∧
        (box_index.data b < 0 ∨ box_index.data b ≥ grads_image.size 0)) ∧
    (∀ e, crop_and_resize_backward grads boxes box_index grads_image = Except.error e →
      e.batch_size = grads_image.size 0 ∧
      ∃ b, 0 ≤ b ∧ b < grads.size 0 ∧ e.b_in = box_index.data b ∧
        (e.b_in < 0 ∨ e.b_in ≥ grads_image.size 0) ∧
        ∀ r, 0 ≤ r → r < b → 0 ≤ box_index.data r ∧ box_index.data r < grads_image.size 0) ∧
    (∀ (grads1 : Tensor ℚ) (e : BatchIndexError), grads1.size 0 = grads.size 0 →
      crop_and_resize_backward grads boxes box_index grads_image = Except.error e →
      crop_and_resize_backward grads1 boxes box_index grads_image = Except.error e) := by
  have hc := crop_and_resize_backward_cases grads boxes box_index grads_image
  refine ⟨?_, ?_, ?_⟩
  · rcases hc with ⟨h1, h2⟩ | ⟨a, h1, h2, h3, _, h5⟩
    · constructor
      · rintro ⟨e, he⟩
        rw [h2] at he
        cases he
      · rintro ⟨b, hb0, hb1, hb⟩
        exact absurd hb (h1 b hb0 hb1)
    · exact ⟨fun _ => ⟨a, h1, h2, h3⟩, fun _ => ⟨_, h5⟩⟩
  · intro e he
    rcases hc with ⟨_, h2⟩ | ⟨a, h1, h2, h3, h4, h5⟩
    · rw [h2] at he
      cases he
    · rw [h5] at he
      cases he
      refine ⟨rfl, a, h1, h2, rfl, h3, ?_⟩
      intro r hr0 hr1
      have := h4 r hr0 hr1
      constructor
      · by_contra hcon; exact this (Or.inl (by omega))
      · by_contra hcon; exact this (Or.inr (by omega))
  · intro grads1 e hN he
    rcases hc with ⟨_, h2⟩ | ⟨a, h1, h2, h3, h4, h5⟩
    · rw [h2] at he
      cases he
    · rw [h5] at he
      cases he
      rcases crop_and_resize_backward_cases grads1 boxes box_index grads_image with
        ⟨k1, _⟩ | ⟨a1, k1, k2, k3, k4, k5⟩
      · exact absurd h3 (k1 a h1 (by omega))
      · have ha : a1 = a := by
          rcases lt_trichotomy a1 a with hlt | heq | hgt
          · exact absurd k3 (h4 a1 k1 hlt)
          · exact heq
          · exact absurd h3 (k4 a h1 hgt)
        rw [k5, ha]

theorem cellGrad_add (depth image_height image_width b_in d : Int) (in_y in_x : ℚ)
    (g g1 : ℚ) (j : Int) :
    cellGrad depth image_height image_width b_in d in_y in_x (g + g1) j
      = cellGrad depth image_height image_width b_in d in_y in_x g j
        + cellGrad depth image_height image_width b_in d in_y in_x g1 j := by
  unfold cellGrad
  split_ifs <;> ring

theorem cellGrad_zero (depth image_height image_width b_in d : Int) (in_y in_x : ℚ)
    (j : Int) :
    cellGrad depth image_height image_width b_in d in_y in_x 0 j = 0 := by
  unfold cellGrad
  simp

/-- The contribution of a region is additive in the upstream gradient of its cells. -/
theorem boxGrad_add (gA gB gC : Int → ℚ) (depth image_height image_width : Int)
    (crop_height crop_width : Int) (y1 x1 y2 x2 : ℚ) (b_in bA bB bC : Int) (j : Int)
    (h : ∀ d y x, 0 ≤ d → d < depth → 0 ≤ y → y < crop_height → 0 ≤ x → x < crop_width →
      gA (idx4 depth crop_height crop_width bA d y x)
        = gB (idx4 depth crop_height crop_width bB d y x)
          + gC (idx4 depth crop_height crop_width bC d y x)) :
    boxGrad gA depth image_height image_width crop_height crop_width y1 x1 y2 x2 b_in bA j
      = boxGrad gB depth image_height image_width crop_height crop_width y1 x1 y2 x2 b_in bB j
        + boxGrad gC depth image_height image_width crop_height crop_width y1 x1 y2 x2 b_in
            bC j := by
  unfold boxGrad
  rw [← sumRange_add]
  apply sumRange_congr
  intro y hy0 hy1
  unfold rowGrad
  by_cases hy : out_of_range image_height (in_coord crop_height image_height y1 y2 y)
  · simp only [if_pos hy, add_zero]
  · simp only [if_neg hy]
    rw [← sumRange_add]
    apply sumRange_congr
    intro x hx0 hx1
    unfold colGrad
    by_cases hx : out_of_range image_width (in_coord crop_width image_width x1 x2 x)
    · simp only [if_pos hx, add_zero]
    · simp only [if_neg hx]
      rw [← sumRange_add]
      apply sumRange_congr
      intro d hd0 hd1
      rw [h d y x hd0 hd1 hy0 hy1 hx0 hx1, cellGrad_add]

theorem sumRange_two (c : Int → ℚ) : sumRange 0 2 c = c 0 + c 1 := by
  unfold sumRange
  simp [Finset.sum_range_succ]

theorem sumRange_one (c : Int → ℚ) : sumRange 0 1 c = c 0 := by
  unfold sumRange
  simp

theorem colGrad_zero (grads_data : Int → ℚ) (depth image_height image_width : Int)
    (crop_height crop_width : Int) (x1 x2 : ℚ) (b_in b : Int) (in_y : ℚ) (y x : Int) (j : Int)
    (h : ∀ d, 0 ≤ d → d < depth → grads_data (idx4 depth crop_height crop_width b d y x) = 0) :
    colGrad grads_data depth image_height image_width crop_height crop_width x1 x2 b_in b
      in_y y x j = 0 := by
  unfold colGrad
  split_ifs
  · rfl
  · apply sumRange_zero
    intro d hd0 hd1
    rw [h d hd0 hd1, cellGrad_zero]

theorem rowGrad_zero (grads_data : Int → ℚ) (depth image_height image_width : Int)
    (crop_height crop_width : Int) (y1 x1 y2 x2 : ℚ) (b_in b : Int) (y : Int) (j : Int)
    (h : ∀ d x, 0 ≤ d → d < depth → 0 ≤ x → x < crop_width →
      grads_data (idx4 depth crop_height crop_width b d y x) = 0) :
    rowGrad grads_data depth image_height image_width crop_height crop_width y1 x1 y2 x2
      b_in b y j = 0 := by
  unfold rowGrad
  split_ifs
  · rfl
  · apply sumRange_zero
    intro x hx0 hx1
    exact colGrad_zero _ _ _ _ _ _ _ _ _ _ _ _ _ _ (fun d hd0 hd1 => h d x hd0 hd1 hx0 hx1)

theorem boxGrad_zero (grads_data : Int → ℚ) (depth image_height image_width : Int)
    (crop_height crop_width : Int) (y1 x1 y2 x2 : ℚ) (b_in b : Int) (j : Int)
    (h : ∀ d y x, 0 ≤ d → d < depth → 0 ≤ y → y < crop_height → 0 ≤ x → x < crop_width →
      grads_data (idx4 depth crop_height crop_width b d y x) = 0) :
    boxGrad grads_data depth image_height image_width crop_height crop_width y1 x1 y2 x2
      b_in b j = 0 := by
  unfold boxGrad
  apply sumRange_zero
  intro y hy0 hy1
  exact rowGrad_zero _ _ _ _ _ _ _ _ _ _ _ _ _ _
    (fun d x hd0 hd1 hx0 hx1 => h d y x hd0 hd1 hy0 hy1 hx0 hx1)

/-- The contribution of region `b` when the upstream gradient is 1 at the cell
`(b, d, y, x)` and 0 at every other cell. -/
theorem boxGrad_onehot (depth image_height image_width : Int)
    (crop_height crop_width : Int) (y1 x1 y2 x2 : ℚ) (b_in b d y x : Int) (j : Int)
    (hd : 0 ≤ d ∧ d < depth) (hy : 0 ≤ y ∧ y < crop_height) (hx : 0 ≤ x ∧ x < crop_width) :
    boxGrad (fun t => if t = idx4 depth crop_height crop_width b d y x then 1 else 0)
      depth image_height image_width crop_height crop_width y1 x1 y2 x2 b_in b j
    = if out_of_range image_height (in_coord crop_height image_height y1 y2 y) then 0
      else if out_of_range image_width (in_coord crop_width image_width x1 x2 x) then 0
      else cellGrad depth image_height image_width b_in d
        (in_coord crop_height image_height y1 y2 y)
        (in_coord crop_width image_width x1 x2 x) 1 j := by
  have hne : ∀ dd yy xx, 0 ≤ dd → dd < depth → 0 ≤ yy → yy < crop_height → 0 ≤ xx →
      xx < crop_width → (dd ≠ d ∨ yy ≠ y ∨ xx ≠ x) →
      (fun t => if t = idx4 depth crop_height crop_width b d y x then (1 : ℚ) else 0)
        (idx4 depth crop_height crop_width b dd yy xx) = 0 := by
    intro dd yy xx hd0 hd1 hy0 hy1 hx0 hx1 hne
    simp only []
    rw [if_neg]
    intro heq
    obtain ⟨_, h1, h2, h3⟩ := idx4_inj _ _ _ _ _ _ _ _ _ _ _ ⟨hd0, hd1⟩ ⟨hy0, hy1⟩
      ⟨hx0, hx1⟩ hd hy hx heq
    rcases hne with hne | hne | hne
    · exact hne h1
    · exact hne h2
    · exact hne h3
  unfold boxGrad
  rw [sumRange_single 0 crop_height _ y hy.1 hy.2]
  · unfold rowGrad
    by_cases hyo : out_of_range image_height (in_coord crop_height image_height y1 y2 y)
    · rw [if_pos hyo, if_pos hyo]
    · rw [if_neg hyo, if_neg hyo]
      rw [sumRange_single 0 crop_width _ x hx.1 hx.2]
      · unfold colGrad
        by_cases hxo : out_of_range image_width (in_coord crop_width image_width x1 x2 x)
        · rw [if_pos hxo, if_pos hxo]
        · rw [if_neg hxo, if_neg hxo]
          rw [sumRange_single 0 depth _ d hd.1 hd.2]
          · simp only [if_true]
          · intro dd hd0 hd1 hdne
            rw [hne dd y x hd0 hd1 hy.1 hy.2 hx.1 hx.2 (Or.inl hdne), cellGrad_zero]
      · intro xx hx0 hx1 hxne
        exact colGrad_zero _ _ _ _ _ _ _ _ _ _ _ _ _ _
          (fun dd hd0 hd1 => hne dd y xx hd0 hd1 hy.1 hy.2 hx0 hx1 (Or.inr (Or.inr hxne)))
  · intro yy hy0 hy1 hyne
    exact rowGrad_zero _ _ _ _ _ _ _ _ _ _ _ _ _ _
      (fun dd xx hd0 hd1 hx0 hx1 => hne dd yy xx hd0 hd1 hy0 hy1 hx0 hx1 (Or.inr (Or.inl hyne)))

/-- The change of a forward cell value when `eps` is added to the image entry at offset
`p`. -/
theorem fwdCell_perturb (image_data : Int → ℚ) (depth image_height image_width : Int)
    (b_in : Int) (y1 x1 y2 x2 : ℚ) (crop_height crop_width : Int)
    (extrapolation_value : ℚ) (d y x : Int) (p : Int) (eps : ℚ) :
    fwdCell (fun t => image_data t + eps * (if t = p then 1 else 0)) depth image_height
        image_width b_in y1 x1 y2 x2 crop_height crop_width extrapolation_value d y x
      - fwdCell image_data depth image_height image_width b_in y1 x1 y2 x2 crop_height
          crop_width extrapolation_value d y x
    = eps * (if out_of_range image_height (in_coord crop_height image_height y1 y2 y) then 0
      else if out_of_range image_width (in_coord crop_width image_width x1 x2 x) then 0
      else cellGrad depth image_height image_width b_in d
        (in_coord crop_height image_height y1 y2 y)
        (in_coord crop_width image_width x1 x2 x) 1 p) := by
  unfold fwdCell
  by_cases hyo : out_of_range image_height (in_coord crop_height image_height y1 y2 y)
  · simp only [if_pos hyo]
    ring
  · simp only [if_neg hyo]
    by_cases hxo : out_of_range image_width (in_coord crop_width image_width x1 x2 x)
    · simp only [if_pos hxo]
      ring
    · simp only [if_neg hxo]
      unfold lerpValue plane cellGrad
      simp only [image_offset_eq]
      have hcomm : ∀ a : Int, (a = p) = (p = a) := fun a => propext eq_comm
      simp only [hcomm]
      split_ifs <;> ring

theorem idx4_range (N C H W n c y x : Int) (hn : 0 ≤ n ∧ n < N)
    (hc : 0 ≤ c ∧ c < C) (hy : 0 ≤ y ∧ y < H) (hx : 0 ≤ x ∧ x < W) :
    0 ≤ idx4 C H W n c y x ∧ idx4 C H W n c y x < N * (C * (H * W)) := by
  obtain ⟨h1, h2⟩ := idx4_block C H W n c y x hc hy hx
  have hpos : 0 < C * (H * W) := by
    have hC : 0 < C := by omega
    have hH : 0 < H := by omega
    have hW : 0 < W := by omega
    positivity
  have h3 : 0 ≤ n * (C * (H * W)) := Int.mul_nonneg hn.1 hpos.le
  have h4 : (n + 1) * (C * (H * W)) ≤ N * (C * (H * W)) :=
    Int.mul_le_mul_of_nonneg_right (by omega) hpos.le
  constructor <;> linarith

theorem zero_data_of_mem (t : Tensor ℚ) (N C H W n c y x : Int)
    (hs : t.sizes = [N, C, H, W]) (hn : 0 ≤ n ∧ n < N)
    (hc : 0 ≤ c ∧ c < C) (hy : 0 ≤ y ∧ y < H) (hx : 0 ≤ x ∧ x < W) :
    t.zero_.data (idx4 C H W n c y x) = 0 := by
  obtain ⟨h0, h1⟩ := idx4_range N C H W n c y x hn hc hy hx
  unfold Tensor.zero_ Tensor.numel
  simp only [hs, List.prod_cons, List.prod_nil, mul_one]
  rw [if_pos ⟨h0, h1⟩]

/-- The gradient-image entry at a pixel when the upstream gradient is 1 at one cell and 0
elsewhere. -/
theorem bwdResult_onehot (boxes : Tensor ℚ) (box_index : Tensor Int) (grads_image : Tensor ℚ)
    (batch depth h w N ch cw : Int) (k d i j b dc y x : Int)
    (hgi : grads_image.sizes = [batch, depth, h, w])
    (hk : 0 ≤ k ∧ k < batch) (hd : 0 ≤ d ∧ d < depth) (hi : 0 ≤ i ∧ i < h)
    (hj : 0 ≤ j ∧ j < w)
    (hb : 0 ≤ b ∧ b < N) (hdc : 0 ≤ dc ∧ dc < depth) (hy : 0 ≤ y ∧ y < ch)
    (hx : 0 ≤ x ∧ x < cw) :
    (bwdResult (oneHot [N, depth, ch, cw] (idx4 depth ch cw b dc y x))
      boxes box_index grads_image).data (idx4 depth h w k d i j)
    = if out_of_range h (in_coord ch h (boxes.data (b * 4 + 0)) (boxes.data (b * 4 + 2)) y)
      then 0
      else if out_of_range w (in_coord cw w (boxes.data (b * 4 + 1)) (boxes.data (b * 4 + 3)) x)
      then 0
      else cellGrad depth h w (box_index.data b) dc
        (in_coord ch h (boxes.data (b * 4 + 0)) (boxes.data (b * 4 + 2)) y)
        (in_coord cw w (boxes.data (b * 4 + 1)) (boxes.data (b * 4 + 3)) x) 1
        (idx4 depth h w k d i j) := by
  have g1 : grads_image.size 1 = depth := by simp [Tensor.size, hgi]
  have g2 : grads_image.size 2 = h := by simp [Tensor.size, hgi]
  have g3 : grads_image.size 3 = w := by simp [Tensor.size, hgi]
  unfold bwdResult
  show grads_image.zero_.data _ + _ = _
  rw [zero_data_of_mem grads_image batch depth h w k d i j hgi hk hd hi hj, zero_add]
  unfold totalGrad
  rw [g1, g2, g3]
  show sumRange 0 N (fun r => boxGrad
    (fun t => if t = idx4 depth ch cw b dc y x then 1 else 0) depth h w ch cw
    (boxes.data (r * 4 + 0)) (boxes.data (r * 4 + 1)) (boxes.data (r * 4 + 2))
    (boxes.data (r * 4 + 3)) (box_index.data r) r (idx4 depth h w k d i j)) = _
  rw [sumRange_single 0 N _ b hb.1 hb.2]
  · exact boxGrad_onehot depth h w ch cw _ _ _ _ _ b dc y x _ hdc hy hx
  · intro bb _ _ hbne
    apply boxGrad_zero
    intro dd yy xx hd0 hd1 hy0 hy1 hx0 hx1
    show (if idx4 depth ch cw bb dd yy xx = idx4 depth ch cw b dc y x then (1 : ℚ) else 0) = 0
    rw [if_neg]
    intro heq
    exact hbne (idx4_inj _ _ _ _ _ _ _ _ _ _ _ ⟨hd0, hd1⟩ ⟨hy0, hy1⟩ ⟨hx0, hx1⟩ hdc hy hx
      heq).1

theorem forFrom_step {α : Type} (body : Int → (Int → α) → (Int → α)) (j a : Int) (g : α → α)
    (hv : ∀ m, body a m j = g (m j)) :
    ∀ (n : Nat) (i : Int) (m : Int → α), i ≤ a → a < i + n →
      (∀ k, i ≤ k → k < i + n → k ≠ a → ∀ m, body k m j = m j) →
      forFrom body n i m j = g (m j) := by
  intro n
  induction n with
  | zero => intro i m h1 h2 _; simp at h2; omega
  | succ n ih =>
    intro i m h1 h2 h
    simp only [forFrom]
    by_cases hia : i = a
    · subst hia
      rw [forFrom_miss body j n (i + 1) (body i m)
        (fun k hk1 hk2 => h k (by omega) (by push_cast; omega) (by omega))]
      exact hv m
    · rw [ih (i + 1) (body i m) (by omega) (by push_cast at h2; omega)
        (fun k hk1 hk2 => h k (by omega) (by push_cast; omega)),
        h i (le_refl i) (by push_cast; omega) hia m]

theorem forLoop_step {α : Type} (lo hi : Int) (body : Int → (Int → α) → (Int → α))
    (j a : Int) (g : α → α) (m : Int → α) (h1 : lo ≤ a) (h2 : a < hi)
    (hv : ∀ m, body a m j = g (m j))
    (h : ∀ k, lo ≤ k → k < hi → k ≠ a → ∀ m, body k m j = m j) :
    forLoop lo hi body m j = g (m j) := by
  unfold forLoop
  exact forFrom_step body j a g hv _ lo m h1 (by omega) (fun k hk1 hk2 => h k hk1 (by omega))

/-- Every cell of a region of the range is assigned exactly once more than before. -/
theorem fwdWriteCount_hit (depth image_height image_width : Int) (boxes_data : Int → ℚ)
    (start_box limit_box : Int) (crop_height crop_width : Int) (count : Int → Nat)
    (b d y x : Int) (hb : start_box ≤ b ∧ b < limit_box)
    (hd : 0 ≤ d ∧ d < depth) (hy : 0 ≤ y ∧ y < crop_height) (hx : 0 ≤ x ∧ x < crop_width) :
    fwdWriteCount depth image_height image_width boxes_data start_box limit_box crop_height
      crop_width count (idx4 depth crop_height crop_width b d y x)
    = count (idx4 depth crop_height crop_width b d y x) + 1 := by
  unfold fwdWriteCount
  simp only [crops_offset_eq]
  have key_ne : ∀ bb dd yy xx, 0 ≤ dd → dd < depth → 0 ≤ yy → yy < crop_height → 0 ≤ xx →
      xx < crop_width → (bb ≠ b ∨ dd ≠ d ∨ yy ≠ y ∨ xx ≠ x) → ∀ (m : Int → Nat),
      bump m (idx4 depth crop_height crop_width bb dd yy xx)
        (idx4 depth crop_height crop_width b d y x)
        = m (idx4 depth crop_height crop_width b d y x) := by
    intro bb dd yy xx hd0 hd1 hy0 hy1 hx0 hx1 hne m
    unfold bump
    rw [if_neg]
    intro heq
    obtain ⟨h0, h1, h2, h3⟩ := idx4_inj _ _ _ _ _ _ _ _ _ _ _ hd hy hx ⟨hd0, hd1⟩ ⟨hy0, hy1⟩
      ⟨hx0, hx1⟩ heq
    rcases hne with hne | hne | hne | hne
    · exact hne h0.symm
    · exact hne h1.symm
    · exact hne h2.symm
    · exact hne h3.symm
  have key_eq : ∀ (m : Int → Nat),
      bump m (idx4 depth crop_height crop_width b d y x)
        (idx4 depth crop_height crop_width b d y x)
        = m (idx4 depth crop_height crop_width b d y x) + 1 := by
    intro m
    unfold bump
    rw [if_pos rfl]
  have dloop_hit : ∀ (m : Int → Nat),
      forLoop 0 depth (fun dd count =>
        bump count (idx4 depth crop_height crop_width b dd y x)) m
        (idx4 depth crop_height crop_width b d y x)
        = m (idx4 depth crop_height crop_width b d y x) + 1 := by
    intro m
    apply forLoop_step 0 depth _ _ d (fun n => n + 1) m hd.1 hd.2
    · intro m; exact key_eq m
    · intro dd hd0 hd1 hne m
      exact key_ne b dd y x hd0 hd1 hy.1 hy.2 hx.1 hx.2 (Or.inr (Or.inl hne)) m
  have dloop_miss : ∀ bb yy xx, 0 ≤ yy → yy < crop_height → 0 ≤ xx → xx < crop_width →
      (bb ≠ b ∨ yy ≠ y ∨ xx ≠ x) → ∀ (m : Int → Nat),
      forLoop 0 depth (fun dd count =>
        bump count (idx4 depth crop_height crop_width bb dd yy xx)) m
        (idx4 depth crop_height crop_width b d y x)
        = m (idx4 depth crop_height crop_width b d y x) := by
    intro bb yy xx hy0 hy1 hx0 hx1 hne m
    apply forLoop_miss
    intro dd hd0 hd1 m
    apply key_ne bb dd yy xx hd0 hd1 hy0 hy1 hx0 hx1
    rcases hne with hne | hne | hne
    · exact Or.inl hne
    · exact Or.inr (Or.inr (Or.inl hne))
    · exact Or.inr (Or.inr (Or.inr hne))
  apply forLoop_step start_box limit_box _ _ b (fun n => n + 1) count hb.1 hb.2
  · intro m
    apply forLoop_step 0 crop_height _ _ y (fun n => n + 1) m hy.1 hy.2
    · intro m
      split_ifs
      · apply forLoop_step 0 crop_width _ _ x (fun n => n + 1) m hx.1 hx.2
        · intro m; exact dloop_hit m
        · intro xx hx0 hx1 hne m
          exact dloop_miss b y xx hy.1 hy.2 hx0 hx1 (Or.inr (Or.inr hne)) m
      · apply forLoop_step 0 crop_width _ _ x (fun n => n + 1) m hx.1 hx.2
        · intro m
          split_ifs
          · exact dloop_hit m
          · exact dloop_hit m
        · intro xx hx0 hx1 hne m
          split_ifs
          · exact dloop_miss b y xx hy.1 hy.2 hx0 hx1 (Or.inr (Or.inr hne)) m
          · exact dloop_miss b y xx hy.1 hy.2 hx0 hx1 (Or.inr (Or.inr hne)) m
    · intro yy hy0 hy1 hne m
      split_ifs
      · apply forLoop_miss
        intro xx hx0 hx1 m
        exact dloop_miss b yy xx hy0 hy1 hx0 hx1 (Or.inr (Or.inl hne)) m
      · apply forLoop_miss
        intro xx hx0 hx1 m
        split_ifs
        · exact dloop_miss b yy xx hy0 hy1 hx0 hx1 (Or.inr (Or.inl hne)) m
        · exact dloop_miss b yy xx hy0 hy1 hx0 hx1 (Or.inr (Or.inl hne)) m
  · intro bb hb0 hb1 hne m
    apply forLoop_miss
    intro yy hy0 hy1 m
    split_ifs
    · apply forLoop_miss
      intro xx hx0 hx1 m
      exact dloop_miss bb yy xx hy0 hy1 hx0 hx1 (Or.inl hne) m
    · apply forLoop_miss
      intro xx hx0 hx1 m
      split_ifs
      · exact dloop_miss bb yy xx hy0 hy1 hx0 hx1 (Or.inl hne) m
      · exact dloop_miss bb yy xx hy0 hy1 hx0 hx1 (Or.inl hne) m

/-- The output block of a region only depends on that region's coordinates and batch
index: reading regions through a re-indexing map re-indexes the output blocks. -/
theorem forward_reindex (image boxes boxesP : Tensor ℚ) (box_index indexP : Tensor Int)
    (extrapolation_value : ℚ) (crop_height crop_width : Int) (crops cropsP : Tensor ℚ)
    (s : Int → Int)
    (hvalid : ∀ r, 0 ≤ r → r < boxes.size 0 →
      0 ≤ box_index.data r ∧ box_index.data r < image.size 0)
    (hs : ∀ r, 0 ≤ r → r < boxesP.size 0 → 0 ≤ s r ∧ s r < boxes.size 0)
    (hboxes : ∀ r c, 0 ≤ r → r < boxesP.size 0 → 0 ≤ c → c < 4 →
      boxesP.data (r * 4 + c) = boxes.data (s r * 4 + c))
    (hindex : ∀ r, 0 ≤ r → r < boxesP.size 0 → indexP.data r = box_index.data (s r)) :
    ∃ out outP,
      crop_and_resize_forward image boxes box_index extrapolation_value crop_height
        crop_width crops = Except.ok out ∧
      crop_and_resize_forward image boxesP indexP extrapolation_value crop_height
        crop_width cropsP = Except.ok outP ∧
      ∀ r d y x, 0 ≤ r → r < boxesP.size 0 → 0 ≤ d → d < image.size 1 → 0 ≤ y →
        y < crop_height → 0 ≤ x → x < crop_width →
        outP.data (idx4 (image.size 1) crop_height crop_width r d y x)
          = out.data (idx4 (image.size 1) crop_height crop_width (s r) d y x) := by
  have hvalidP : ∀ r, 0 ≤ r → r < boxesP.size 0 →
      0 ≤ indexP.data r ∧ indexP.data r < image.size 0 := by
    intro r hr0 hr1
    rw [hindex r hr0 hr1]
    exact hvalid (s r) (hs r hr0 hr1).1 (hs r hr0 hr1).2
  refine ⟨_, _, crop_and_resize_forward_ok _ _ _ _ _ _ crops hvalid,
    crop_and_resize_forward_ok _ _ _ _ _ _ cropsP hvalidP, ?_⟩
  intro r d y x hr0 hr1 hd0 hd1 hy0 hy1 hx0 hx1
  show fwdRegions _ _ _ _ _ _ _ _ _ _ _ _ _ = fwdRegions _ _ _ _ _ _ _ _ _ _ _ _ _
  rw [fwdRegions_hit _ _ _ _ _ _ _ _ _ _ _ _ r d y x ⟨hr0, hr1⟩ ⟨hd0, hd1⟩ ⟨hy0, hy1⟩
      ⟨hx0, hx1⟩,
    fwdRegions_hit _ _ _ _ _ _ _ _ _ _ _ _ (s r) d y x (hs r hr0 hr1) ⟨hd0, hd1⟩ ⟨hy0, hy1⟩
      ⟨hx0, hx1⟩,
    hindex r hr0 hr1, hboxes r 0 hr0 hr1 (by decide) (by decide),
    hboxes r 1 hr0 hr1 (by decide) (by decide), hboxes r 2 hr0 hr1 (by decide) (by decide),
    hboxes r 3 hr0 hr1 (by decide) (by decide)]

theorem in_range_iff (n : Int) (c : ℚ) : in_range n c ↔ ¬ out_of_range n c := by
  unfold in_range out_of_range
  constructor
  · rintro ⟨h1, h2⟩ h
    rcases h with h | h <;> linarith
  · intro h
    push_neg at h
    exact ⟨h.1, h.2⟩

/-- The neighbour indices of an in-range coordinate are valid indices. -/
theorem floor_ceil_bounds (n : Int) (c : ℚ) (h : ¬ out_of_range n c) :
    0 ≤ ⌊c⌋ ∧ ⌊c⌋ ≤ ⌈c⌉ ∧ ⌈c⌉ ≤ n - 1 := by
  have hr := (in_range_iff n c).2 h
  unfold in_range at hr
  refine ⟨Int.floor_nonneg.2 hr.1, Int.floor_le_ceil c, ?_⟩
  rw [Int.ceil_le]
  push_cast
  exact hr.2

theorem idx4_eq_iff (C H W n c y x n1 c1 y1 x1 : Int)
    (hc : 0 ≤ c ∧ c < C) (hy : 0 ≤ y ∧ y < H) (hx : 0 ≤ x ∧ x < W)
    (hc1 : 0 ≤ c1 ∧ c1 < C) (hy1 : 0 ≤ y1 ∧ y1 < H) (hx1 : 0 ≤ x1 ∧ x1 < W) :
    idx4 C H W n c y x = idx4 C H W n1 c1 y1 x1 ↔ n1 = n ∧ c1 = c ∧ y1 = y ∧ x1 = x := by
  constructor
  · intro h
    obtain ⟨h0, h1, h2, h3⟩ := idx4_inj _ _ _ _ _ _ _ _ _ _ _ hc hy hx hc1 hy1 hx1 h
    exact ⟨h0.symm, h1.symm, h2.symm, h3.symm⟩
  · rintro ⟨rfl, rfl, rfl, rfl⟩
    rfl

/-- What one in-range cell adds at a pixel, in terms of the specification's weight. -/
theorem cellGrad_pixel (depth h w b_in dd : Int) (in_y in_x g : ℚ) (k d i j : Int)
    (hd : 0 ≤ d ∧ d < depth) (hi : 0 ≤ i ∧ i < h) (hj : 0 ≤ j ∧ j < w)
    (hdd : 0 ≤ dd ∧ dd < depth)
    (hy : ¬ out_of_range h in_y) (hx : ¬ out_of_range w in_x) :
    cellGrad depth h w b_in dd in_y in_x g (idx4 depth h w k d i j)
      = if b_in = k ∧ dd = d then bilinearWeight in_y in_x i j * g else 0 := by
  obtain ⟨y0, y1, y2⟩ := floor_ceil_bounds h in_y hy
  obtain ⟨x0, x1, x2⟩ := floor_ceil_bounds w in_x hx
  have e1 := idx4_eq_iff depth h w k d i j b_in dd ⌊in_y⌋ ⌊in_x⌋ hd hi hj hdd
    ⟨y0, by omega⟩ ⟨x0, by omega⟩
  have e2 := idx4_eq_iff depth h w k d i j b_in dd ⌊in_y⌋ ⌈in_x⌉ hd hi hj hdd
    ⟨y0, by omega⟩ ⟨by omega, by omega⟩
  have e3 := idx4_eq_iff depth h w k d i j b_in dd ⌈in_y⌉ ⌊in_x⌋ hd hi hj hdd
    ⟨by omega, by omega⟩ ⟨x0, by omega⟩
  have e4 := idx4_eq_iff depth h w k d i j b_in dd ⌈in_y⌉ ⌈in_x⌉ hd hi hj hdd
    ⟨by omega, by omega⟩ ⟨by omega, by omega⟩
  unfold cellGrad bilinearWeight
  simp only [e1, e2, e3, e4]
  by_cases hb : b_in = k
  · by_cases hd1 : dd = d
    · simp only [hb, hd1, true_and, and_self, if_true]
      split_ifs <;> ring
    · simp [hd1]
  · simp [hb]

/-- What one region adds at a pixel, in terms of the specification's weight. -/
theorem boxGrad_pixel (grads_data : Int → ℚ) (depth h w ch cw : Int) (y1 x1 y2 x2 : ℚ)
    (b_in b k d i j : Int)
    (hd : 0 ≤ d ∧ d < depth) (hi : 0 ≤ i ∧ i < h) (hj : 0 ≤ j ∧ j < w) :
    boxGrad grads_data depth h w ch cw y1 x1 y2 x2 b_in b (idx4 depth h w k d i j)
      = if b_in = k then
          sumRange 0 ch (fun y => sumRange 0 cw (fun x =>
            if in_range h (in_coord ch h y1 y2 y) ∧ in_range w (in_coord cw w x1 x2 x) then
              bilinearWeight (in_coord ch h y1 y2 y) (in_coord cw w x1 x2 x) i j
                * grads_data (idx4 depth ch cw b d y x)
            else 0))
        else 0 := by
  unfold boxGrad
  have step : ∀ y x, ¬ out_of_range h (in_coord ch h y1 y2 y) →
      ¬ out_of_range w (in_coord cw w x1 x2 x) →
      sumRange 0 depth (fun dd => cellGrad depth h w b_in dd (in_coord ch h y1 y2 y)
        (in_coord cw w x1 x2 x) (grads_data (idx4 depth ch cw b dd y x))
        (idx4 depth h w k d i j))
      = if b_in = k then
          bilinearWeight (in_coord ch h y1 y2 y) (in_coord cw w x1 x2 x) i j
            * grads_data (idx4 depth ch cw b d y x)
        else 0 := by
    intro y x hy hx
    rw [sumRange_single 0 depth _ d hd.1 hd.2]
    · rw [cellGrad_pixel depth h w b_in d _ _ _ k d i j hd hi hj hd hy hx]
      by_cases hb : b_in = k
      · simp [hb]
      · simp [hb]
    · intro dd hd0 hd1 hne
      rw [cellGrad_pixel depth h w b_in dd _ _ _ k d i j hd hi hj ⟨hd0, hd1⟩ hy hx]
      rw [if_neg]
      intro hc
      exact hne hc.2
  by_cases hb : b_in = k
  · rw [if_pos hb]
    apply sumRange_congr
    intro y _ _
    unfold rowGrad
    by_cases hy : out_of_range h (in_coord ch h y1 y2 y)
    · rw [if_pos hy]
      symm
      apply sumRange_zero
      intro x _ _
      rw [if_neg]
      intro hc
      exact (in_range_iff _ _).1 hc.1 hy
    · rw [if_neg hy]
      apply sumRange_congr
      intro x _ _
      unfold colGrad
      by_cases hx : out_of_range w (in_coord cw w x1 x2 x)
      · rw [if_pos hx, if_neg]
        intro hc
        exact (in_range_iff _ _).1 hc.2 hx
      · rw [if_neg hx, if_pos ⟨(in_range_iff _ _).2 hy, (in_range_iff _ _).2 hx⟩,
          step y x hy hx, if_pos hb]
  · rw [if_neg hb]
    apply sumRange_zero
    intro y _ _
    unfold rowGrad
    split_ifs with hy
    · rfl
    · apply sumRange_zero
      intro x _ _
      unfold colGrad
      split_ifs with hx
      · rfl
      · rw [step y x hy hx, if_neg hb]

theorem boxGrad_congr (gA gB : Int → ℚ) (depth image_height image_width : Int)
    (crop_height crop_width : Int) (y1 x1 y2 x2 : ℚ) (b_in bA bB : Int) (j : Int)
    (h : ∀ d y x, 0 ≤ d → d < depth → 0 ≤ y → y < crop_height → 0 ≤ x → x < crop_width →
      gA (idx4 depth crop_height crop_width bA d y x)
        = gB (idx4 depth crop_height crop_width bB d y x)) :
    boxGrad gA depth image_height image_width crop_height crop_width y1 x1 y2 x2 b_in bA j
      = boxGrad gB depth image_height image_width crop_height crop_width y1 x1 y2 x2 b_in
          bB j := by
  have h0 : boxGrad (fun _ => (0 : ℚ)) depth image_height image_width crop_height crop_width
      y1 x1 y2 x2 b_in 0 j = 0 :=
    boxGrad_zero _ _ _ _ _ _ _ _ _ _ _ _ _ (fun _ _ _ _ _ _ _ _ _ => rfl)
  rw [boxGrad_add gA gB (fun _ => 0) depth image_height image_width crop_height crop_width
    y1 x1 y2 x2 b_in bA bB 0 j
    (fun d y x hd0 hd1 hy0 hy1 hx0 hx1 => by
      rw [h d y x hd0 hd1 hy0 hy1 hx0 hx1]; simp), h0, add_zero]

/-- A sum over the iterations of a loop does not depend on the order of the iterations. -/
theorem sumRange_perm (N : Int) (F : Int → ℚ) (s t : Int → Int)
    (hs : ∀ r, 0 ≤ r → r < N → 0 ≤ s r ∧ s r < N)
    (ht : ∀ r, 0 ≤ r → r < N → 0 ≤ t r ∧ t r < N)
    (hts : ∀ r, 0 ≤ r → r < N → t (s r) = r)
    (hst : ∀ r, 0 ≤ r → r < N → s (t r) = r) :
    sumRange 0 N (fun r => F (s r)) = sumRange 0 N F := by
  unfold sumRange
  show ∑ n in Finset.range (N - 0).toNat, F (s (0 + (n : Int)))
    = ∑ n in Finset.range (N - 0).toNat, F (0 + (n : Int))
  refine Finset.sum_nbij' (fun n : Nat => (s (0 + (n : Int))).toNat)
    (fun n : Nat => (t (0 + (n : Int))).toNat) ?_ ?_ ?_ ?_ ?_
  · intro n hn
    rw [Finset.mem_range] at hn ⊢
    have := hs (0 + (n : Int)) (by omega) (by omega)
    show (s (0 + (n : Int))).toNat < (N - 0).toNat
    omega
  · intro n hn
    rw [Finset.mem_range] at hn ⊢
    have := ht (0 + (n : Int)) (by omega) (by omega)
    show (t (0 + (n : Int))).toNat < (N - 0).toNat
    omega
  · intro n hn
    rw [Finset.mem_range] at hn
    have h1 := hs (0 + (n : Int)) (by omega) (by omega)
    have h2 := hts (0 + (n : Int)) (by omega) (by omega)
    have e : (0 : Int) + ((s (0 + (n : Int))).toNat : Int) = s (0 + (n : Int)) := by omega
    simp only [e, h2]
    omega
  · intro n hn
    rw [Finset.mem_range] at hn
    have h1 := ht (0 + (n : Int)) (by omega) (by omega)
    have h2 := hst (0 + (n : Int)) (by omega) (by omega)
    have e : (0 : Int) + ((t (0 + (n : Int))).toNat : Int) = t (0 + (n : Int)) := by omega
    simp only [e, h2]
    omega
  · intro n hn
    rw [Finset.mem_range] at hn
    have h1 := hs (0 + (n : Int)) (by omega) (by omega)
    have e : (0 : Int) + ((s (0 + (n : Int))).toNat : Int) = s (0 + (n : Int)) := by omega
    simp only [e]

/-- The gradient-image entry at a pixel, as the destination-indexed sum. -/
theorem bwdResult_pixel (grads boxes : Tensor ℚ) (box_index : Tensor Int)
    (grads_image : Tensor ℚ) (batch depth h w : Int) (k d i j : Int)
    (hgi : grads_image.sizes = [batch, depth, h, w])
    (hk : 0 ≤ k ∧ k < batch) (hd : 0 ≤ d ∧ d < depth) (hi : 0 ≤ i ∧ i < h)
    (hj : 0 ≤ j ∧ j < w) :
    (bwdResult grads boxes box_index grads_image).data (idx4 depth h w k d i j)
      = destinationSum grads boxes box_index depth h w k d i j := by
  have g1 : grads_image.size 1 = depth := by simp [Tensor.size, hgi]
  have g2 : grads_image.size 2 = h := by simp [Tensor.size, hgi]
  have g3 : grads_image.size 3 = w := by simp [Tensor.size, hgi]
  unfold bwdResult
  show grads_image.zero_.data _ + _ = _
  rw [zero_data_of_mem grads_image batch depth h w k d i j hgi hk hd hi hj, zero_add]
  unfold totalGrad destinationSum
  rw [g1, g2, g3]
  apply sumRange_congr
  intro b _ _
  exact boxGrad_pixel _ _ _ _ _ _ _ _ _ _ _ _ _ _ _ _ hd hi hj

/-- The weight of a cell mapped exactly onto the integer pixel `(i, j)`. -/
theorem bilinearWeight_intCast (i j i1 j1 : Int) :
    bilinearWeight (i : ℚ) (j : ℚ) i1 j1 = if i = i1 ∧ j = j1 then 1 else 0 := by
  unfold bilinearWeight
  simp only [Int.floor_intCast, Int.ceil_intCast, sub_self, sub_zero, mul_one, mul_zero,
    zero_mul, ite_self, add_zero]

/-- The destination-indexed sum when the upstream gradient is `g` at one cell and 0
elsewhere. -/
theorem destinationSum_cell (boxes : Tensor ℚ) (box_index : Tensor Int)
    (depth h w N ch cw : Int) (b dc y x : Int) (g : ℚ) (k d i j : Int)
    (hb : 0 ≤ b ∧ b < N) (hdc : 0 ≤ dc ∧ dc < depth) (hy : 0 ≤ y ∧ y < ch)
    (hx : 0 ≤ x ∧ x < cw) (hd : 0 ≤ d ∧ d < depth) :
    destinationSum (cellTensor [N, depth, ch, cw] (idx4 depth ch cw b dc y x) g) boxes
      box_index depth h w k d i j
    = if box_index.data b = k ∧ d = dc
          ∧ in_range h (in_coord ch h (boxes.data (b * 4 + 0)) (boxes.data (b * 4 + 2)) y)
          ∧ in_range w (in_coord cw w (boxes.data (b * 4 + 1)) (boxes.data (b * 4 + 3)) x)
      then
        bilinearWeight (in_coord ch h (boxes.data (b * 4 + 0)) (boxes.data (b * 4 + 2)) y)
          (in_coord cw w (boxes.data (b * 4 + 1)) (boxes.data (b * 4 + 3)) x) i j * g
      else 0 := by
  have hval : ∀ bb yy xx, 0 ≤ yy → yy < ch → 0 ≤ xx → xx < cw →
      (cellTensor [N, depth, ch, cw] (idx4 depth ch cw b dc y x) g).data
        (idx4 depth ch cw bb d yy xx)
      = if bb = b ∧ d = dc ∧ yy = y ∧ xx = x then g else 0 := by
    intro bb yy xx hy0 hy1 hx0 hx1
    show (if idx4 depth ch cw bb d yy xx = idx4 depth ch cw b dc y x then g else 0) = _
    have e := idx4_eq_iff depth ch cw bb d yy xx b dc y x hd ⟨hy0, hy1⟩ ⟨hx0, hx1⟩ hdc hy hx
    by_cases hc : bb = b ∧ d = dc ∧ yy = y ∧ xx = x
    · rw [if_pos hc, if_pos]
      obtain ⟨h1, h2, h3, h4⟩ := hc
      rw [h1, h2, h3, h4]
    · rw [if_neg hc, if_neg]
      intro heq
      obtain ⟨h1, h2, h3, h4⟩ := e.1 heq
      exact hc ⟨h1.symm, h2.symm, h3.symm, h4.symm⟩
  unfold destinationSum
  simp only [Tensor.size, cellTensor, List.getD_cons_zero, List.getD_cons_succ]
  have hval1 : ∀ bb yy xx, 0 ≤ yy → yy < ch → 0 ≤ xx → xx < cw →
      (if idx4 depth ch cw bb d yy xx = idx4 depth ch cw b dc y x then g else 0)
      = if bb = b ∧ d = dc ∧ yy = y ∧ xx = x then g else 0 := hval
  rw [sumRange_single 0 N _ b hb.1 hb.2]
  · by_cases hk : box_index.data b = k
    · rw [if_pos hk, sumRange_single 0 ch _ y hy.1 hy.2]
      · rw [sumRange_single 0 cw _ x hx.1 hx.2]
        · rw [hval1 b y x hy.1 hy.2 hx.1 hx.2]
          by_cases hdd : d = dc
          · have hp : b = b ∧ d = dc ∧ y = y ∧ x = x := ⟨rfl, hdd, rfl, rfl⟩
            rw [if_pos hp]
            by_cases hr : in_range h (in_coord ch h (boxes.data (b * 4 + 0))
                (boxes.data (b * 4 + 2)) y)
              ∧ in_range w (in_coord cw w (boxes.data (b * 4 + 1))
                (boxes.data (b * 4 + 3)) x)
            · rw [if_pos hr, if_pos ⟨hk, hdd, hr.1, hr.2⟩]
            · rw [if_neg hr]
              symm
              apply if_neg
              intro hc
              exact hr ⟨hc.2.2.1, hc.2.2.2⟩
          · have hn : ¬ (b = b ∧ d = dc ∧ y = y ∧ x = x) := fun hc => hdd hc.2.1
            rw [if_neg hn, mul_zero, ite_self]
            symm
            apply if_neg
            intro hc
            exact hdd hc.2.1
        · intro xx hx0 hx1 hne
          have hn : ¬ (b = b ∧ d = dc ∧ y = y ∧ xx = x) := fun hc => hne hc.2.2.2
          rw [hval1 b y xx hy.1 hy.2 hx0 hx1, if_neg hn, mul_zero, ite_self]
      · intro yy hy0 hy1 hne
        apply sumRange_zero
        intro xx hx0 hx1
        have hn : ¬ (b = b ∧ d = dc ∧ yy = y ∧ xx = x) := fun hc => hne hc.2.2.1
        rw [hval1 b yy xx hy0 hy1 hx0 hx1, if_neg hn, mul_zero, ite_self]
    · rw [if_neg hk]
      symm
      apply if_neg
      intro hc
      exact hk hc.1
  · intro bb hb0 hb1 hne
    by_cases hk : box_index.data bb = k
    · rw [if_pos hk]
      apply sumRange_zero
      intro yy hy0 hy1
      apply sumRange_zero
      intro xx hx0 hx1
      have hn : ¬ (bb = b ∧ d = dc ∧ yy = y ∧ xx = x) := fun hc => hne hc.1
      rw [hval1 bb yy xx hy0 hy1 hx0 hx1, if_neg hn, mul_zero, ite_self]
    · rw [if_neg hk]

/-- The contribution of a region only depends on the upstream gradient of its in-range
cells. -/
theorem boxGrad_congr_in_range (gA gB : Int → ℚ) (depth image_height image_width : Int)
    (crop_height crop_width : Int) (y1 x1 y2 x2 : ℚ) (b_in b : Int) (j : Int)
    (h : ∀ d y x, 0 ≤ d → d < depth → 0 ≤ y → y < crop_height → 0 ≤ x → x < crop_width →
      in_range image_height (in_coord crop_height image_height y1 y2 y) →
      in_range image_width (in_coord crop_width image_width x1 x2 x) →
      gA (idx4 depth crop_height crop_width b d y x)
        = gB (idx4 depth crop_height crop_width b d y x)) :
    boxGrad gA depth image_height image_width crop_height crop_width y1 x1 y2 x2 b_in b j
      = boxGrad gB depth image_height image_width crop_height crop_width y1 x1 y2 x2 b_in
          b j := by
  unfold boxGrad
  apply sumRange_congr
  intro y hy0 hy1
  unfold rowGrad
  by_cases hy : out_of_range image_height (in_coord crop_height image_height y1 y2 y)
  · rw [if_pos hy, if_pos hy]
  · rw [if_neg hy, if_neg hy]
    apply sumRange_congr
    intro x hx0 hx1
    unfold colGrad
    by_cases hx : out_of_range image_width (in_coord crop_width image_width x1 x2 x)
    · rw [if_pos hx, if_pos hx]
    · rw [if_neg hx, if_neg hx]
      apply sumRange_congr
      intro d hd0 hd1
      rw [h d y x hd0 hd1 hy0 hy1 hx0 hx1 ((in_range_iff _ _).2 hy) ((in_range_iff _ _).2 hx)]

theorem sumRange_comm (a b c d : Int) (f : Int → Int → ℚ) :
    sumRange a b (fun p => sumRange c d (fun q => f p q))
      = sumRange c d (fun q => sumRange a b (fun p => f p q)) := by
  unfold sumRange
  exact Finset.sum_comm

theorem sumRange_const_zero (lo hi : Int) : sumRange lo hi (fun _ => (0 : ℚ)) = 0 :=
  sumRange_zero lo hi _ (fun _ _ _ => rfl)

theorem sumRange_indicator (M t : Int) (v : ℚ) (h0 : 0 ≤ t) (h1 : t < M) :
    sumRange 0 M (fun p => if p = t then v else 0) = v := by
  rw [sumRange_single 0 M _ t h0 h1]
  · rw [if_pos rfl]
  · intro k _ _ hne
    rw [if_neg hne]

/-- The four contributions of an in-range cell add up to its upstream gradient: the four
bilinear weights sum to 1, also when floor and ceil coincide. -/
theorem cellGrad_mass (batch depth h w b_in d : Int) (in_y in_x g : ℚ)
    (hb : 0 ≤ b_in ∧ b_in < batch) (hd : 0 ≤ d ∧ d < depth)
    (hy : ¬ out_of_range h in_y) (hx : ¬ out_of_range w in_x) :
    sumRange 0 (batch * (depth * (h * w)))
      (fun p => cellGrad depth h w b_in d in_y in_x g p) = g := by
  obtain ⟨y0, y1, y2⟩ := floor_ceil_bounds h in_y hy
  obtain ⟨x0, x1, x2⟩ := floor_ceil_bounds w in_x hx
  have r1 := idx4_range batch depth h w b_in d ⌊in_y⌋ ⌊in_x⌋ hb hd ⟨y0, by omega⟩
    ⟨x0, by omega⟩
  have r2 := idx4_range batch depth h w b_in d ⌊in_y⌋ ⌈in_x⌉ hb hd ⟨y0, by omega⟩
    ⟨by omega, by omega⟩
  have r3 := idx4_range batch depth h w b_in d ⌈in_y⌉ ⌊in_x⌋ hb hd ⟨by omega, by omega⟩
    ⟨x0, by omega⟩
  have r4 := idx4_range batch depth h w b_in d ⌈in_y⌉ ⌈in_x⌉ hb hd ⟨by omega, by omega⟩
    ⟨by omega, by omega⟩
  unfold cellGrad
  rw [sumRange_add, sumRange_add, sumRange_add, sumRange_indicator _ _ _ r1.1 r1.2,
    sumRange_indicator _ _ _ r2.1 r2.2, sumRange_indicator _ _ _ r3.1 r3.2,
    sumRange_indicator _ _ _ r4.1 r4.2]
  ring

/-- The total of what one region adds over all entries of the gradient image. -/
theorem boxGrad_mass (grads_data : Int → ℚ) (batch depth h w ch cw : Int)
    (y1 x1 y2 x2 : ℚ) (b_in b : Int) (hb : 0 ≤ b_in ∧ b_in < batch) :
    sumRange 0 (batch * (depth * (h * w)))
      (fun p => boxGrad grads_data depth h w ch cw y1 x1 y2 x2 b_in b p)
    = sumRange 0 ch (fun y => sumRange 0 cw (fun x =>
        if in_range h (in_coord ch h y1 y2 y) ∧ in_range w (in_coord cw w x1 x2 x) then
          sumRange 0 depth (fun d => grads_data (idx4 depth ch cw b d y x))
        else 0)) := by
  unfold boxGrad
  rw [sumRange_comm]
  apply sumRange_congr
  intro y _ _
  unfold rowGrad
  by_cases hy : out_of_range h (in_coord ch h y1 y2 y)
  · simp only [if_pos hy]
    rw [sumRange_const_zero]
    symm
    apply sumRange_zero
    intro x _ _
    apply if_neg
    intro hc
    exact (in_range_iff _ _).1 hc.1 hy
  · simp only [if_neg hy]
    rw [sumRange_comm]
    apply sumRange_congr
    intro x _ _
    unfold colGrad
    by_cases hx : out_of_range w (in_coord cw w x1 x2 x)
    · simp only [if_pos hx]
      rw [sumRange_const_zero]
      symm
      apply if_neg
      intro hc
      exact (in_range_iff _ _).1 hc.2 hx
    · simp only [if_neg hx]
      rw [sumRange_comm, if_pos ⟨(in_range_iff _ _).2 hy, (in_range_iff _ _).2 hx⟩]
      apply sumRange_congr
      intro d hd0 hd1
      exact cellGrad_mass batch depth h w b_in d _ _ _ hb ⟨hd0, hd1⟩ hy hx

theorem lerp_between (m M a b t : ℚ) (ht0 : 0 ≤ t) (ht1 : t ≤ 1)
    (ha : m ≤ a ∧ a ≤ M) (hb : m ≤ b ∧ b ≤ M) :
    m ≤ a + (b - a) * t ∧ a + (b - a) * t ≤ M := by
  have h1 : 0 ≤ 1 - t := by linarith
  constructor
  · nlinarith [mul_nonneg ht0 (sub_nonneg.2 hb.1), mul_nonneg h1 (sub_nonneg.2 ha.1)]
  · nlinarith [mul_nonneg ht0 (sub_nonneg.2 hb.2), mul_nonneg h1 (sub_nonneg.2 ha.2)]

/-- The value stored for an in-range cell lies between any bounds of its four neighbours. -/
theorem lerpValue_between (P : Int → Int → ℚ) (in_y in_x m M : ℚ)
    (h1 : m ≤ P ⌊in_y⌋ ⌊in_x⌋ ∧ P ⌊in_y⌋ ⌊in_x⌋ ≤ M)
    (h2 : m ≤ P ⌊in_y⌋ ⌈in_x⌉ ∧ P ⌊in_y⌋ ⌈in_x⌉ ≤ M)
    (h3 : m ≤ P ⌈in_y⌉ ⌊in_x⌋ ∧ P ⌈in_y⌉ ⌊in_x⌋ ≤ M)
    (h4 : m ≤ P ⌈in_y⌉ ⌈in_x⌉ ∧ P ⌈in_y⌉ ⌈in_x⌉ ≤ M) :
    m ≤ lerpValue P in_y in_x ∧ lerpValue P in_y in_x ≤ M := by
  have hx0 : 0 ≤ in_x - ⌊in_x⌋ := sub_nonneg.2 (Int.floor_le in_x)
  have hx1 : in_x - ⌊in_x⌋ ≤ 1 := by linarith [Int.lt_floor_add_one in_x]
  have hy0 : 0 ≤ in_y - ⌊in_y⌋ := sub_nonneg.2 (Int.floor_le in_y)
  have hy1 : in_y - ⌊in_y⌋ ≤ 1 := by linarith [Int.lt_floor_add_one in_y]
  unfold lerpValue
  exact lerp_between m M _ _ _ hy0 hy1 (lerp_between m M _ _ _ hx0 hx1 h1 h2)
    (lerp_between m M _ _ _ hx0 hx1 h3 h4)

theorem lerpValue_min_max (P : Int → Int → ℚ) (in_y in_x : ℚ) :
    min (min (P ⌊in_y⌋ ⌊in_x⌋) (P ⌊in_y⌋ ⌈in_x⌉)) (min (P ⌈in_y⌉ ⌊in_x⌋) (P ⌈in_y⌉ ⌈in_x⌉))
        ≤ lerpValue P in_y in_x ∧
      lerpValue P in_y in_x
        ≤ max (max (P ⌊in_y⌋ ⌊in_x⌋) (P ⌊in_y⌋ ⌈in_x⌉))
            (max (P ⌈in_y⌉ ⌊in_x⌋) (P ⌈in_y⌉ ⌈in_x⌉)) := by
  exact lerpValue_between P in_y in_x
    (min (min (P ⌊in_y⌋ ⌊in_x⌋) (P ⌊in_y⌋ ⌈in_x⌉)) (min (P ⌈in_y⌉ ⌊in_x⌋) (P ⌈in_y⌉ ⌈in_x⌉)))
    (max (max (P ⌊in_y⌋ ⌊in_x⌋) (P ⌊in_y⌋ ⌈in_x⌉)) (max (P ⌈in_y⌉ ⌊in_x⌋) (P ⌈in_y⌉ ⌈in_x⌉)))
    ⟨le_trans (min_le_left _ _) (min_le_left _ _),
      le_trans (le_max_left _ _) (le_max_left _ _)⟩
    ⟨le_trans (min_le_left _ _) (min_le_right _ _),
      le_trans (le_max_right _ _) (le_max_left _ _)⟩
    ⟨le_trans (min_le_right _ _) (min_le_left _ _),
      le_trans (le_max_left _ _) (le_max_right _ _)⟩
    ⟨le_trans (min_le_right _ _) (min_le_right _ _),
      le_trans (le_max_right _ _) (le_max_right _ _)⟩

theorem in_coord_unit (crop_size image_size i : Int) (c1 c2 : ℚ)
    (hn : 1 ≤ image_size) (hi0 : 0 ≤ i) (hi1 : i < crop_size)
    (h1 : 0 ≤ c1 ∧ c1 ≤ 1) (h2 : 0 ≤ c2 ∧ c2 ≤ 1) :
    in_range image_size (in_coord crop_size image_size c1 c2 i) := by
  unfold in_range in_coord scale
  have hH : (0 : ℚ) ≤ (image_size : ℚ) - 1 := by
    have : (1 : ℚ) ≤ image_size := by exact_mod_cast hn
    linarith
  by_cases hc : crop_size > 1
  · simp only [if_pos hc]
    have hC : (0 : ℚ) < (crop_size : ℚ) - 1 := by
      have : (1 : ℚ) < crop_size := by exact_mod_cast hc
      linarith
    have hi0q : (0 : ℚ) ≤ i := by exact_mod_cast hi0
    have hi1q : (i : ℚ) ≤ (crop_size : ℚ) - 1 := by
      have : i ≤ crop_size - 1 := by omega
      exact_mod_cast this
    have ht0 : (0 : ℚ) ≤ (i : ℚ) / ((crop_size : ℚ) - 1) := div_nonneg hi0q hC.le
    have ht1 : (i : ℚ) / ((crop_size : ℚ) - 1) ≤ 1 := (div_le_one hC).2 hi1q
    have e : c1 * ((image_size : ℚ) - 1)
        + (i : ℚ) * ((c2 - c1) * ((image_size : ℚ) - 1) / ((crop_size : ℚ) - 1))
        = ((image_size : ℚ) - 1)
          * (c1 + (c2 - c1) * ((i : ℚ) / ((crop_size : ℚ) - 1))) := by
      field_simp
      ring
    rw [e]
    obtain ⟨k1, k2⟩ := lerp_between 0 1 c1 c2 _ ht0 ht1 h1 h2
    constructor
    · exact mul_nonneg hH k1
    · calc ((image_size : ℚ) - 1) * (c1 + (c2 - c1) * ((i : ℚ) / ((crop_size : ℚ) - 1)))
          ≤ ((image_size : ℚ) - 1) * 1 := mul_le_mul_of_nonneg_left k2 hH
        _ = (image_size : ℚ) - 1 := mul_one _
  · simp only [if_neg hc]
    constructor
    · have : (0 : ℚ) ≤ 0.5 * (c1 + c2) := by norm_num; linarith [h1.1, h2.1]
      exact mul_nonneg this hH
    · have : (0.5 : ℚ) * (c1 + c2) ≤ 1 := by norm_num; linarith [h1.2, h2.2]
      calc (0.5 : ℚ) * (c1 + c2) * ((image_size : ℚ) - 1)
          ≤ 1 * ((image_size : ℚ) - 1) := mul_le_mul_of_nonneg_right this hH
        _ = (image_size : ℚ) - 1 := one_mul _

theorem in_coord_first (crop_size image_size : Int) (c1 c2 : ℚ) (hc : crop_size > 1) :
    in_coord crop_size image_size c1 c2 0 = c1 * (image_size - 1) := by
  unfold in_coord
  rw [if_pos hc]
  simp

theorem in_coord_last (crop_size image_size : Int) (c1 c2 : ℚ) (hc : crop_size > 1) :
    in_coord crop_size image_size c1 c2 (crop_size - 1) = c2 * (image_size - 1) := by
  unfold in_coord scale
  rw [if_pos hc, if_pos hc]
  have hC : (crop_size : ℚ) - 1 ≠ 0 := by
    have : (1 : ℚ) < crop_size := by exact_mod_cast hc
    linarith
  push_cast
  field_simp
  ring

theorem wrap32_eq (x : Int) (h0 : -2147483648 ≤ x) (h1 : x ≤ 2147483647) : wrap32 x = x := by
  unfold wrap32
  omega

/-- Without overflow the 32-bit output offset of lines 59, 76 and 103 is the row-major
offset. -/
theorem crops_offset32 (depth ch cw b d y x : Int) (hb : 0 ≤ b)
    (hd : 0 ≤ d ∧ d < depth) (hy : 0 ≤ y ∧ y < ch) (hx : 0 ≤ x ∧ x < cw)
    (hE : (b + 1) * (depth * (ch * cw)) ≤ 2147483647) :
    wrap32 (wrap32 (wrap32 (wrap32 (wrap32 (depth * wrap32 (ch * cw)) * b)
      + wrap32 (wrap32 (ch * cw) * d)) + wrap32 (y * cw)) + x)
    = idx4 depth ch cw b d y x := by
  obtain ⟨hd0, hd1⟩ := hd
  obtain ⟨hy0, hy1⟩ := hy
  obtain ⟨hx0, hx1⟩ := hx
  have hcw : 1 ≤ cw := by omega
  have hP : (y + 1) * cw ≤ ch * cw := Int.mul_le_mul_of_nonneg_right (by omega) (by omega)
  have hT : 0 ≤ y * cw := Int.mul_nonneg hy0 (by omega)
  have hP0 : 0 ≤ ch * cw := by nlinarith
  have hQ : (d + 1) * (ch * cw) ≤ depth * (ch * cw) :=
    Int.mul_le_mul_of_nonneg_right (by omega) hP0
  have hS : 0 ≤ ch * cw * d := Int.mul_nonneg hP0 hd0
  have hQ0 : 0 ≤ depth * (ch * cw) := Int.mul_nonneg (by omega) hP0
  have hR : 0 ≤ depth * (ch * cw) * b := Int.mul_nonneg hQ0 hb
  have e1 : wrap32 (ch * cw) = ch * cw := wrap32_eq _ (by linarith) (by nlinarith)
  rw [e1]
  have e2 : wrap32 (depth * (ch * cw)) = depth * (ch * cw) :=
    wrap32_eq _ (by linarith) (by nlinarith)
  rw [e2]
  have e3 : wrap32 (depth * (ch * cw) * b) = depth * (ch * cw) * b :=
    wrap32_eq _ (by linarith) (by nlinarith)
  have e4 : wrap32 (ch * cw * d) = ch * cw * d := wrap32_eq _ (by linarith) (by nlinarith)
  have e5 : wrap32 (y * cw) = y * cw := wrap32_eq _ (by linarith) (by nlinarith)
  rw [e3, e4, e5]
  have e6 : wrap32 (depth * (ch * cw) * b + ch * cw * d)
      = depth * (ch * cw) * b + ch * cw * d := wrap32_eq _ (by linarith) (by nlinarith)
  rw [e6]
  have e7 : wrap32 (depth * (ch * cw) * b + ch * cw * d + y * cw)
      = depth * (ch * cw) * b + ch * cw * d + y * cw :=
    wrap32_eq _ (by linarith) (by nlinarith)
  rw [e7]
  have e8 : wrap32 (depth * (ch * cw) * b + ch * cw * d + y * cw + x)
      = depth * (ch * cw) * b + ch * cw * d + y * cw + x :=
    wrap32_eq _ (by linarith) (by nlinarith)
  rw [e8, crops_offset_eq]

/-! ## The forward sampler with 32-bit offsets -/

theorem forFromM_miss {α ε : Type} (bodyM : Int → (Int → α) → Except ε (Int → α)) (j : Int) :
    ∀ (n : Nat) (i : Int) (s out : Int → α),
      (∀ k, i ≤ k → k < i + n → ∀ s s1, bodyM k s = Except.ok s1 → s1 j = s j) →
      forFromM bodyM n i s = Except.ok out → out j = s j := by
  intro n
  induction n with
  | zero =>
    intro i s out _ hok
    simp only [forFromM] at hok
    cases hok
    rfl
  | succ n ih =>
    intro i s out h hok
    simp only [forFromM] at hok
    cases hb : bodyM i s with
    | error e => rw [hb] at hok; cases hok
    | ok s1 =>
      rw [hb] at hok
      have h1 := ih (i + 1) s1 out (fun k hk1 hk2 => h k (by omega) (by push_cast; omega)) hok
      rw [h1]
      exact h i (le_refl i) (by push_cast; omega) s s1 hb

/-- A successful loop whose iterations all leave entry `j` alone leaves entry `j` alone. -/
theorem forLoopM_miss {α ε : Type} (lo hi : Int)
    (bodyM : Int → (Int → α) → Except ε (Int → α)) (j : Int) (s out : Int → α)
    (h : ∀ k, lo ≤ k → k < hi → ∀ s s1, bodyM k s = Except.ok s1 → s1 j = s j)
    (hok : forLoopM lo hi bodyM s = Except.ok out) : out j = s j := by
  unfold forLoopM at hok
  exact forFromM_miss bodyM j _ lo s out (fun k hk1 hk2 => h k hk1 (by omega)) hok

theorem forFromM_ok_inv {σ ε : Type} (bodyM : Int → σ → Except ε σ) :
    ∀ (n : Nat) (i : Int) (s out : σ),
      forFromM bodyM n i s = Except.ok out →
      ∀ k, i ≤ k → k < i + n → ∃ s0 s1, bodyM k s0 = Except.ok s1 := by
  intro n
  induction n with
  | zero =>
    intro i s out _ k hk1 hk2
    exact absurd hk2 (by push_cast; omega)
  | succ n ih =>
    intro i s out hok k hk1 hk2
    simp only [forFromM] at hok
    cases hb : bodyM i s with
    | error e => rw [hb] at hok; cases hok
    | ok s1 =>
      rw [hb] at hok
      by_cases hk : k = i
      · subst hk
        exact ⟨s, s1, hb⟩
      · exact ih (i + 1) s1 out hok k (by omega) (by push_cast at hk2; omega)

/-- In a successful loop every iteration returned normally. -/
theorem forLoopM_ok_inv {σ ε : Type} (lo hi : Int) (bodyM : Int → σ → Except ε σ)
    (s out : σ) (hok : forLoopM lo hi bodyM s = Except.ok out) :
    ∀ k, lo ≤ k → k < hi → ∃ s0 s1, bodyM k s0 = Except.ok s1 := by
  intro k hk1 hk2
  unfold forLoopM at hok
  exact forFromM_ok_inv bodyM _ lo s out hok k hk1 (by omega)

theorem forLoopM_one {σ ε : Type} (b : Int) (bodyM : Int → σ → Except ε σ) (s s1 : σ)
    (h : bodyM b s = Except.ok s1) : forLoopM b (b + 1) bodyM s = Except.ok s1 := by
  unfold forLoopM
  have h1 : (b + 1 - b).toNat = 1 := by
    have : b + 1 - b = 1 := by omega
    rw [this]
    rfl
  rw [h1]
  simp only [forFromM]
  rw [h]

theorem ite_error_ok {ε σ : Type} (c : Prop) [Decidable c] (e : ε) (v s1 : σ)
    (h : (if c then Except.error e else Except.ok v) = Except.ok s1) : ¬ c ∧ v = s1 := by
  by_cases hc : c
  · rw [if_pos hc] at h
    cases h
  · rw [if_neg hc] at h
    cases h
    exact ⟨hc, rfl⟩

theorem ite_miss {α : Type} (c : Prop) [Decidable c] (A B : Int → α) (s : Int → α) (j : Int)
    (hA : c → A j = s j) (hB : ¬ c → B j = s j) : (if c then A else B) j = s j := by
  by_cases h : c
  · rw [if_pos h]; exact hA h
  · rw [if_neg h]; exact hB h

/-- C10 (forward writes stay in the regions' blocks), for the sampler with 32-bit `int`
offsets. Let `E = depth*crop_height*crop_width`, `0 ≤ start_box` and
`limit_box * E ≤ 2^31 - 1`, so that no output offset of the range overflows. For a
successful run of `CropAndResizePerBox` over `[start_box, limit_box)`: every flat offset
outside the blocks `[b*E, (b+1)*E)` of the regions of the range keeps its value; so does
every cell of a region outside the range; the single iteration for a region `b` of the
range (the call over `[b, b+1)`) returns normally and changes nothing outside block `b`;
and blocks of different regions are disjoint. -/
theorem C10_forward_writes_confined (image_data : Int → ℚ)
    (batch_size depth image_height image_width : Int)
    (boxes_data : Int → ℚ) (box_index_data : Int → Int) (start_box limit_box : Int)
    (crops_data : Int → ℚ) (crop_height crop_width : Int) (extrapolation_value : ℚ)
    (out : Int → ℚ)
    (hstart : 0 ≤ start_box)
    (hsize : limit_box * (depth * (crop_height * crop_width)) ≤ 2147483647)
    (hok : CropAndResizePerBox_i32 image_data batch_size depth image_height image_width
        boxes_data box_index_data start_box limit_box crops_data crop_height crop_width
        extrapolation_value = Except.ok out) :
    (∀ j, (∀ b, start_box ≤ b → b < limit_box →
        j < b * (depth * (crop_height * crop_width))
          ∨ (b + 1) * (depth * (crop_height * crop_width)) ≤ j) →
      out j = crops_data j) ∧
    (∀ b d y x, ¬ (start_box ≤ b ∧ b < limit_box) → 0 ≤ d → d < depth → 0 ≤ y →
      y < crop_height → 0 ≤ x → x < crop_width →
      out (idx4 depth crop_height crop_width b d y x)
        = crops_data (idx4 depth crop_height crop_width b d y x)) ∧
    (∀ b, start_box ≤ b → b < limit_box → ∀ buf : Int → ℚ,
      ∃ out_b, CropAndResizePerBox_i32 image_data batch_size depth image_height image_width
          boxes_data box_index_data b (b + 1) buf crop_height crop_width
          extrapolation_value = Except.ok out_b ∧
        ∀ j, (j < b * (depth * (crop_height * crop_width))
            ∨ (b + 1) * (depth * (crop_height * crop_width)) ≤ j) → out_b j = buf j) ∧
    (∀ b b1 j, b ≠ b1 →
      ¬ ((b * (depth * (crop_height * crop_width)) ≤ j
            ∧ j < (b + 1) * (depth * (crop_height * crop_width)))
          ∧ (b1 * (depth * (crop_height * crop_width)) ≤ j
            ∧ j < (b1 + 1) * (depth * (crop_height * crop_width))))) := by
  -- a store of region `b` lands in block `b`
  have hoff : ∀ b d y x, start_box ≤ b → b < limit_box → 0 ≤ d → d < depth → 0 ≤ y →
      y < crop_height → 0 ≤ x → x < crop_width →
      wrap32 (wrap32 (wrap32 (wrap32 (wrap32 (depth * wrap32 (crop_height * crop_width)) * b)
        + wrap32 (wrap32 (crop_height * crop_width) * d)) + wrap32 (y * crop_width)) + x)
      = idx4 depth crop_height crop_width b d y x := by
    intro b d y x hb0 hb1 hd0 hd1 hy0 hy1 hx0 hx1
    apply crops_offset32 _ _ _ _ _ _ _ (by omega) ⟨hd0, hd1⟩ ⟨hy0, hy1⟩ ⟨hx0, hx1⟩
    have hE : 0 ≤ depth * (crop_height * crop_width) :=
      Int.mul_nonneg (by omega) (Int.mul_nonneg (by omega) (by omega))
    have : (b + 1) * (depth * (crop_height * crop_width))
        ≤ limit_box * (depth * (crop_height * crop_width)) :=
      Int.mul_le_mul_of_nonneg_right (by omega) hE
    omega
  -- one iteration leaves alone whatever is not a cell of its region
  have hbody : ∀ (b : Int), start_box ≤ b → b < limit_box → ∀ (j : Int),
      (∀ d y x, 0 ≤ d → d < depth → 0 ≤ y → y < crop_height → 0 ≤ x → x < crop_width →
        j ≠ idx4 depth crop_height crop_width b d y x) →
      ∀ (s s1 : Int → ℚ),
      (fun (b : Int) (crops_data : Int → ℚ) =>
        let y1 : ℚ := boxes_data (wrap32 (b * 4) + 0)
        let x1 : ℚ := boxes_data (wrap32 (b * 4) + 1)
        let y2 : ℚ := boxes_data (wrap32 (b * 4) + 2)
        let x2 : ℚ := boxes_data (wrap32 (b * 4) + 3)
        let b_in : Int := box_index_data b
        if b_in < 0 ∨ b_in ≥ batch_size then
          (Except.error { b_in := b_in, batch_size := batch_size } :
            Except BatchIndexError (Int → ℚ))
        else
          let height_scale : ℚ :=
            if crop_height > 1 then
              (y2 - y1) * ((wrap32 (image_height - 1) : Int) : ℚ)
                / ((wrap32 (crop_height - 1) : Int) : ℚ)
            else 0
          let width_scale : ℚ :=
            if crop_width > 1 then
              (x2 - x1) * ((wrap32 (image_width - 1) : Int) : ℚ)
                / ((wrap32 (crop_width - 1) : Int) : ℚ)
            else 0
          Except.ok (forLoop 0 crop_height (fun y crops_data =>
            let in_y : ℚ :=
              if crop_height > 1 then
                y1 * ((wrap32 (image_height - 1) : Int) : ℚ) + y * height_scale
              else 0.5 * (y1 + y2) * ((wrap32 (image_height - 1) : Int) : ℚ)
            if in_y < 0 ∨ in_y > ((wrap32 (image_height - 1) : Int) : ℚ) then
              forLoop 0 crop_width (fun x crops_data =>
                forLoop 0 depth (fun d crops_data =>
                  store crops_data
                    (wrap32 (wrap32 (wrap32 (wrap32
                      (wrap32 (depth * wrap32 (crop_height * crop_width)) * b)
                      + wrap32 (wrap32 (crop_height * crop_width) * d))
                      + wrap32 (y * crop_width)) + x))
                    extrapolation_value) crops_data) crops_data
            else
              let top_y_index : Int := ⌊in_y⌋
              let bottom_y_index : Int := ⌈in_y⌉
              let y_lerp : ℚ := in_y - top_y_index
              forLoop 0 crop_width (fun x crops_data =>
                let in_x : ℚ :=
                  if crop_width > 1 then
                    x1 * ((wrap32 (image_width - 1) : Int) : ℚ) + x * width_scale
                  else 0.5 * (x1 + x2) * ((wrap32 (image_width - 1) : Int) : ℚ)
                if in_x < 0 ∨ in_x > ((wrap32 (image_width - 1) : Int) : ℚ) then
                  forLoop 0 depth (fun d crops_data =>
                    store crops_data
                      (wrap32 (wrap32 (wrap32 (wrap32
                        (wrap32 (depth * wrap32 (crop_height * crop_width)) * b)
                        + wrap32 (wrap32 (crop_height * crop_width) * d))
                        + wrap32 (y * crop_width)) + x))
                      extrapolation_value) crops_data
                else
                  let left_x_index : Int := ⌊in_x⌋
                  let right_x_index : Int := ⌈in_x⌉
                  let x_lerp : ℚ := in_x - left_x_index
                  forLoop 0 depth (fun d crops_data =>
                    let pimage : Int :=
                      wrap32 (b_in * wrap32 (depth * wrap32 (image_height * image_width)))
                        + wrap32 (d * wrap32 (image_height * image_width))
                    let top_left : ℚ := image_data
                      (pimage + wrap32 (wrap32 (top_y_index * image_width) + left_x_index))
                    let top_right : ℚ := image_data
                      (pimage + wrap32 (wrap32 (top_y_index * image_width) + right_x_index))
                    let bottom_left : ℚ := image_data
                      (pimage
                        + wrap32 (wrap32 (bottom_y_index * image_width) + left_x_index))
                    let bottom_right : ℚ := image_data
                      (pimage
                        + wrap32 (wrap32 (bottom_y_index * image_width) + right_x_index))
                    let top : ℚ := top_left + (top_right - top_left) * x_lerp
                    let bottom : ℚ := bottom_left + (bottom_right - bottom_left) * x_lerp
                    store crops_data
                      (wrap32 (wrap32 (wrap32 (wrap32
                        (wrap32 (depth * wrap32 (crop_height * crop_width)) * b)
                        + wrap32 (wrap32 (crop_height * crop_width) * d))
                        + wrap32 (y * crop_width)) + x))
                      (top + (bottom - top) * y_lerp)) crops_data) crops_data) crops_data))
        b s = Except.ok s1 →
      s1 j = s j := by
    intro b hb0 hb1 j hj s s1 hs
    dsimp only at hs
    obtain ⟨_, hv⟩ := ite_error_ok _ _ _ _ hs
    rw [← hv]
    apply forLoop_miss
    intro y hy0 hy1 m
    apply ite_miss
    · intro _
      apply forLoop_miss
      intro x hx0 hx1 m
      apply forLoop_miss
      intro d hd0 hd1 m
      rw [hoff b d y x hb0 hb1 hd0 hd1 hy0 hy1 hx0 hx1]
      unfold store
      rw [if_neg (hj d y x hd0 hd1 hy0 hy1 hx0 hx1)]
    · intro _
      apply forLoop_miss
      intro x hx0 hx1 m
      apply ite_miss
      · intro _
        apply forLoop_miss
        intro d hd0 hd1 m
        rw [hoff b d y x hb0 hb1 hd0 hd1 hy0 hy1 hx0 hx1]
        unfold store
        rw [if_neg (hj d y x hd0 hd1 hy0 hy1 hx0 hx1)]
      · intro _
        apply forLoop_miss
        intro d hd0 hd1 m
        rw [hoff b d y x hb0 hb1 hd0 hd1 hy0 hy1 hx0 hx1]
        unfold store
        rw [if_neg (hj d y x hd0 hd1 hy0 hy1 hx0 hx1)]
  have hblock : ∀ (b j : Int),
      (j < b * (depth * (crop_height * crop_width))
        ∨ (b + 1) * (depth * (crop_height * crop_width)) ≤ j) →
      ∀ d y x, 0 ≤ d → d < depth → 0 ≤ y → y < crop_height → 0 ≤ x → x < crop_width →
        j ≠ idx4 depth crop_height crop_width b d y x := by
    intro b j hj d y x hd0 hd1 hy0 hy1 hx0 hx1 heq
    have hblk := idx4_block depth crop_height crop_width b d y x ⟨hd0, hd1⟩ ⟨hy0, hy1⟩
      ⟨hx0, hx1⟩
    rw [← heq] at hblk
    rcases hj with h | h
    · linarith [hblk.1]
    · linarith [hblk.2]
  unfold CropAndResizePerBox_i32 at hok
  dsimp only at hok
  refine ⟨?_, ?_, ?_, ?_⟩
  · intro j hj
    refine forLoopM_miss _ _ _ j _ _ ?_ hok
    intro b hb0 hb1 s s1 hs
    exact hbody b hb0 hb1 j (hblock b j (hj b hb0 hb1)) s s1 hs
  · intro b d y x hb hd0 hd1 hy0 hy1 hx0 hx1
    refine forLoopM_miss _ _ _ _ _ _ ?_ hok
    intro b1 hb10 hb11 s s1 hs
    refine hbody b1 hb10 hb11 _ ?_ s s1 hs
    intro d1 yy xx hd10 hd11 hy10 hy11 hx10 hx11 heq
    have := (idx4_inj _ _ _ _ _ _ _ _ _ _ _ ⟨hd0, hd1⟩ ⟨hy0, hy1⟩ ⟨hx0, hx1⟩ ⟨hd10, hd11⟩
      ⟨hy10, hy11⟩ ⟨hx10, hx11⟩ heq).1
    exact hb (by omega)
  · intro b hb0 hb1 buf
    obtain ⟨s0, s1, hs⟩ := forLoopM_ok_inv _ _ _ _ _ hok b hb0 hb1
    obtain ⟨hgood, _⟩ := ite_error_ok _ _ _ _ hs
    unfold CropAndResizePerBox_i32
    dsimp only
    refine ⟨_, forLoopM_one b _ buf _ (if_neg hgood), ?_⟩
    intro j hj
    exact hbody b hb0 hb1 j (hblock b j hj) buf _ (if_neg hgood)
  · intro b b1 j hne
    exact block_disjoint _ b b1 j hne

theorem C10_forward_writes_confined_witness :
    ∃ out,
      CropAndResizePerBox_i32 imgTwo.data 2 1 2 2 boxesPair.data indexPair.data 1 2
        (fun _ => 3) 2 2 7 = Except.ok out ∧
      out (idx4 1 2 2 0 0 1 1) = 3 ∧ out 8 = 3 := by
  refine ⟨_, rfl, ?_, ?_⟩
  · exact (C10_forward_writes_confined imgTwo.data 2 1 2 2 boxesPair.data indexPair.data 1 2
      (fun _ => 3) 2 2 7 _ (by decide) (by decide) rfl).2.1 0 0 1 1 (by decide) (by decide)
      (by decide) (by decide) (by decide) (by decide) (by decide)
  · exact (C10_forward_writes_confined imgTwo.data 2 1 2 2 boxesPair.data indexPair.data 1 2
      (fun _ => 3) 2 2 7 _ (by decide) (by decide) rfl).1 8
      (by intro b hb0 hb1; right; omega)

/-- With 536870912 regions of 5 channels and 1x1 cells the output grid has more than 2^31
elements: the offset `crop_elements * b` of region 536870911 wraps to -1610612741, and the
iteration for that region writes there, outside its block `[2684354555, 2684354560)`. -/
theorem C10_counterexample :
    ∃ out,
      CropAndResizePerBox_i32 (fun _ => 0) 1 5 2 2 (fun _ => 2) (fun _ => 0)
        536870911 536870912 (fun _ => 0) 1 1 7 = Except.ok out ∧
      out (-1610612741) = 7 ∧ (fun _ : Int => (0 : ℚ)) (-1610612741) = 0 ∧
      ¬ (536870911 * (5 * (1 * 1)) ≤ (-1610612741 : Int)
          ∧ (-1610612741 : Int) < (536870911 + 1) * (5 * (1 * 1))) := by
  refine ⟨_, rfl, ?_, rfl, by decide⟩
  norm_num [forLoop, forFrom, store, wrap32]

/-! ## Bounds-checked runs -/

theorem readAt_ok {α : Type} (p : Int → α) (len i : Int) (h : 0 ≤ i ∧ i < len) :
    readAt p len i = Except.ok (p i) := by
  unfold readAt
  rw [if_pos h]

theorem writeAt_ok (p : Int → ℚ) (len i : Int) (v : ℚ) (h : 0 ≤ i ∧ i < len) :
    writeAt p len i v = Except.ok (store p i v) := by
  unfold writeAt
  rw [if_pos h]

theorem addAt_ok (p : Int → ℚ) (len i : Int) (v : ℚ) (h : 0 ≤ i ∧ i < len) :
    addAt p len i v = Except.ok (accum p i v) := by
  unfold addAt
  rw [if_pos h]

theorem ok_bind {ε α β : Type} (v : α) (f : α → Except ε β) :
    (Except.ok v >>= f) = f v := rfl

theorem forFromM_pure {σ ε : Type} (bodyM : Int → σ → Except ε σ) (body : Int → σ → σ) :
    ∀ (n : Nat) (i : Int) (s : σ),
      (∀ k, i ≤ k → k < i + n → ∀ s, bodyM k s = Except.ok (body k s)) →
      forFromM bodyM n i s = Except.ok (forFrom body n i s) := by
  intro n
  induction n with
  | zero => intro i s _; rfl
  | succ n ih =>
    intro i s h
    simp only [forFromM, forFrom]
    rw [h i (le_refl i) (by push_cast; omega) s]
    exact ih (i + 1) (body i s) (fun k hk1 hk2 => h k (by omega) (by push_cast; omega))

/-- A loop whose checked body never faults in the range returns what the plain loop
computes. -/
theorem forLoopM_pure {σ ε : Type} (lo hi : Int) (bodyM : Int → σ → Except ε σ)
    (body : Int → σ → σ) (s : σ)
    (h : ∀ k, lo ≤ k → k < hi → ∀ s, bodyM k s = Except.ok (body k s)) :
    forLoopM lo hi bodyM s = Except.ok (forLoop lo hi body s) := by
  unfold forLoopM forLoop
  exact forFromM_pure bodyM body _ lo s (fun k hk1 hk2 => h k hk1 (by omega))

theorem ite_ok_congr {ε σ : Type} (c : Prop) [Decidable c] (A B : Except ε σ) (A1 B1 : σ)
    (hA : c → A = Except.ok A1) (hB : ¬ c → B = Except.ok B1) :
    (if c then A else B) = Except.ok (if c then A1 else B1) := by
  by_cases h : c
  · rw [if_pos h, if_pos h]; exact hA h
  · rw [if_neg h, if_neg h]; exact hB h

theorem image_offset_range (batch depth h w b_in d : Int) (t l : Int)
    (hb : 0 ≤ b_in ∧ b_in < batch) (hd : 0 ≤ d ∧ d < depth)
    (ht : 0 ≤ t ∧ t ≤ h - 1) (hl : 0 ≤ l ∧ l ≤ w - 1) :
    0 ≤ b_in * (depth * (h * w)) + d * (h * w) + (t * w + l)
      ∧ b_in * (depth * (h * w)) + d * (h * w) + (t * w + l) < batch * (depth * (h * w)) := by
  rw [image_offset_eq]
  exact idx4_range batch depth h w b_in d t l hb hd ⟨ht.1, by omega⟩ ⟨hl.1, by omega⟩

/-- Without overflow the 32-bit image offset of lines 87-97 and 212-227 is the exact one. -/
theorem image_offset32 (batch depth h w b_in d t l : Int)
    (hb : 0 ≤ b_in ∧ b_in < batch) (hd : 0 ≤ d ∧ d < depth)
    (ht : 0 ≤ t ∧ t ≤ h - 1) (hl : 0 ≤ l ∧ l ≤ w - 1)
    (hE : batch * (depth * (h * w)) ≤ 2147483647) :
    wrap32 (b_in * wrap32 (depth * wrap32 (h * w))) + wrap32 (d * wrap32 (h * w))
      + wrap32 (wrap32 (t * w) + l)
    = b_in * (depth * (h * w)) + d * (h * w) + (t * w + l) := by
  obtain ⟨hb0, hb1⟩ := hb
  obtain ⟨hd0, hd1⟩ := hd
  obtain ⟨ht0, ht1⟩ := ht
  obtain ⟨hl0, hl1⟩ := hl
  have hT : 0 ≤ t * w := Int.mul_nonneg ht0 (by omega)
  have hP : (t + 1) * w ≤ h * w := Int.mul_le_mul_of_nonneg_right (by omega) (by omega)
  have hP0 : 0 ≤ h * w := by nlinarith
  have hS : 0 ≤ d * (h * w) := Int.mul_nonneg hd0 hP0
  have hQ : (d + 1) * (h * w) ≤ depth * (h * w) :=
    Int.mul_le_mul_of_nonneg_right (by omega) hP0
  have hQ0 : 0 ≤ depth * (h * w) := Int.mul_nonneg (by omega) hP0
  have hR : 0 ≤ b_in * (depth * (h * w)) := Int.mul_nonneg hb0 hQ0
  have hR1 : (b_in + 1) * (depth * (h * w)) ≤ batch * (depth * (h * w)) :=
    Int.mul_le_mul_of_nonneg_right (by omega) hQ0
  have e1 : wrap32 (h * w) = h * w := wrap32_eq _ (by linarith) (by nlinarith)
  rw [e1]
  have e2 : wrap32 (depth * (h * w)) = depth * (h * w) :=
    wrap32_eq _ (by linarith) (by nlinarith)
  rw [e2]
  have e3 : wrap32 (b_in * (depth * (h * w))) = b_in * (depth * (h * w)) :=
    wrap32_eq _ (by linarith) (by nlinarith)
  have e4 : wrap32 (d * (h * w)) = d * (h * w) := wrap32_eq _ (by linarith) (by nlinarith)
  have e5 : wrap32 (t * w) = t * w := wrap32_eq _ (by linarith) (by nlinarith)
  rw [e3, e4, e5]
  have e6 : wrap32 (t * w + l) = t * w + l := wrap32_eq _ (by linarith) (by nlinarith)
  rw [e6]

theorem fop_some (f : ℚ → ℚ → ℚ) (a b : ℚ) : fop f (some a) (some b) = some (f a b) := rfl

theorem fadd_some (a b : ℚ) : fadd (some a) (some b) = some (a + b) := rfl

theorem fsub_some (a b : ℚ) : fsub (some a) (some b) = some (a - b) := rfl

theorem fmul_some (a b : ℚ) : fmul (some a) (some b) = some (a * b) := rfl

theorem fdiv_some (a b : ℚ) : fdiv (some a) (some b) = some (a / b) := rfl

theorem flt_some (a b : ℚ) : flt (some a) (some b) = (a < b) := rfl

theorem ite_some (c : Prop) [Decidable c] (a b : ℚ) :
    (if c then some a else some b) = some (if c then a else b) := by
  by_cases h : c
  · rw [if_pos h, if_pos h]
  · rw [if_neg h, if_neg h]

/-- The checked innermost body of the forward sampler for an in-range cell never faults. -/
theorem fwd_cell_checked (image_data : Int → ℚ) (image_len batch depth h w b_in d : Int)
    (in_y in_x : ℚ) (crops_data : Int → ℚ) (crops_len idx : Int)
    (hlen : image_len = batch * (depth * (h * w)))
    (hb : 0 ≤ b_in ∧ b_in < batch) (hd : 0 ≤ d ∧ d < depth)
    (hy : ¬ (in_y < 0 ∨ in_y > h - 1)) (hx : ¬ (in_x < 0 ∨ in_x > w - 1))
    (hidx : 0 ≤ idx ∧ idx < crops_len) :
    (do
      let top_left ← readAt image_data image_len
        (b_in * (depth * (h * w)) + d * (h * w) + (⌊in_y⌋ * w + ⌊in_x⌋))
      let top_right ← readAt image_data image_len
        (b_in * (depth * (h * w)) + d * (h * w) + (⌊in_y⌋ * w + ⌈in_x⌉))
      let bottom_left ← readAt image_data image_len
        (b_in * (depth * (h * w)) + d * (h * w) + (⌈in_y⌉ * w + ⌊in_x⌋))
      let bottom_right ← readAt image_data image_len
        (b_in * (depth * (h * w)) + d * (h * w) + (⌈in_y⌉ * w + ⌈in_x⌉))
      writeAt crops_data crops_len idx
        (top_left + (top_right - top_left) * (in_x - ⌊in_x⌋)
          + (bottom_left + (bottom_right - bottom_left) * (in_x - ⌊in_x⌋)
            - (top_left + (top_right - top_left) * (in_x - ⌊in_x⌋))) * (in_y - ⌊in_y⌋)))
    = Except.ok (store crops_data idx
        (image_data (b_in * (depth * (h * w)) + d * (h * w) + (⌊in_y⌋ * w + ⌊in_x⌋))
          + (image_data (b_in * (depth * (h * w)) + d * (h * w) + (⌊in_y⌋ * w + ⌈in_x⌉))
            - image_data (b_in * (depth * (h * w)) + d * (h * w) + (⌊in_y⌋ * w + ⌊in_x⌋)))
            * (in_x - ⌊in_x⌋)
          + (image_data (b_in * (depth * (h * w)) + d * (h * w) + (⌈in_y⌉ * w + ⌊in_x⌋))
            + (image_data (b_in * (depth * (h * w)) + d * (h * w) + (⌈in_y⌉ * w + ⌈in_x⌉))
              - image_data (b_in * (depth * (h * w)) + d * (h * w) + (⌈in_y⌉ * w + ⌊in_x⌋)))
              * (in_x - ⌊in_x⌋)
            - (image_data (b_in * (depth * (h * w)) + d * (h * w) + (⌊in_y⌋ * w + ⌊in_x⌋))
              + (image_data (b_in * (depth * (h * w)) + d * (h * w) + (⌊in_y⌋ * w + ⌈in_x⌉))
                - image_data
                    (b_in * (depth * (h * w)) + d * (h * w) + (⌊in_y⌋ * w + ⌊in_x⌋)))
                * (in_x - ⌊in_x⌋))) * (in_y - ⌊in_y⌋))) := by
  obtain ⟨y0, y1, y2⟩ := floor_ceil_bounds h in_y hy
  obtain ⟨x0, x1, x2⟩ := floor_ceil_bounds w in_x hx
  rw [hlen,
    readAt_ok _ _ _ (image_offset_range batch depth h w b_in d _ _ hb hd
      ⟨y0, by omega⟩ ⟨x0, by omega⟩), ok_bind,
    readAt_ok _ _ _ (image_offset_range batch depth h w b_in d _ _ hb hd
      ⟨y0, by omega⟩ ⟨by omega, x2⟩), ok_bind,
    readAt_ok _ _ _ (image_offset_range batch depth h w b_in d _ _ hb hd
      ⟨by omega, y2⟩ ⟨x0, by omega⟩), ok_bind,
    readAt_ok _ _ _ (image_offset_range batch depth h w b_in d _ _ hb hd
      ⟨by omega, y2⟩ ⟨by omega, x2⟩), ok_bind,
    writeAt_ok _ _ _ _ hidx]

/-- With buffers of the stated lengths, each below 2^31 elements, finite region coordinates
and valid batch indices, the checked forward sampler never faults and returns what
`CropAndResizePerBox` computes. -/
theorem CropAndResizePerBox_checked_ok (image_data : Int → ℚ)
    (batch_size depth image_height image_width : Int)
    (boxes_data : Int → ℚ) (box_index_data : Int → Int) (N start_box limit_box : Int)
    (crops_data : Int → ℚ) (crop_height crop_width : Int) (extrapolation_value : ℚ)
    (hh : 0 ≤ image_height ∧ image_height ≤ 2147483647)
    (hw : 0 ≤ image_width ∧ image_width ≤ 2147483647)
    (hch : 0 ≤ crop_height ∧ crop_height ≤ 2147483647)
    (hcw : 0 ≤ crop_width ∧ crop_width ≤ 2147483647)
    (himage : batch_size * (depth * (image_height * image_width)) ≤ 2147483647)
    (hcrops : N * (depth * (crop_height * crop_width)) ≤ 2147483647)
    (hboxes : N * 4 ≤ 2147483647)
    (hstart : 0 ≤ start_box) (hlimit : limit_box ≤ N)
    (hvalid : ∀ b, start_box ≤ b → b < limit_box →
      0 ≤ box_index_data b ∧ box_index_data b < batch_size) :
    CropAndResizePerBox_checked image_data
      (batch_size * (depth * (image_height * image_width)))
      batch_size depth image_height image_width (fun i => some (boxes_data i)) (N * 4)
      box_index_data N
      start_box limit_box crops_data (N * (depth * (crop_height * crop_width)))
      crop_height crop_width extrapolation_value
    = Except.ok (fwdRegions image_data depth image_height image_width boxes_data
        box_index_data start_box limit_box crops_data crop_height crop_width
        extrapolation_value) := by
  have w1 : wrap32 (image_height - 1) = image_height - 1 :=
    wrap32_eq _ (by omega) (by omega)
  have w2 : wrap32 (image_width - 1) = image_width - 1 := wrap32_eq _ (by omega) (by omega)
  have w3 : wrap32 (crop_height - 1) = crop_height - 1 := wrap32_eq _ (by omega) (by omega)
  have w4 : wrap32 (crop_width - 1) = crop_width - 1 := wrap32_eq _ (by omega) (by omega)
  unfold CropAndResizePerBox_checked fwdRegions
  dsimp only
  apply forLoopM_pure
  intro b hb0 hb1 s
  have hbN : 0 ≤ b ∧ b < N := ⟨by omega, by omega⟩
  have hv := hvalid b hb0 hb1
  have hb4 : wrap32 (b * 4) = b * 4 := wrap32_eq _ (by omega) (by omega)
  rw [hb4, readAt_ok _ _ _ (by omega), ok_bind, readAt_ok _ _ _ (by omega), ok_bind,
    readAt_ok _ _ _ (by omega), ok_bind, readAt_ok _ _ _ (by omega), ok_bind,
    readAt_ok _ _ _ hbN, ok_bind,
    if_neg (by intro hbad; rcases hbad with hbad | hbad <;> omega)]
  unfold fwdBox
  dsimp only
  simp only [w1, w2, w3, w4, ofInt, fadd_some, fsub_some, fmul_some, fdiv_some, flt_some,
    ite_some, Int.cast_sub, Int.cast_one]
  have hE : 0 ≤ depth → (b + 1) * (depth * (crop_height * crop_width)) ≤ 2147483647 := by
    intro hd
    have h0 : 0 ≤ depth * (crop_height * crop_width) :=
      Int.mul_nonneg hd (Int.mul_nonneg hch.1 hcw.1)
    have : (b + 1) * (depth * (crop_height * crop_width))
        ≤ N * (depth * (crop_height * crop_width)) :=
      Int.mul_le_mul_of_nonneg_right (by omega) h0
    omega
  have hidx : ∀ d y x, 0 ≤ d → d < depth → 0 ≤ y → y < crop_height → 0 ≤ x →
      x < crop_width →
      0 ≤ depth * (crop_height * crop_width) * b + crop_height * crop_width * d
            + y * crop_width + x
        ∧ depth * (crop_height * crop_width) * b + crop_height * crop_width * d
            + y * crop_width + x < N * (depth * (crop_height * crop_width)) := by
    intro d y x hd0 hd1 hy0 hy1 hx0 hx1
    rw [crops_offset_eq]
    exact idx4_range N depth crop_height crop_width b d y x hbN ⟨hd0, hd1⟩ ⟨hy0, hy1⟩
      ⟨hx0, hx1⟩
  have hoff : ∀ d y x, 0 ≤ d → d < depth → 0 ≤ y → y < crop_height → 0 ≤ x →
      x < crop_width →
      wrap32 (wrap32 (wrap32 (wrap32 (wrap32 (depth * wrap32 (crop_height * crop_width)) * b)
        + wrap32 (wrap32 (crop_height * crop_width) * d)) + wrap32 (y * crop_width)) + x)
      = depth * (crop_height * crop_width) * b + crop_height * crop_width * d
          + y * crop_width + x := by
    intro d y x hd0 hd1 hy0 hy1 hx0 hx1
    rw [crops_offset32 _ _ _ _ _ _ _ hbN.1 ⟨hd0, hd1⟩ ⟨hy0, hy1⟩ ⟨hx0, hx1⟩
      (hE (by omega)), crops_offset_eq]
  apply forLoopM_pure
  intro y hy0 hy1 s
  apply ite_ok_congr
  · intro _
    apply forLoopM_pure
    intro x hx0 hx1 s
    apply forLoopM_pure
    intro d hd0 hd1 s
    rw [hoff d y x hd0 hd1 hy0 hy1 hx0 hx1]
    exact writeAt_ok _ _ _ _ (hidx d y x hd0 hd1 hy0 hy1 hx0 hx1)
  · intro hyr
    apply forLoopM_pure
    intro x hx0 hx1 s
    apply ite_ok_congr
    · intro _
      apply forLoopM_pure
      intro d hd0 hd1 s
      rw [hoff d y x hd0 hd1 hy0 hy1 hx0 hx1]
      exact writeAt_ok _ _ _ _ (hidx d y x hd0 hd1 hy0 hy1 hx0 hx1)
    · intro hxr
      apply forLoopM_pure
      intro d hd0 hd1 s
      obtain ⟨y0, y1, y2⟩ := floor_ceil_bounds image_height _ hyr
      obtain ⟨x0, x1, x2⟩ := floor_ceil_bounds image_width _ hxr
      rw [hoff d y x hd0 hd1 hy0 hy1 hx0 hx1,
        image_offset32 batch_size depth image_height image_width (box_index_data b) d _ _
          hv ⟨hd0, hd1⟩ ⟨y0, by omega⟩ ⟨x0, by omega⟩ himage,
        image_offset32 batch_size depth image_height image_width (box_index_data b) d _ _
          hv ⟨hd0, hd1⟩ ⟨y0, by omega⟩ ⟨by omega, x2⟩ himage,
        image_offset32 batch_size depth image_height image_width (box_index_data b) d _ _
          hv ⟨hd0, hd1⟩ ⟨by omega, y2⟩ ⟨x0, by omega⟩ himage,
        image_offset32 batch_size depth image_height image_width (box_index_data b) d _ _
          hv ⟨hd0, hd1⟩ ⟨by omega, y2⟩ ⟨by omega, x2⟩ himage]
      exact fwd_cell_checked image_data _ batch_size depth image_height image_width
        (box_index_data b) d _ _ s _ _ rfl hv ⟨hd0, hd1⟩ hyr hxr
        (hidx d y x hd0 hd1 hy0 hy1 hx0 hx1)

/-- The checked innermost body of the backward scatterer for an in-range cell never
faults. -/
theorem bwd_cell_checked (grads_data : Int → ℚ) (grads_len image_len batch depth h w : Int)
    (b_in d : Int) (in_y in_x : ℚ) (gid : Int → ℚ) (idx : Int)
    (hlen : image_len = batch * (depth * (h * w)))
    (hb : 0 ≤ b_in ∧ b_in < batch) (hd : 0 ≤ d ∧ d < depth)
    (hy : ¬ (in_y < 0 ∨ in_y > h - 1)) (hx : ¬ (in_x < 0 ∨ in_x > w - 1))
    (hidx : 0 ≤ idx ∧ idx < grads_len) :
    (do
      let grad_val ← readAt grads_data grads_len idx
      let gid ← addAt gid image_len
        (b_in * (depth * (h * w)) + d * (h * w) + (⌊in_y⌋ * w + ⌊in_x⌋))
        ((1 - (in_x - ⌊in_x⌋)) * ((1 - (in_y - ⌊in_y⌋)) * grad_val))
      let gid ← addAt gid image_len
        (b_in * (depth * (h * w)) + d * (h * w) + (⌊in_y⌋ * w + ⌈in_x⌉))
        ((in_x - ⌊in_x⌋) * ((1 - (in_y - ⌊in_y⌋)) * grad_val))
      let gid ← addAt gid image_len
        (b_in * (depth * (h * w)) + d * (h * w) + (⌈in_y⌉ * w + ⌊in_x⌋))
        ((1 - (in_x - ⌊in_x⌋)) * ((in_y - ⌊in_y⌋) * grad_val))
      addAt gid image_len
        (b_in * (depth * (h * w)) + d * (h * w) + (⌈in_y⌉ * w + ⌈in_x⌉))
        ((in_x - ⌊in_x⌋) * ((in_y - ⌊in_y⌋) * grad_val)))
    = Except.ok (accum (accum (accum (accum gid
        (b_in * (depth * (h * w)) + d * (h * w) + (⌊in_y⌋ * w + ⌊in_x⌋))
        ((1 - (in_x - ⌊in_x⌋)) * ((1 - (in_y - ⌊in_y⌋)) * grads_data idx)))
        (b_in * (depth * (h * w)) + d * (h * w) + (⌊in_y⌋ * w + ⌈in_x⌉))
        ((in_x - ⌊in_x⌋) * ((1 - (in_y - ⌊in_y⌋)) * grads_data idx)))
        (b_in * (depth * (h * w)) + d * (h * w) + (⌈in_y⌉ * w + ⌊in_x⌋))
        ((1 - (in_x - ⌊in_x⌋)) * ((in_y - ⌊in_y⌋) * grads_data idx)))
        (b_in * (depth * (h * w)) + d * (h * w) + (⌈in_y⌉ * w + ⌈in_x⌉))
        ((in_x - ⌊in_x⌋) * ((in_y - ⌊in_y⌋) * grads_data idx))) := by
  obtain ⟨y0, y1, y2⟩ := floor_ceil_bounds h in_y hy
  obtain ⟨x0, x1, x2⟩ := floor_ceil_bounds w in_x hx
  rw [hlen, readAt_ok _ _ _ hidx, ok_bind,
    addAt_ok _ _ _ _ (image_offset_range batch depth h w b_in d _ _ hb hd
      ⟨y0, by omega⟩ ⟨x0, by omega⟩), ok_bind,
    addAt_ok _ _ _ _ (image_offset_range batch depth h w b_in d _ _ hb hd
      ⟨y0, by omega⟩ ⟨by omega, x2⟩), ok_bind,
    addAt_ok _ _ _ _ (image_offset_range batch depth h w b_in d _ _ hb hd
      ⟨by omega, y2⟩ ⟨x0, by omega⟩), ok_bind,
    addAt_ok _ _ _ _ (image_offset_range batch depth h w b_in d _ _ hb hd
      ⟨by omega, y2⟩ ⟨by omega, x2⟩)]

theorem bind_ok_of_eq {ε α β : Type} (L : Except ε α) (v : α) (f : α → Except ε β)
    (h : L = Except.ok v) : (L >>= f) = f v := by
  rw [h]
  rfl

/-- With tensors of consistent shapes, each size a non-negative `int` and each tensor below
2^31 elements, finite region coordinates and valid batch indices, the checked backward
scatterer never faults and returns what `crop_and_resize_backward` computes. -/
theorem crop_and_resize_backward_checked_ok (grads boxes : Tensor ℚ) (box_index : Tensor Int)
    (grads_image : Tensor ℚ) (batch depth h w N ch cw : Int)
    (hbatch : 0 ≤ batch ∧ batch ≤ 2147483647) (hdepth : 0 ≤ depth ∧ depth ≤ 2147483647)
    (hh : 0 ≤ h ∧ h ≤ 2147483647) (hw : 0 ≤ w ∧ w ≤ 2147483647)
    (hN : 0 ≤ N ∧ N ≤ 2147483647)
    (hch : 0 ≤ ch ∧ ch ≤ 2147483647) (hcw : 0 ≤ cw ∧ cw ≤ 2147483647)
    (himage : batch * (depth * (h * w)) ≤ 2147483647)
    (hcrops : N * (depth * (ch * cw)) ≤ 2147483647)
    (hboxes : N * 4 ≤ 2147483647)
    (hgi : grads_image.sizes = [batch, depth, h, w])
    (hg : grads.sizes = [N, depth, ch, cw])
    (hbx : boxes.sizes = [N, 4]) (hix : box_index.sizes = [N])
    (hvalid : ∀ b, 0 ≤ b → b < N → 0 ≤ box_index.data b ∧ box_index.data b < batch) :
    crop_and_resize_backward_checked grads (finiteCoords boxes) box_index grads_image
      = Except.ok (bwdResult grads boxes box_index grads_image) ∧
    crop_and_resize_backward grads boxes box_index grads_image
      = Except.ok (bwdResult grads boxes box_index grads_image) := by
  obtain ⟨gi_sizes, gi_data⟩ := grads_image
  obtain ⟨g_sizes, g_data⟩ := grads
  obtain ⟨bx_sizes, bx_data⟩ := boxes
  obtain ⟨ix_sizes, ix_data⟩ := box_index
  simp only at hgi hg hbx hix hvalid
  subst hgi hg hbx hix
  have hv : ∀ b, 0 ≤ b →
      b < (Tensor.mk [N, depth, ch, cw] g_data).size 0 →
      0 ≤ (Tensor.mk [N] ix_data).data b
        ∧ (Tensor.mk [N] ix_data).data b < (Tensor.mk [batch, depth, h, w] gi_data).size 0 :=
    fun b hb0 hb1 => hvalid b hb0 hb1
  have hplain := crop_and_resize_backward_ok (Tensor.mk [N, depth, ch, cw] g_data)
    (Tensor.mk [N, 4] bx_data) (Tensor.mk [N] ix_data) (Tensor.mk [batch, depth, h, w] gi_data)
    hv
  refine ⟨?_, hplain⟩
  -- the plain region loop computes the data of the closed form
  have hloop : forLoop 0 N (fun b grads_image_data =>
      bwdBox g_data depth h w ch cw (bx_data (b * 4 + 0)) (bx_data (b * 4 + 1))
        (bx_data (b * 4 + 2)) (bx_data (b * 4 + 3)) (ix_data b) b grads_image_data)
      (Tensor.mk [batch, depth, h, w] gi_data).zero_.data
      = (bwdResult (Tensor.mk [N, depth, ch, cw] g_data) (Tensor.mk [N, 4] bx_data)
          (Tensor.mk [N] ix_data) (Tensor.mk [batch, depth, h, w] gi_data)).data := by
    funext j
    unfold bwdResult totalGrad
    apply forLoop_add
    intro b _ _ m
    exact bwdBox_apply _ _ _ _ _ _ _ _ _ _ _ _ _ _
  have n1 : (Tensor.mk [batch, depth, h, w] gi_data).zero_.numel
      = batch * (depth * (h * w)) := by
    simp [Tensor.numel, Tensor.zero_]
  have n2 : (Tensor.mk [N, depth, ch, cw] g_data).numel = N * (depth * (ch * cw)) := by
    simp [Tensor.numel]
  have n3 : (finiteCoords (Tensor.mk [N, 4] bx_data)).numel = N * 4 := by
    simp [Tensor.numel, finiteCoords]
  have n4 : (Tensor.mk [N] ix_data).numel = N := by simp [Tensor.numel]
  have s0 : wrap32 ((Tensor.mk [batch, depth, h, w] gi_data).size 0) = batch :=
    wrap32_eq batch (by omega) (by omega)
  have s1 : wrap32 ((Tensor.mk [batch, depth, h, w] gi_data).size 1) = depth :=
    wrap32_eq depth (by omega) (by omega)
  have s2 : wrap32 ((Tensor.mk [batch, depth, h, w] gi_data).size 2) = h :=
    wrap32_eq h (by omega) (by omega)
  have s3 : wrap32 ((Tensor.mk [batch, depth, h, w] gi_data).size 3) = w :=
    wrap32_eq w (by omega) (by omega)
  have s4 : wrap32 ((Tensor.mk [N, depth, ch, cw] g_data).size 0) = N :=
    wrap32_eq N (by omega) (by omega)
  have s5 : wrap32 ((Tensor.mk [N, depth, ch, cw] g_data).size 2) = ch :=
    wrap32_eq ch (by omega) (by omega)
  have s6 : wrap32 ((Tensor.mk [N, depth, ch, cw] g_data).size 3) = cw :=
    wrap32_eq cw (by omega) (by omega)
  have w1 : wrap32 (h - 1) = h - 1 := wrap32_eq _ (by omega) (by omega)
  have w2 : wrap32 (w - 1) = w - 1 := wrap32_eq _ (by omega) (by omega)
  have w3 : wrap32 (ch - 1) = ch - 1 := wrap32_eq _ (by omega) (by omega)
  have w4 : wrap32 (cw - 1) = cw - 1 := wrap32_eq _ (by omega) (by omega)
  unfold crop_and_resize_backward_checked
  dsimp only
  rw [s0, s1, s2, s3, s4, s5, s6, n1, n2, n3, n4]
  refine (bind_ok_of_eq _
    (bwdResult (Tensor.mk [N, depth, ch, cw] g_data) (Tensor.mk [N, 4] bx_data)
      (Tensor.mk [N] ix_data) (Tensor.mk [batch, depth, h, w] gi_data)).data _ ?_).trans ?_
  · rw [← hloop]
    apply forLoopM_pure
    intro b hb0 hb1 s
    have hbN : 0 ≤ b ∧ b < N := ⟨hb0, hb1⟩
    have hvb := hvalid b hb0 hb1
    have hb4 : wrap32 (b * 4) = b * 4 := wrap32_eq _ (by omega) (by omega)
    rw [hb4, readAt_ok _ _ _ (by omega), ok_bind, readAt_ok _ _ _ (by omega), ok_bind,
      readAt_ok _ _ _ (by omega), ok_bind, readAt_ok _ _ _ (by omega), ok_bind,
      readAt_ok _ _ _ hbN, ok_bind]
    rw [if_neg (by
      intro hbad
      have hbad1 : ix_data b < 0 ∨ ix_data b ≥ batch := hbad
      rcases hbad1 with hbad1 | hbad1 <;> omega)]
    unfold bwdBox finiteCoords
    dsimp only
    simp only [w1, w2, w3, w4, ofInt, fadd_some, fsub_some, fmul_some, fdiv_some, flt_some,
      ite_some, Int.cast_sub, Int.cast_one]
    have hE : (b + 1) * (depth * (ch * cw)) ≤ 2147483647 := by
      have h0 : 0 ≤ depth * (ch * cw) :=
        Int.mul_nonneg hdepth.1 (Int.mul_nonneg hch.1 hcw.1)
      have : (b + 1) * (depth * (ch * cw)) ≤ N * (depth * (ch * cw)) :=
        Int.mul_le_mul_of_nonneg_right (by omega) h0
      omega
    have hidx : ∀ d y x, 0 ≤ d → d < depth → 0 ≤ y → y < ch → 0 ≤ x → x < cw →
        0 ≤ depth * (ch * cw) * b + ch * cw * d + y * cw + x
          ∧ depth * (ch * cw) * b + ch * cw * d + y * cw + x < N * (depth * (ch * cw)) := by
      intro d y x hd0 hd1 hy0 hy1 hx0 hx1
      rw [crops_offset_eq]
      exact idx4_range N depth ch cw b d y x hbN ⟨hd0, hd1⟩ ⟨hy0, hy1⟩ ⟨hx0, hx1⟩
    have hoff : ∀ d y x, 0 ≤ d → d < depth → 0 ≤ y → y < ch → 0 ≤ x → x < cw →
        wrap32 (wrap32 (wrap32 (wrap32 (wrap32 (depth * wrap32 (ch * cw)) * b)
          + wrap32 (wrap32 (ch * cw) * d)) + wrap32 (y * cw)) + x)
        = depth * (ch * cw) * b + ch * cw * d + y * cw + x := by
      intro d y x hd0 hd1 hy0 hy1 hx0 hx1
      rw [crops_offset32 _ _ _ _ _ _ _ hbN.1 ⟨hd0, hd1⟩ ⟨hy0, hy1⟩ ⟨hx0, hx1⟩ hE,
        crops_offset_eq]
    apply forLoopM_pure
    intro y hy0 hy1 s
    apply ite_ok_congr
    · intro _
      rfl
    · intro hyr
      apply forLoopM_pure
      intro x hx0 hx1 s
      apply ite_ok_congr
      · intro _
        rfl
      · intro hxr
        apply forLoopM_pure
        intro d hd0 hd1 s
        obtain ⟨y0, y1, y2⟩ := floor_ceil_bounds h _ hyr
        obtain ⟨x0, x1, x2⟩ := floor_ceil_bounds w _ hxr
        rw [hoff d y x hd0 hd1 hy0 hy1 hx0 hx1,
          image_offset32 batch depth h w (ix_data b) d _ _
            hvb ⟨hd0, hd1⟩ ⟨y0, by omega⟩ ⟨x0, by omega⟩ himage,
          image_offset32 batch depth h w (ix_data b) d _ _
            hvb ⟨hd0, hd1⟩ ⟨y0, by omega⟩ ⟨by omega, x2⟩ himage,
          image_offset32 batch depth h w (ix_data b) d _ _
            hvb ⟨hd0, hd1⟩ ⟨by omega, y2⟩ ⟨x0, by omega⟩ himage,
          image_offset32 batch depth h w (ix_data b) d _ _
            hvb ⟨hd0, hd1⟩ ⟨by omega, y2⟩ ⟨by omega, x2⟩ himage]
        exact bwd_cell_checked g_data _ _ batch depth h w (ix_data b) d _ _ s _ rfl hvb
          ⟨hd0, hd1⟩ hyr hxr (hidx d y x hd0 hd1 hy0 hy1 hx0 hx1)
  · rfl

theorem forLoopM_fault {σ ε : Type} (lo hi : Int) (bodyM : Int → σ → Except ε σ) (s : σ)
    (e : ε) (hlt : lo < hi) (h : bodyM lo s = Except.error e) :
    forLoopM lo hi bodyM s = Except.error e := by
  unfold forLoopM
  obtain ⟨n, hn⟩ : ∃ n, (hi - lo).toNat = n + 1 := ⟨(hi - lo).toNat - 1, by omega⟩
  rw [hn]
  simp only [forFromM]
  rw [h]

theorem fop_none_left (f : ℚ → ℚ → ℚ) (b : Option ℚ) : fop f none b = none := rfl

theorem fop_none_right (f : ℚ → ℚ → ℚ) (a : Option ℚ) : fop f a none = none := by
  cases a <;> rfl

theorem flt_none_left (b : Option ℚ) : flt none b = False := rfl

theorem flt_none_right (a : Option ℚ) : flt a none = False := by
  cases a <;> rfl

theorem forFrom_congr {σ : Type} (f g : Int → σ → σ) :
    ∀ (n : Nat) (i : Int) (s : σ),
      (∀ k, i ≤ k → k < i + n → ∀ s, f k s = g k s) →
      forFrom f n i s = forFrom g n i s := by
  intro n
  induction n with
  | zero => intro i s _; rfl
  | succ n ih =>
    intro i s h
    simp only [forFrom]
    rw [h i (le_refl i) (by push_cast; omega) s]
    exact ih (i + 1) (g i s) (fun k hk1 hk2 => h k (by omega) (by push_cast; omega))

theorem forLoop_congr {σ : Type} (lo hi : Int) (f g : Int → σ → σ) (s : σ)
    (h : ∀ k, lo ≤ k → k < hi → ∀ s, f k s = g k s) :
    forLoop lo hi f s = forLoop lo hi g s := by
  unfold forLoop
  exact forFrom_congr f g _ lo s (fun k hk1 hk2 => h k hk1 (by omega))

theorem forFromM_congr {σ ε : Type} (f g : Int → σ → Except ε σ) :
    ∀ (n : Nat) (i : Int) (s : σ),
      (∀ k, i ≤ k → k < i + n → ∀ s, f k s = g k s) →
      forFromM f n i s = forFromM g n i s := by
  intro n
  induction n with
  | zero => intro i s _; rfl
  | succ n ih =>
    intro i s h
    simp only [forFromM]
    rw [h i (le_refl i) (by push_cast; omega) s]
    cases g i s with
    | error e => rfl
    | ok s1 => exact ih (i + 1) s1 (fun k hk1 hk2 => h k (by omega) (by push_cast; omega))

theorem forLoopM_congr {σ ε : Type} (lo hi : Int) (f g : Int → σ → Except ε σ) (s : σ)
    (h : ∀ k, lo ≤ k → k < hi → ∀ s, f k s = g k s) :
    forLoopM lo hi f s = forLoopM lo hi g s := by
  unfold forLoopM
  exact forFromM_congr f g _ lo s (fun k hk1 hk2 => h k hk1 (by omega))

theorem ite_branch_congr {α : Type} (c : Prop) [Decidable c] (A B A1 B1 : α)
    (hA : c → A = A1) (hB : ¬ c → B = B1) :
    (if c then A else B) = (if c then A1 else B1) := by
  by_cases h : c
  · rw [if_pos h, if_pos h]; exact hA h
  · rw [if_neg h, if_neg h]; exact hB h

/-- When every size is a non-negative `int` and the image, the processed part of the region
list and the processed part of the output grid stay below 2^31 elements, no `int` operation
of `CropAndResizePerBox` overflows: the sampler with 32-bit arithmetic and the sampler over
the mathematical integers return the same result. -/
theorem CropAndResizePerBox_i32_exact (image_data : Int → ℚ)
    (batch_size depth image_height image_width : Int)
    (boxes_data : Int → ℚ) (box_index_data : Int → Int) (start_box limit_box : Int)
    (crops_data : Int → ℚ) (crop_height crop_width : Int) (extrapolation_value : ℚ)
    (hh : 0 ≤ image_height ∧ image_height ≤ 2147483647)
    (hw : 0 ≤ image_width ∧ image_width ≤ 2147483647)
    (hch : 0 ≤ crop_height ∧ crop_height ≤ 2147483647)
    (hcw : 0 ≤ crop_width ∧ crop_width ≤ 2147483647)
    (himage : batch_size * (depth * (image_height * image_width)) ≤ 2147483647)
    (hcrops : limit_box * (depth * (crop_height * crop_width)) ≤ 2147483647)
    (hboxes : limit_box * 4 ≤ 2147483647)
    (hstart : 0 ≤ start_box) :
    CropAndResizePerBox_i32 image_data batch_size depth image_height image_width boxes_data
      box_index_data start_box limit_box crops_data crop_height crop_width extrapolation_value
    = CropAndResizePerBox image_data batch_size depth image_height image_width boxes_data
      box_index_data start_box limit_box crops_data crop_height crop_width
      extrapolation_value := by
  have w1 : wrap32 (image_height - 1) = image_height - 1 :=
    wrap32_eq _ (by omega) (by omega)
  have w2 : wrap32 (image_width - 1) = image_width - 1 := wrap32_eq _ (by omega) (by omega)
  have w3 : wrap32 (crop_height - 1) = crop_height - 1 := wrap32_eq _ (by omega) (by omega)
  have w4 : wrap32 (crop_width - 1) = crop_width - 1 := wrap32_eq _ (by omega) (by omega)
  rw [CropAndResizePerBox_eq]
  unfold CropAndResizePerBox_i32
  dsimp only
  apply forLoopM_congr
  intro b hb0 hb1 s
  by_cases hbad : box_index_data b < 0 ∨ box_index_data b ≥ batch_size
  · rw [if_pos hbad, if_pos hbad]
  · rw [if_neg hbad, if_neg hbad]
    have hv : 0 ≤ box_index_data b ∧ box_index_data b < batch_size := by
      constructor
      · by_contra hc; exact hbad (Or.inl (by omega))
      · by_contra hc; exact hbad (Or.inr (by omega))
    have hb4 : wrap32 (b * 4) = b * 4 := wrap32_eq _ (by omega) (by omega)
    rw [hb4]
    unfold fwdBox
    dsimp only
    simp only [w1, w2, w3, w4, Int.cast_sub, Int.cast_one]
    have hE : 0 ≤ depth → (b + 1) * (depth * (crop_height * crop_width)) ≤ 2147483647 := by
      intro hd
      have h0 : 0 ≤ depth * (crop_height * crop_width) :=
        Int.mul_nonneg hd (Int.mul_nonneg hch.1 hcw.1)
      have : (b + 1) * (depth * (crop_height * crop_width))
          ≤ limit_box * (depth * (crop_height * crop_width)) :=
        Int.mul_le_mul_of_nonneg_right (by omega) h0
      omega
    have hoff : ∀ d y x, 0 ≤ d → d < depth → 0 ≤ y → y < crop_height → 0 ≤ x →
        x < crop_width →
        wrap32 (wrap32 (wrap32 (wrap32
          (wrap32 (depth * wrap32 (crop_height * crop_width)) * b)
          + wrap32 (wrap32 (crop_height * crop_width) * d)) + wrap32 (y * crop_width)) + x)
        = depth * (crop_height * crop_width) * b + crop_height * crop_width * d
            + y * crop_width + x := by
      intro d y x hd0 hd1 hy0 hy1 hx0 hx1
      rw [crops_offset32 _ _ _ _ _ _ _ (by omega) ⟨hd0, hd1⟩ ⟨hy0, hy1⟩ ⟨hx0, hx1⟩
        (hE (by omega)), crops_offset_eq]
    congr 1
    apply forLoop_congr
    intro y hy0 hy1 s
    apply ite_branch_congr
    · intro _
      apply forLoop_congr
      intro x hx0 hx1 s
      apply forLoop_congr
      intro d hd0 hd1 s
      rw [hoff d y x hd0 hd1 hy0 hy1 hx0 hx1]
    · intro hyr
      apply forLoop_congr
      intro x hx0 hx1 s
      apply ite_branch_congr
      · intro _
        apply forLoop_congr
        intro d hd0 hd1 s
        rw [hoff d y x hd0 hd1 hy0 hy1 hx0 hx1]
      · intro hxr
        apply forLoop_congr
        intro d hd0 hd1 s
        obtain ⟨y0, y1, y2⟩ := floor_ceil_bounds image_height _ hyr
        obtain ⟨x0, x1, x2⟩ := floor_ceil_bounds image_width _ hxr
        rw [hoff d y x hd0 hd1 hy0 hy1 hx0 hx1,
          image_offset32 batch_size depth image_height image_width (box_index_data b) d _ _
            hv ⟨hd0, hd1⟩ ⟨y0, by omega⟩ ⟨x0, by omega⟩ himage,
          image_offset32 batch_size depth image_height image_width (box_index_data b) d _ _
            hv ⟨hd0, hd1⟩ ⟨y0, by omega⟩ ⟨by omega, x2⟩ himage,
          image_offset32 batch_size depth image_height image_width (box_index_data b) d _ _
            hv ⟨hd0, hd1⟩ ⟨by omega, y2⟩ ⟨x0, by omega⟩ himage,
          image_offset32 batch_size depth image_height image_width (box_index_data b) d _ _
            hv ⟨hd0, hd1⟩ ⟨by omega, y2⟩ ⟨by omega, x2⟩ himage]

end CropAndResize
